import Mathlib

/-!
# Local expansion and operator-matrix layer of the spectral/hp element library

Shallow embedding of `TetExp.cpp`, `TriExp.cpp`, `StdPyrExp.cpp` and
`NodalTriFekete.cpp`.  `NekDouble` is read as an exact field `K`
(the statements are instantiated at `ℚ` for evaluation), arrays
`Array<OneD, T>` are read as total index functions `ℕ → T`, and a dense
matrix carries its run-time dimensions together with its entry accessor.
-/

namespace Nektar

/-! ## Dense and scaled matrices -/

/-- Dense matrix `DNekMat`: run-time dimensions and the accessor `operator()(i,j)`.
Entries outside the dimensions carry no meaning. -/
structure DNekMat (K : Type) where
  rows : ℕ
  cols : ℕ
  e : ℕ → ℕ → K

/-- Scaled matrix `DNekScalMat`: a scalar and the owned dense matrix. -/
structure DNekScalMat (K : Type) where
  scale : K
  owned : DNekMat K

/-- Block matrix `DNekScalBlkMat` with `2 x 2` blocks addressed by `GetBlock(i,j)`. -/
structure DNekScalBlkMat (K : Type) where
  b00 : DNekScalMat K
  b01 : DNekScalMat K
  b10 : DNekScalMat K
  b11 : DNekScalMat K

/-- Unscaled block matrix `DNekBlkMat` with `2 x 2` blocks. -/
structure DNekBlkMat (K : Type) where
  b00 : DNekMat K
  b01 : DNekMat K
  b10 : DNekMat K
  b11 : DNekMat K

section MatrixOps

variable {K : Type} [Field K]

/-- The entries of a dense matrix inside its dimensions, as a Mathlib matrix. -/
def DNekMat.toMatrix (m : DNekMat K) : Matrix (Fin m.rows) (Fin m.cols) K :=
  fun i j => m.e i.val j.val

/-- The entries of a dense matrix read at given dimensions. -/
def DNekMat.toMatrixOf (r c : ℕ) (m : DNekMat K) : Matrix (Fin r) (Fin c) K :=
  fun i j => m.e i.val j.val

/-- A dense matrix of dimensions `r x c` holding the given entries. -/
def DNekMat.ofMatrix {r c : ℕ} (M : Matrix (Fin r) (Fin c) K) : DNekMat K :=
  { rows := r
    cols := c
    e := fun i j => if h : i < r ∧ j < c then M ⟨i, h.1⟩ ⟨j, h.2⟩ else 0 }

/-- Product `a * M` of a scalar with a dense matrix. -/
def DNekMat.smul (a : K) (m : DNekMat K) : DNekMat K :=
  { rows := m.rows, cols := m.cols, e := fun i j => a * m.e i j }

/-- Sum `M + N` of dense matrices. -/
def DNekMat.add (m n : DNekMat K) : DNekMat K :=
  { rows := m.rows, cols := m.cols, e := fun i j => m.e i j + n.e i j }

/-- Difference `M - N` of dense matrices. -/
def DNekMat.sub (m n : DNekMat K) : DNekMat K :=
  { rows := m.rows, cols := m.cols, e := fun i j => m.e i j - n.e i j }

/-- Product `M * N` of dense matrices. -/
def DNekMat.mul (m n : DNekMat K) : DNekMat K :=
  { rows := m.rows
    cols := n.cols
    e := fun i j => ∑ k in Finset.range m.cols, m.e i k * n.e k j }

/-- The function `Transpose(M)`. -/
def Transpose (m : DNekMat K) : DNekMat K :=
  { rows := m.cols, cols := m.rows, e := fun i j => m.e j i }

/-- Modelled from the spec: `NekMatrix::Invert` (the matrix class is not part of the
sources at hand), which replaces a square matrix by its inverse ("inversion of the
interior-interior block D").  The inverse is computed as adjugate over determinant. -/
def DNekMat.Invert (m : DNekMat K) : DNekMat K :=
  let M : Matrix (Fin m.rows) (Fin m.rows) K := fun i j => m.e i.val j.val
  DNekMat.ofMatrix ((M.det)⁻¹ • M.adjugate)

instance : SMul K (DNekMat K) := ⟨DNekMat.smul⟩
instance : Add (DNekMat K) := ⟨DNekMat.add⟩
instance : Sub (DNekMat K) := ⟨DNekMat.sub⟩
instance : Mul (DNekMat K) := ⟨DNekMat.mul⟩

/-- Accessor `operator()(i,j)` of a scaled matrix: the scale times the owned entry. -/
def DNekScalMat.entry (m : DNekScalMat K) (i j : ℕ) : K := m.scale * m.owned.e i j

/-- Method `GetRows` of a scaled matrix. -/
def DNekScalMat.GetRows (m : DNekScalMat K) : ℕ := m.owned.rows

/-- Method `GetColumns` of a scaled matrix. -/
def DNekScalMat.GetColumns (m : DNekScalMat K) : ℕ := m.owned.cols

end MatrixOps

/-! ## Assertions -/

/-- Modelled from the spec: the assertion macros `ASSERTL0`, `ASSERTL1`, `ASSERTL2`
(`ErrorUtil.hpp` is not part of the sources at hand): an invariant violation is
"reported via a fatal assertion carrying a descriptive message; the operation aborts
immediately". -/
def ASSERTL (cond : Bool) (msg : String) : Except String Unit :=
  if cond then pure () else throw msg

/-! ## Matrix keys -/

/-- The geometry classification `SpatialDomains::GeomType`. -/
inductive GeomType
  | eNoGeomType
  | eRegular
  | eMovingRegular
  | eDeformed
  deriving DecidableEq, Repr

/-- The element shapes `LibUtilities::ShapeType`. -/
inductive ShapeType
  | eSegment
  | eTriangle
  | eQuadrilateral
  | eTetrahedron
  | ePyramid
  | ePrism
  | eHexahedron
  deriving DecidableEq, Repr

/-- The matrix kinds `StdRegions::MatrixType` named in the sources; `other` stands for
the remaining enumerators, which the element classes treat uniformly. -/
inductive MatrixType
  | eMass
  | eInvMass
  | eLaplacian
  | eLaplacian00
  | eLaplacian01
  | eLaplacian02
  | eLaplacian11
  | eLaplacian12
  | eLaplacian22
  | eWeakDeriv0
  | eWeakDeriv1
  | eWeakDeriv2
  | eHelmholtz
  | eLinearAdvectionReaction
  | eIProductWRTBase
  | eIProductWRTDerivBase0
  | eIProductWRTDerivBase1
  | eIProductWRTDerivBase2
  | eHybridDGHelmholtz
  | eHybridDGLamToU
  | eHybridDGLamToQ0
  | eHybridDGLamToQ1
  | eHybridDGLamToQ2
  | eHybridDGHelmBndLam
  | eInvHybridDGHelmholtz
  | eInvLaplacianWithUnityMean
  | ePreconLinearSpace
  | ePreconR
  | ePreconRT
  | other (code : ℕ)
  deriving DecidableEq, Repr

/-- The constant-factor names `StdRegions::ConstFactorType` named in the sources. -/
inductive ConstFactorType
  | eFactorLambda
  | eFactorSVVCutoffRatio
  | other (code : ℕ)
  deriving DecidableEq, Repr

/-- Modelled from the spec: the matrix key (`MatrixKey` / `StdMatrixKey`, whose class is
not part of the sources at hand), "composite key = matrix-kind enum, element shape,
reference-expansion identity, optional scalar constant-factor map, optional
variable-coefficient map".  The reference expansion is always the element that owns the
manager and is left implicit. -/
structure MatrixKey (K : Type) where
  mtype : MatrixType
  shape : ShapeType
  factors : List (ConstFactorType × K)
  varcoeffs : List (ℕ × List K)
  deriving DecidableEq

section Keys

variable {K : Type}

/-- Method `GetMatrixType`. -/
def MatrixKey.GetMatrixType (k : MatrixKey K) : MatrixType := k.mtype

/-- Method `GetShapeType`. -/
def MatrixKey.GetShapeType (k : MatrixKey K) : ShapeType := k.shape

/-- Method `GetNVarCoeff`: the number of variable coefficients carried by the key. -/
def MatrixKey.GetNVarCoeff (k : MatrixKey K) : ℕ := k.varcoeffs.length

/-- Method `ConstFactorExists`. -/
def MatrixKey.ConstFactorExists (k : MatrixKey K) (f : ConstFactorType) : Bool :=
  (k.factors.lookup f).isSome

/-- Method `GetConstFactor`: the value stored under the factor name; asking for a factor
that is not defined is an invariant violation. -/
def MatrixKey.GetConstFactor (k : MatrixKey K) (f : ConstFactorType) : Except String K :=
  match k.factors.lookup f with
  | some v => pure v
  | none => throw "Constant factor not defined"

/-- Constructor `MatrixKey(type, shape, *this)`. -/
def MatrixKey.mk3 (t : MatrixType) (s : ShapeType) : MatrixKey K :=
  { mtype := t, shape := s, factors := [], varcoeffs := [] }

/-- Constructor `MatrixKey(mkey, type)`: a copy of `mkey` with another matrix kind. -/
def MatrixKey.retype (k : MatrixKey K) (t : MatrixType) : MatrixKey K :=
  { k with mtype := t }

end Keys

/-! ## Local expansions: the parts of an element the matrix code reads -/

/-- The data of a local expansion (`TetExp`, `TriExp`) that the matrix-creation code
reads.  The geometric factors, the boundary and interior maps and the routines of the
base classes (`StdTetExp`, `StdTriExp`, `Expansion2D`, `Expansion3D`), which are not part
of the sources at hand, are fields. -/
structure LocalExp (K : Type) where
  /-- Member `m_ncoeffs`. -/
  m_ncoeffs : ℕ
  /-- Result of `NumBndryCoeffs()`. -/
  NumBndryCoeffs : ℕ
  /-- Result of `DetShapeType()`. -/
  DetShapeType : ShapeType
  /-- Result of `m_metricinfo->GetGtype()`. -/
  Gtype : GeomType
  /-- Result of `m_metricinfo->GetJac()`. -/
  Jac : ℕ → K
  /-- Result of `m_metricinfo->GetDerivFactors()`. -/
  DerivFactors : ℕ → ℕ → K
  /-- Result of `m_metricinfo->GetGmat()`. -/
  Gmat : ℕ → ℕ → K
  /-- Array filled by `GetBoundaryMap`. -/
  bmap : ℕ → ℕ
  /-- Array filled by `GetInteriorMap`. -/
  imap : ℕ → ℕ
  /-- Routine `v_GenMatrix` of the standard element (`StdTetExp`, `StdTriExp`). -/
  StdGenMatrix : MatrixKey K → DNekMat K
  /-- Routine `v_GenMatrix` of `Expansion2D` / `Expansion3D`. -/
  ExpansionGenMatrix : MatrixKey K → DNekMat K
  /-- Routine `GetStdMatrix`: the reference-space matrix of a key. -/
  GetStdMatrix : MatrixKey K → DNekMat K
  /-- Routine `GetStdStaticCondMatrix`. -/
  GetStdStaticCondMatrix : MatrixKey K → DNekBlkMat K
  /-- Routine `BuildVertexMatrix`. -/
  BuildVertexMatrix : DNekScalMat K → DNekMat K
  /-- Routine `BuildTransformationMatrix`. -/
  BuildTransformationMatrix : DNekScalMat K → MatrixType → DNekMat K
  /-- Result of `GetTotPoints()`. -/
  TotPoints : ℕ
  /-- Routine `v_IProductWRTBase(inarray, outarray)`: the array written to `outarray`. -/
  IProductWRTBase : (ℕ → K) → (ℕ → K) → (ℕ → K)
  /-- Results of `m_base[i]->Collocation()`. -/
  Collocation : ℕ → Bool

/-- Rank of a matrix kind in the call order of the matrix managers: the preconditioner
kinds ask for the statically condensed Helmholtz matrix, which asks for the Helmholtz
matrix, which asks for the mass and Laplacian matrices. -/
def MatrixType.rank : MatrixType → ℕ
  | .ePreconLinearSpace => 2
  | .ePreconR => 2
  | .ePreconRT => 2
  | .eHelmholtz => 1
  | _ => 0

section TetExp

variable {K : Type} [Field K]

/-- The routine `TetExp::v_GenMatrix`. -/
def TetExp.GenMatrix (X : LocalExp K) (mkey : MatrixKey K) : DNekMat K :=
  match mkey.GetMatrixType with
  | .eHybridDGHelmholtz => X.ExpansionGenMatrix mkey
  | .eHybridDGLamToU => X.ExpansionGenMatrix mkey
  | .eHybridDGLamToQ0 => X.ExpansionGenMatrix mkey
  | .eHybridDGLamToQ1 => X.ExpansionGenMatrix mkey
  | .eHybridDGLamToQ2 => X.ExpansionGenMatrix mkey
  | .eHybridDGHelmBndLam => X.ExpansionGenMatrix mkey
  | .eInvLaplacianWithUnityMean => X.ExpansionGenMatrix mkey
  | _ => X.StdGenMatrix mkey

/-- The block `UseLocRegionsMatrix` shared by `TetExp::CreateStaticCondMatrix` and
`TriExp::CreateStaticCondMatrix`: the local matrix `mat` is split by the boundary and
interior maps and the interior block is condensed out. -/
def UseLocRegionsMatrix (X : LocalExp K) (factor : K) (mat : DNekScalMat K) :
    DNekScalBlkMat K :=
  let nbdry := X.NumBndryCoeffs
  let nint := X.m_ncoeffs - nbdry
  let invfactor : K := 1 / factor
  let one : K := 1
  let A : DNekMat K := ⟨nbdry, nbdry, fun i j => mat.entry (X.bmap i) (X.bmap j)⟩
  let B : DNekMat K := ⟨nbdry, nint, fun i j => mat.entry (X.bmap i) (X.imap j)⟩
  let C : DNekMat K := ⟨nint, nbdry, fun i j => mat.entry (X.imap i) (X.bmap j)⟩
  let D : DNekMat K := ⟨nint, nint, fun i j => mat.entry (X.imap i) (X.imap j)⟩
  -- Calculate static condensed system
  if nint ≠ 0 then
    let D1 := D.Invert
    let B1 := B * D1
    let A1 := A - B1 * C
    ⟨⟨factor, A1⟩, ⟨one, B1⟩, ⟨factor, C⟩, ⟨invfactor, D1⟩⟩
  else
    ⟨⟨factor, A⟩, ⟨one, B⟩, ⟨factor, C⟩, ⟨invfactor, D⟩⟩

/-- The block `UseStdRegionsMatrix` shared by `TetExp::CreateStaticCondMatrix` and
`TriExp::CreateStaticCondMatrix`. -/
def UseStdRegionsMatrix (X : LocalExp K) (factor : K) (mkey : MatrixKey K) :
    DNekScalBlkMat K :=
  let invfactor : K := 1 / factor
  let one : K := 1
  let mat := X.GetStdStaticCondMatrix mkey
  ⟨⟨factor, mat.b00⟩, ⟨one, mat.b01⟩, ⟨factor, mat.b10⟩, ⟨invfactor, mat.b11⟩⟩

mutual

/-- The routine `TetExp::CreateMatrix`. -/
def TetExp.CreateMatrix (X : LocalExp K) (mkey : MatrixKey K) :
    Except String (DNekScalMat K) := do
  ASSERTL (X.Gtype != .eNoGeomType) "Geometric information is not set up"
  match hm : mkey.mtype with
  | .eMass =>
    if X.Gtype = .eDeformed ∨ mkey.GetNVarCoeff ≠ 0 then
      pure ⟨1, TetExp.GenMatrix X mkey⟩
    else
      pure ⟨X.Jac 0, X.GetStdMatrix mkey⟩
  | .eInvMass =>
    if X.Gtype = .eDeformed then
      let masskey : MatrixKey K := MatrixKey.mk3 .eMass X.DetShapeType
      pure ⟨1, (TetExp.GenMatrix X masskey).Invert⟩
    else
      pure ⟨1 / X.Jac 0, X.GetStdMatrix mkey⟩
  | .eWeakDeriv0 | .eWeakDeriv1 | .eWeakDeriv2 =>
    if X.Gtype = .eDeformed ∨ mkey.GetNVarCoeff ≠ 0 then
      pure ⟨1, TetExp.GenMatrix X mkey⟩
    else
      let jac := X.Jac 0
      let df := X.DerivFactors
      let dir : ℕ :=
        match mkey.GetMatrixType with
        | .eWeakDeriv0 => 0
        | .eWeakDeriv1 => 1
        | .eWeakDeriv2 => 2
        | _ => 0
      let deriv0 := X.GetStdMatrix (MatrixKey.mk3 .eWeakDeriv0 mkey.GetShapeType)
      let deriv1 := X.GetStdMatrix (MatrixKey.mk3 .eWeakDeriv1 mkey.GetShapeType)
      let deriv2 := X.GetStdMatrix (MatrixKey.mk3 .eWeakDeriv2 mkey.GetShapeType)
      let WeakDeriv := df (3 * dir) 0 • deriv0 + df (3 * dir + 1) 0 • deriv1
        + df (3 * dir + 2) 0 • deriv2
      pure ⟨jac, WeakDeriv⟩
  | .eLaplacian =>
    if X.Gtype = .eDeformed ∨ mkey.GetNVarCoeff > 0
        ∨ mkey.ConstFactorExists .eFactorSVVCutoffRatio then
      pure ⟨1, TetExp.GenMatrix X mkey⟩
    else
      let lap00 := X.GetStdMatrix (MatrixKey.mk3 .eLaplacian00 mkey.GetShapeType)
      let lap01 := X.GetStdMatrix (MatrixKey.mk3 .eLaplacian01 mkey.GetShapeType)
      let lap02 := X.GetStdMatrix (MatrixKey.mk3 .eLaplacian02 mkey.GetShapeType)
      let lap11 := X.GetStdMatrix (MatrixKey.mk3 .eLaplacian11 mkey.GetShapeType)
      let lap12 := X.GetStdMatrix (MatrixKey.mk3 .eLaplacian12 mkey.GetShapeType)
      let lap22 := X.GetStdMatrix (MatrixKey.mk3 .eLaplacian22 mkey.GetShapeType)
      let jac := X.Jac 0
      let gmat := X.Gmat
      let lap := gmat 0 0 • lap00
        + gmat 4 0 • lap11
        + gmat 8 0 • lap22
        + gmat 3 0 • (lap01 + Transpose lap01)
        + gmat 6 0 • (lap02 + Transpose lap02)
        + gmat 7 0 • (lap12 + Transpose lap12)
      pure ⟨jac, lap⟩
  | .eHelmholtz =>
    let factor ← mkey.GetConstFactor .eFactorLambda
    let masskey : MatrixKey K := MatrixKey.mk3 .eMass mkey.GetShapeType
    let MassMat ← TetExp.CreateMatrix X masskey
    let lapkey : MatrixKey K :=
      ⟨.eLaplacian, mkey.GetShapeType, mkey.factors, mkey.varcoeffs⟩
    let LapMat ← TetExp.CreateMatrix X lapkey
    let rows := LapMat.GetRows
    let cols := LapMat.GetColumns
    let helm : DNekMat K :=
      ⟨rows, cols, fun i j => LapMat.entry i j + factor * MassMat.entry i j⟩
    pure ⟨1, helm⟩
  | .eIProductWRTBase =>
    if X.Gtype = .eDeformed then
      pure ⟨1, TetExp.GenMatrix X mkey⟩
    else
      pure ⟨X.Jac 0, X.GetStdMatrix mkey⟩
  | .eHybridDGHelmholtz | .eHybridDGLamToU | .eHybridDGLamToQ0 | .eHybridDGLamToQ1
  | .eHybridDGLamToQ2 | .eHybridDGHelmBndLam | .eInvLaplacianWithUnityMean =>
    pure ⟨1, TetExp.GenMatrix X mkey⟩
  | .eInvHybridDGHelmholtz =>
    let hkey : MatrixKey K :=
      ⟨.eHybridDGHelmholtz, X.DetShapeType, mkey.factors, mkey.varcoeffs⟩
    pure ⟨1, (TetExp.GenMatrix X hkey).Invert⟩
  | .ePreconLinearSpace =>
    let helmkey : MatrixKey K :=
      ⟨.eHelmholtz, mkey.GetShapeType, mkey.factors, mkey.varcoeffs⟩
    let helmStatCond ← TetExp.CreateStaticCondMatrix X helmkey
    let A := helmStatCond.b00
    pure ⟨1, X.BuildVertexMatrix A⟩
  | .ePreconR =>
    let helmkey : MatrixKey K :=
      ⟨.eHelmholtz, mkey.GetShapeType, mkey.factors, mkey.varcoeffs⟩
    let helmStatCond ← TetExp.CreateStaticCondMatrix X helmkey
    let A := helmStatCond.b00
    pure ⟨1, X.BuildTransformationMatrix A mkey.GetMatrixType⟩
  | .ePreconRT =>
    let helmkey : MatrixKey K :=
      ⟨.eHelmholtz, mkey.GetShapeType, mkey.factors, mkey.varcoeffs⟩
    let helmStatCond ← TetExp.CreateStaticCondMatrix X helmkey
    let A := helmStatCond.b00
    pure ⟨1, X.BuildTransformationMatrix A mkey.GetMatrixType⟩
  | _ =>
    pure ⟨1, TetExp.GenMatrix X mkey⟩
termination_by 2 * mkey.mtype.rank
decreasing_by
  all_goals simp_wf
  all_goals simp [hm, MatrixType.rank, MatrixKey.mk3]

/-- The routine `TetExp::CreateStaticCondMatrix`.  The matrix managers
(`GetLocMatrix`, `GetLocStaticCondMatrix`) hand back what the creator routines build. -/
def TetExp.CreateStaticCondMatrix (X : LocalExp K) (mkey : MatrixKey K) :
    Except String (DNekScalBlkMat K) := do
  ASSERTL (X.Gtype != .eNoGeomType) "Geometric information is not set up"
  match mkey.GetMatrixType with
  | .eLaplacian | .eHelmholtz =>
    -- use Deformed case for both regular and deformed geometries
    let mat ← TetExp.CreateMatrix X mkey
    pure (UseLocRegionsMatrix X 1 mat)
  | _ =>
    if X.Gtype = .eDeformed ∨ mkey.GetNVarCoeff ≠ 0 then
      let mat ← TetExp.CreateMatrix X mkey
      pure (UseLocRegionsMatrix X 1 mat)
    else
      let mat ← TetExp.CreateMatrix X mkey
      let factor := mat.scale
      pure (UseStdRegionsMatrix X factor mkey)
termination_by 2 * mkey.mtype.rank + 1
decreasing_by
  all_goals simp_wf

end

end TetExp

section TriExp

variable {K : Type} [Field K]

/-- The routine `TriExp::v_GenMatrix`. -/
def TriExp.GenMatrix (X : LocalExp K) (mkey : MatrixKey K) : DNekMat K :=
  match mkey.GetMatrixType with
  | .eHybridDGHelmholtz => X.ExpansionGenMatrix mkey
  | .eHybridDGLamToU => X.ExpansionGenMatrix mkey
  | .eHybridDGLamToQ0 => X.ExpansionGenMatrix mkey
  | .eHybridDGLamToQ1 => X.ExpansionGenMatrix mkey
  | .eHybridDGLamToQ2 => X.ExpansionGenMatrix mkey
  | .eHybridDGHelmBndLam => X.ExpansionGenMatrix mkey
  | _ => X.StdGenMatrix mkey

/-- The call `Vmath::Vcopy(n, &x[0], 1, &(lmat->GetPtr())[0], n)` on an `n x n` dense
matrix, whose storage `GetPtr` runs column by column: the entries `(0, i)`, `i < n`,
are overwritten by `x[i]`. -/
def VcopyIntoStride (n : ℕ) (x : ℕ → K) (lmat : DNekMat K) : DNekMat K :=
  { rows := lmat.rows
    cols := lmat.cols
    e := fun i j => if i = 0 ∧ j < n then x j else lmat.e i j }

mutual

/-- The routine `TriExp::CreateMatrix`. -/
def TriExp.CreateMatrix (X : LocalExp K) (mkey : MatrixKey K) :
    Except String (DNekScalMat K) := do
  ASSERTL (X.Gtype != .eNoGeomType) "Geometric information is not set up"
  match hm : mkey.mtype with
  | .eMass =>
    if X.Gtype = .eDeformed ∨ mkey.GetNVarCoeff ≠ 0 then
      pure ⟨1, TriExp.GenMatrix X mkey⟩
    else
      pure ⟨X.Jac 0, X.GetStdMatrix mkey⟩
  | .eInvMass =>
    if X.Gtype = .eDeformed then
      let masskey : MatrixKey K := MatrixKey.mk3 .eMass X.DetShapeType
      pure ⟨1, (TriExp.GenMatrix X masskey).Invert⟩
    else
      pure ⟨1 / X.Jac 0, X.GetStdMatrix mkey⟩
  | .eWeakDeriv0 | .eWeakDeriv1 | .eWeakDeriv2 =>
    if X.Gtype = .eDeformed ∨ mkey.GetNVarCoeff ≠ 0 then
      pure ⟨1, TriExp.GenMatrix X mkey⟩
    else
      let jac := X.Jac 0
      let df := X.DerivFactors
      let dir : ℕ :=
        match mkey.GetMatrixType with
        | .eWeakDeriv0 => 0
        | .eWeakDeriv1 => 1
        | .eWeakDeriv2 => 2
        | _ => 0
      let deriv0 := X.GetStdMatrix (MatrixKey.mk3 .eWeakDeriv0 mkey.GetShapeType)
      let deriv1 := X.GetStdMatrix (MatrixKey.mk3 .eWeakDeriv1 mkey.GetShapeType)
      let WeakDeriv := df (2 * dir) 0 • deriv0 + df (2 * dir + 1) 0 • deriv1
      pure ⟨jac, WeakDeriv⟩
  | .eLaplacian =>
    if X.Gtype = .eDeformed ∨ mkey.GetNVarCoeff > 0
        ∨ mkey.ConstFactorExists .eFactorSVVCutoffRatio then
      pure ⟨1, TriExp.GenMatrix X mkey⟩
    else
      let lap00 := X.GetStdMatrix (MatrixKey.mk3 .eLaplacian00 mkey.GetShapeType)
      let lap01 := X.GetStdMatrix (MatrixKey.mk3 .eLaplacian01 mkey.GetShapeType)
      let lap11 := X.GetStdMatrix (MatrixKey.mk3 .eLaplacian11 mkey.GetShapeType)
      let jac := X.Jac 0
      let gmat := X.Gmat
      let lap := gmat 0 0 • lap00
        + gmat 1 0 • (lap01 + Transpose lap01)
        + gmat 3 0 • lap11
      pure ⟨jac, lap⟩
  | .eInvLaplacianWithUnityMean =>
    let one : K := 1
    let lapkey : MatrixKey K := MatrixKey.mk3 .eLaplacian mkey.GetShapeType
    let lmat := TriExp.GenMatrix X lapkey
    -- replace first column with inner product wrt 1
    let nq := X.TotPoints
    let tmp : ℕ → K := fun i => if i < nq then one else 0
    let outarray := X.IProductWRTBase tmp (fun _ => 0)
    let lmat1 := VcopyIntoStride X.m_ncoeffs outarray lmat
    pure ⟨one, lmat1.Invert⟩
  | .eHelmholtz =>
    let factor ← mkey.GetConstFactor .eFactorLambda
    let masskey : MatrixKey K := mkey.retype .eMass
    let MassMat ← TriExp.CreateMatrix X masskey
    let lapkey : MatrixKey K := mkey.retype .eLaplacian
    let LapMat ← TriExp.CreateMatrix X lapkey
    let rows := LapMat.GetRows
    let cols := LapMat.GetColumns
    let helm : DNekMat K :=
      ⟨rows, cols, fun i j => LapMat.entry i j + factor * MassMat.entry i j⟩
    pure ⟨1, helm⟩
  | .eIProductWRTBase =>
    if X.Gtype = .eDeformed then
      pure ⟨1, TriExp.GenMatrix X mkey⟩
    else
      pure ⟨X.Jac 0, X.GetStdMatrix mkey⟩
  | .eIProductWRTDerivBase0 | .eIProductWRTDerivBase1 | .eIProductWRTDerivBase2 =>
    if X.Gtype = .eDeformed then
      pure ⟨1, TriExp.GenMatrix X mkey⟩
    else
      let jac := X.Jac 0
      let df := X.DerivFactors
      let dir : ℕ :=
        match mkey.GetMatrixType with
        | .eIProductWRTDerivBase0 => 0
        | .eIProductWRTDerivBase1 => 1
        | .eIProductWRTDerivBase2 => 2
        | _ => 0
      let iProdDeriv0Key : MatrixKey K :=
        MatrixKey.mk3 .eIProductWRTDerivBase0 mkey.GetShapeType
      let _iProdDeriv1Key : MatrixKey K :=
        MatrixKey.mk3 .eIProductWRTDerivBase1 mkey.GetShapeType
      let stdiprod0 := X.GetStdMatrix iProdDeriv0Key
      let stdiprod1 := X.GetStdMatrix iProdDeriv0Key
      let mat := df (2 * dir) 0 • stdiprod0 + df (2 * dir + 1) 0 • stdiprod1
      pure ⟨jac, mat⟩
  | .eInvHybridDGHelmholtz =>
    let hkey : MatrixKey K :=
      ⟨.eHybridDGHelmholtz, X.DetShapeType, mkey.factors, mkey.varcoeffs⟩
    pure ⟨1, (TriExp.GenMatrix X hkey).Invert⟩
  | .ePreconLinearSpace =>
    let helmkey : MatrixKey K :=
      ⟨.eHelmholtz, mkey.GetShapeType, mkey.factors, mkey.varcoeffs⟩
    let helmStatCond ← TriExp.CreateStaticCondMatrix X helmkey
    let A := helmStatCond.b00
    pure ⟨1, X.BuildVertexMatrix A⟩
  | _ =>
    pure ⟨1, TriExp.GenMatrix X mkey⟩
termination_by 2 * mkey.mtype.rank
decreasing_by
  all_goals simp_wf
  all_goals simp [hm, MatrixType.rank, MatrixKey.mk3, MatrixKey.retype]

/-- The routine `TriExp::CreateStaticCondMatrix`.  The matrix manager (`GetLocMatrix`)
hands back what `CreateMatrix` builds. -/
def TriExp.CreateStaticCondMatrix (X : LocalExp K) (mkey : MatrixKey K) :
    Except String (DNekScalBlkMat K) := do
  ASSERTL (X.Gtype != .eNoGeomType) "Geometric information is not set up"
  match mkey.GetMatrixType with
  -- this can only use stdregions statically condensed system for mass matrix
  | .eMass =>
    if X.Gtype = .eDeformed ∨ mkey.GetNVarCoeff ≠ 0 then
      let mat ← TriExp.CreateMatrix X mkey
      pure (UseLocRegionsMatrix X 1 mat)
    else
      pure (UseStdRegionsMatrix X (X.Jac 0) mkey)
  | _ =>
    -- use Deformed case for both regular and deformed geometries
    let mat ← TriExp.CreateMatrix X mkey
    pure (UseLocRegionsMatrix X 1 mat)
termination_by 2 * mkey.mtype.rank + 1
decreasing_by
  all_goals simp_wf

end

end TriExp

section StaticCondDefs

variable {K : Type} [Field K]

/-- The routine `TetExp::v_GetLocMatrix`: the entry of `m_matrixManager` under the key,
which is what `TetExp::CreateMatrix` builds for it. -/
def TetExp.GetLocMatrix (X : LocalExp K) (mkey : MatrixKey K) :
    Except String (DNekScalMat K) :=
  TetExp.CreateMatrix X mkey

/-- The routine `TriExp::v_GetLocMatrix`: the entry of `m_matrixManager` under the key,
which is what `TriExp::CreateMatrix` builds for it. -/
def TriExp.GetLocMatrix (X : LocalExp K) (mkey : MatrixKey K) :
    Except String (DNekScalMat K) :=
  TriExp.CreateMatrix X mkey

/-- The value of a scaled matrix read at given dimensions, as a Mathlib matrix. -/
def DNekScalMat.toMatrixOf (r c : ℕ) (m : DNekScalMat K) : Matrix (Fin r) (Fin c) K :=
  fun i j => m.entry i.val j.val

/-- The block `A[i][j] = M(bmap[i], bmap[j])` of a local matrix `M`. -/
def blockA (X : LocalExp K) (M : DNekScalMat K) :
    Matrix (Fin X.NumBndryCoeffs) (Fin X.NumBndryCoeffs) K :=
  fun i j => M.entry (X.bmap i) (X.bmap j)

/-- The block `B[i][j] = M(bmap[i], imap[j])` of a local matrix `M`. -/
def blockB (X : LocalExp K) (M : DNekScalMat K) :
    Matrix (Fin X.NumBndryCoeffs) (Fin (X.m_ncoeffs - X.NumBndryCoeffs)) K :=
  fun i j => M.entry (X.bmap i) (X.imap j)

/-- The block `C[i][j] = M(imap[i], bmap[j])` of a local matrix `M`. -/
def blockC (X : LocalExp K) (M : DNekScalMat K) :
    Matrix (Fin (X.m_ncoeffs - X.NumBndryCoeffs)) (Fin X.NumBndryCoeffs) K :=
  fun i j => M.entry (X.imap i) (X.bmap j)

/-- The block `D[i][j] = M(imap[i], imap[j])` of a local matrix `M`. -/
def blockD (X : LocalExp K) (M : DNekScalMat K) :
    Matrix (Fin (X.m_ncoeffs - X.NumBndryCoeffs)) (Fin (X.m_ncoeffs - X.NumBndryCoeffs)) K :=
  fun i j => M.entry (X.imap i) (X.imap j)

/-- The four blocks of a statically condensed matrix `R` against the local matrix `M`
they were condensed from: Schur complement, `B * Dinv`, `C` and `Dinv`. -/
def IsCondensed (X : LocalExp K) (M : DNekScalMat K) (R : DNekScalBlkMat K) : Prop :=
  R.b00.toMatrixOf X.NumBndryCoeffs X.NumBndryCoeffs
      = blockA X M - blockB X M * (blockD X M)⁻¹ * blockC X M
    ∧ R.b01.toMatrixOf X.NumBndryCoeffs (X.m_ncoeffs - X.NumBndryCoeffs)
      = blockB X M * (blockD X M)⁻¹
    ∧ R.b10.toMatrixOf (X.m_ncoeffs - X.NumBndryCoeffs) X.NumBndryCoeffs = blockC X M
    ∧ R.b11.toMatrixOf (X.m_ncoeffs - X.NumBndryCoeffs) (X.m_ncoeffs - X.NumBndryCoeffs)
      = (blockD X M)⁻¹

/-- A deformed element with two coefficients, one on the boundary (index 0) and one in
the interior (index 1), whose assembled matrices have entries 2 on and 1 off the
diagonal. -/
def exampleDeformed : LocalExp ℚ :=
  { m_ncoeffs := 2
    NumBndryCoeffs := 1
    DetShapeType := .eTetrahedron
    Gtype := .eDeformed
    Jac := fun _ => 1
    DerivFactors := fun _ _ => 1
    Gmat := fun _ _ => 1
    bmap := fun i => i
    imap := fun i => i + 1
    StdGenMatrix := fun _ => ⟨2, 2, fun i j => if i = j then 2 else 1⟩
    ExpansionGenMatrix := fun _ => ⟨2, 2, fun i j => if i = j then 2 else 1⟩
    GetStdMatrix := fun _ => ⟨2, 2, fun i j => if i = j then 2 else 1⟩
    GetStdStaticCondMatrix := fun _ =>
      ⟨⟨1, 1, fun _ _ => 1⟩, ⟨1, 1, fun _ _ => 1⟩, ⟨1, 1, fun _ _ => 1⟩, ⟨1, 1, fun _ _ => 1⟩⟩
    BuildVertexMatrix := fun A => A.owned
    BuildTransformationMatrix := fun A _ => A.owned
    TotPoints := 2
    IProductWRTBase := fun inarray _ => inarray
    Collocation := fun _ => false }

/-- The mass-matrix key of the example element. -/
def exampleMassKey : MatrixKey ℚ := MatrixKey.mk3 .eMass .eTetrahedron

/-- The local mass matrix of the example element. -/
def exampleMassMat : DNekScalMat ℚ := ⟨1, ⟨2, 2, fun i j => if i = j then 2 else 1⟩⟩

end StaticCondDefs

section C2Defs

variable {K : Type} [Field K]

/-- The index listed at a position of the boundary map followed by the interior map. -/
def listedIndex (X : LocalExp K) :
    Fin X.NumBndryCoeffs ⊕ Fin (X.m_ncoeffs - X.NumBndryCoeffs) → ℕ :=
  Sum.elim (fun i => X.bmap i) (fun i => X.imap i)

/-- The boundary map and the interior map together list every local coefficient index
exactly once. -/
def ListsEveryIndexOnce (X : LocalExp K) : Prop :=
  ∀ a, a < X.m_ncoeffs → ∃! s, listedIndex X s = a

/-- Round-trip statement: the local matrix `M` is recovered from the four
static-condensation blocks `S`, `E`, `C`, `Dinv` held in `R`, block by block and, through
the two index maps, entry by entry. -/
def RecoversLocalMatrix (X : LocalExp K) (M : DNekScalMat K) (R : DNekScalBlkMat K) :
    Prop :=
  let nb := X.NumBndryCoeffs
  let ni := X.m_ncoeffs - X.NumBndryCoeffs
  let S := R.b00.toMatrixOf nb nb
  let E := R.b01.toMatrixOf nb ni
  let C := R.b10.toMatrixOf ni nb
  let Dinv := R.b11.toMatrixOf ni ni
  (∀ (i j : Fin nb), M.entry (X.bmap i) (X.bmap j) = (S + E * C) i j)
    ∧ (∀ (i : Fin nb) (j : Fin ni), M.entry (X.bmap i) (X.imap j) = (E * Dinv⁻¹) i j)
    ∧ (∀ (i : Fin ni) (j : Fin nb), M.entry (X.imap i) (X.bmap j) = C i j)
    ∧ (∀ (i j : Fin ni), M.entry (X.imap i) (X.imap j) = Dinv⁻¹ i j)
    ∧ (∀ a b, a < X.m_ncoeffs → b < X.m_ncoeffs →
        ∃ s t, listedIndex X s = a ∧ listedIndex X t = b
          ∧ M.entry a b = Matrix.fromBlocks (S + E * C) (E * Dinv⁻¹) C Dinv⁻¹ s t)

end C2Defs

section HelmholtzWitnessDefs



/-- A Helmholtz key carrying `lambda = 3`. -/
def exampleHelmKey : MatrixKey ℚ :=
  ⟨.eHelmholtz, .eTetrahedron, [(.eFactorLambda, 3)], []⟩

end HelmholtzWitnessDefs

section RegularMassDefs

variable {K : Type} [Field K]

/-- A regular element with two coefficients and Jacobian `jac`, whose reference
matrices have entries 2 on and 1 off the diagonal and whose assembled matrices have
entries 5 on and 3 off the diagonal. -/
def exampleRegular (jac : ℚ) : LocalExp ℚ :=
  { m_ncoeffs := 2
    NumBndryCoeffs := 1
    DetShapeType := .eTetrahedron
    Gtype := .eRegular
    Jac := fun _ => jac
    DerivFactors := fun _ _ => 1
    Gmat := fun _ _ => 1
    bmap := fun i => i
    imap := fun i => i + 1
    StdGenMatrix := fun _ => ⟨2, 2, fun i j => if i = j then 5 else 3⟩
    ExpansionGenMatrix := fun _ => ⟨2, 2, fun i j => if i = j then 5 else 3⟩
    GetStdMatrix := fun _ => ⟨2, 2, fun i j => if i = j then 2 else 1⟩
    GetStdStaticCondMatrix := fun _ =>
      ⟨⟨1, 1, fun _ _ => 1⟩, ⟨1, 1, fun _ _ => 1⟩, ⟨1, 1, fun _ _ => 1⟩, ⟨1, 1, fun _ _ => 1⟩⟩
    BuildVertexMatrix := fun A => A.owned
    BuildTransformationMatrix := fun A _ => A.owned
    TotPoints := 2
    IProductWRTBase := fun inarray _ => inarray
    Collocation := fun _ => false }

end RegularMassDefs

section GenPathDefs

variable {K : Type} [Field K]

/-- What `TetExp::CreateMatrix` builds for a Helmholtz key when the mass and Laplacian
matrices come from `GenMatrix` with scale 1. -/
def TetExp.HelmholtzFromGenMatrix (X : LocalExp K) (mkey : MatrixKey K) :
    Except String (DNekScalMat K) := do
  let factor ← mkey.GetConstFactor .eFactorLambda
  let MassMat : DNekScalMat K :=
    ⟨1, TetExp.GenMatrix X (MatrixKey.mk3 .eMass mkey.GetShapeType)⟩
  let LapMat : DNekScalMat K :=
    ⟨1, TetExp.GenMatrix X ⟨.eLaplacian, mkey.GetShapeType, mkey.factors, mkey.varcoeffs⟩⟩
  pure ⟨1, ⟨LapMat.GetRows, LapMat.GetColumns,
    fun i j => LapMat.entry i j + factor * MassMat.entry i j⟩⟩

/-- The matrix "built from GenMatrix on the physical element with scale factor 1": what
`TetExp::CreateMatrix` returns when no reference-space matrix (`GetStdMatrix`) and no
Jacobian scale enters, kind by kind. -/
def TetExp.GenMatrixPath (X : LocalExp K) (mkey : MatrixKey K) :
    Except String (DNekScalMat K) :=
  match mkey.mtype with
  | .eInvMass =>
    pure ⟨1, (TetExp.GenMatrix X (MatrixKey.mk3 .eMass X.DetShapeType)).Invert⟩
  | .eInvHybridDGHelmholtz =>
    pure ⟨1, (TetExp.GenMatrix X
      ⟨.eHybridDGHelmholtz, X.DetShapeType, mkey.factors, mkey.varcoeffs⟩).Invert⟩
  | .eHelmholtz => TetExp.HelmholtzFromGenMatrix X mkey
  | .ePreconLinearSpace => do
    let helm ← TetExp.HelmholtzFromGenMatrix X
      ⟨.eHelmholtz, mkey.GetShapeType, mkey.factors, mkey.varcoeffs⟩
    pure ⟨1, X.BuildVertexMatrix (UseLocRegionsMatrix X 1 helm).b00⟩
  | .ePreconR => do
    let helm ← TetExp.HelmholtzFromGenMatrix X
      ⟨.eHelmholtz, mkey.GetShapeType, mkey.factors, mkey.varcoeffs⟩
    pure ⟨1, X.BuildTransformationMatrix (UseLocRegionsMatrix X 1 helm).b00
      mkey.GetMatrixType⟩
  | .ePreconRT => do
    let helm ← TetExp.HelmholtzFromGenMatrix X
      ⟨.eHelmholtz, mkey.GetShapeType, mkey.factors, mkey.varcoeffs⟩
    pure ⟨1, X.BuildTransformationMatrix (UseLocRegionsMatrix X 1 helm).b00
      mkey.GetMatrixType⟩
  | _ => pure ⟨1, TetExp.GenMatrix X mkey⟩

end GenPathDefs

section GenPathExamplesDefs



/-- An inverse-mass key carrying one variable coefficient. -/
def exampleVarInvMassKey : MatrixKey ℚ :=
  ⟨.eInvMass, .eTetrahedron, [], [(0, [1, 1])]⟩

/-- A mass key carrying one variable coefficient. -/
def exampleVarMassKey : MatrixKey ℚ :=
  ⟨.eMass, .eTetrahedron, [], [(0, [1, 1])]⟩

end GenPathExamplesDefs

section IProdDerivDefs

variable {K : Type} [Field K]

/-- A regular triangle element with one coefficient, `Jac[0] = 1`, derivative factors
`df[0][0] = 0` and `df[i][0] = 1` otherwise, whose reference matrices are `[1]` for
every key except `eIProductWRTDerivBase1`, where it is `[2]`. -/
def exampleTri : LocalExp ℚ :=
  { m_ncoeffs := 1
    NumBndryCoeffs := 1
    DetShapeType := .eTriangle
    Gtype := .eRegular
    Jac := fun _ => 1
    DerivFactors := fun i _ => if i = 0 then 0 else 1
    Gmat := fun _ _ => 1
    bmap := fun i => i
    imap := fun i => i + 1
    StdGenMatrix := fun _ => ⟨1, 1, fun _ _ => 1⟩
    ExpansionGenMatrix := fun _ => ⟨1, 1, fun _ _ => 1⟩
    GetStdMatrix := fun k =>
      match k.mtype with
      | .eIProductWRTDerivBase1 => ⟨1, 1, fun _ _ => 2⟩
      | _ => ⟨1, 1, fun _ _ => 1⟩
    GetStdStaticCondMatrix := fun _ =>
      ⟨⟨1, 1, fun _ _ => 1⟩, ⟨1, 0, fun _ _ => 1⟩, ⟨0, 1, fun _ _ => 1⟩, ⟨0, 0, fun _ _ => 1⟩⟩
    BuildVertexMatrix := fun A => A.owned
    BuildTransformationMatrix := fun A _ => A.owned
    TotPoints := 1
    IProductWRTBase := fun inarray _ => inarray
    Collocation := fun _ => false }

/-- The key of kind `eIProductWRTDerivBase0` on a triangle. -/
def exampleIProdDeriv0Key : MatrixKey ℚ := MatrixKey.mk3 .eIProductWRTDerivBase0 .eTriangle

/-- The direction selected by a key of kind `eIProductWRTDerivBase0/1/2`. -/
def iprodDerivDir : MatrixType → ℕ
  | .eIProductWRTDerivBase0 => 0
  | .eIProductWRTDerivBase1 => 1
  | .eIProductWRTDerivBase2 => 2
  | _ => 0

end IProdDerivDefs

section FwdTransDefs

variable {K : Type} [Field K]

/-- The routine `Vmath::Vcopy(n, x, 1, y, 1)`: the first `n` entries of `y` are
overwritten by those of `x`. -/
def Vmath.Vcopy (n : ℕ) (x y : ℕ → K) : ℕ → K :=
  fun i => if i < n then x i else y i

/-- The arrays `TetExp::v_FwdTrans` can write to: the member `m_coeffs` and the
argument `outarray`. -/
structure FwdTransArrays (K : Type) where
  m_coeffs : ℕ → K
  outarray : ℕ → K

/-- The routine `TetExp::v_FwdTrans(inarray, outarray)`, run on an element whose member
array of coefficients is `m_coeffs`; the result holds both arrays after the call. -/
def TetExp.FwdTrans (X : LocalExp K) (m_coeffs inarray outarray : ℕ → K) :
    Except String (FwdTransArrays K) :=
  if X.Collocation 0 && X.Collocation 1 && X.Collocation 2 then
    pure ⟨Vmath.Vcopy X.m_ncoeffs inarray m_coeffs, outarray⟩
  else do
    let outarray1 := X.IProductWRTBase inarray outarray
    -- get Mass matrix inverse
    let masskey : MatrixKey K := MatrixKey.mk3 .eInvMass X.DetShapeType
    let matsys ← TetExp.CreateMatrix X masskey
    -- copy inarray in case inarray == outarray
    let vin : ℕ → K := outarray1
    let out : ℕ → K := fun i =>
      if i < X.m_ncoeffs then ∑ j in Finset.range X.m_ncoeffs, matsys.entry i j * vin j
      else outarray1 i
    pure ⟨m_coeffs, out⟩

/-- An element all of whose bases are collocated with the quadrature grid. -/
def exampleCollocated : LocalExp ℚ :=
  { exampleRegular 1 with Collocation := fun _ => true }

end FwdTransDefs

section FeketeDefs

variable {K : Type} [LinearOrderedField K] [FloorRing K]

/-- A counted loop `for (i = lo; i < hi; ++i) body`, run on a state. -/
def forLoop {σ : Type} (lo hi : ℕ) (body : ℕ → σ → σ) (s : σ) : σ :=
  (List.range' lo (hi - lo)).foldl (fun s i => body i s) s

/-- The assignment `a[d][n] = v` on a table indexed as `a[d][n]`. -/
def set2 {α : Type} (a : ℕ → ℕ → α) (d n : ℕ) (v : α) : ℕ → ℕ → α :=
  fun d1 n1 => if d1 = d ∧ n1 = n then v else a d1 n1

/-- The conversion `int(x)` of a double: truncation towards zero. -/
def truncInt (x : K) : ℤ := if 0 ≤ x then ⌊x⌋ else ⌈x⌉

/-- The value of `u - 1` for an `unsigned int` `u`. -/
def unsignedPred (u : ℕ) : ℕ := (u + 4294967296 - 1) % 4294967296

/-- The conversion of an `unsigned int` to `int`. -/
def unsignedToInt (u : ℕ) : ℤ := if u < 2147483648 then (u : ℤ) else (u : ℤ) - 4294967296

/-- The constant tables of `NodalTriFeketeData.h`, which is not part of the sources at
hand: the row counts per order, the rows of six doubles, and the three permutation
tables. -/
structure FeketeTables (K : Type) where
  NodalTriFeketeNPTS : ℕ → ℕ
  NodalTriFeketeData : ℕ → ℕ → K
  perm3A_2d : ℕ → ℕ → ℕ
  perm3B_2d : ℕ → ℕ → ℕ
  perm6_2d : ℕ → ℕ → ℕ

/-- What the points code reads from `m_pointsKey`: `GetNumPoints()` and
`GetTotNumPoints()`. -/
structure PointsKey where
  NumPoints : ℕ
  TotNumPoints : ℕ

/-- The variables `isum` and `m_points` of `NodalTriFekete::CalculatePoints`; the member
`m_points` is indexed as the source indexes it, `m_points[a][b]`. -/
structure PointsState (K : Type) where
  isum : ℕ
  m_points : ℕ → ℕ → K

/-- The shape of the member `m_points`, whose declaration and whose allocation by
`Points<double>::CalculatePoints()` are not part of the sources at hand: the arrays
`m_points[0] .. m_points[arrays - 1]`, one per coordinate, of `size` entries each. -/
structure PointsShape where
  arrays : ℕ
  size : ℕ

/-- A read of `m_points[a][b]`; an index outside the storage is a fault. -/
def readPoint (sh : PointsShape) (m : ℕ → ℕ → K) (a b : ℕ) : Except String K :=
  if a < sh.arrays ∧ b < sh.size then pure (m a b) else throw "m_points index out of range"

/-- The assignment `m_points[a][b] = v`; an index outside the storage is a fault. -/
def writePoint (sh : PointsShape) (m : ℕ → ℕ → K) (a b : ℕ) (v : K) :
    Except String (ℕ → ℕ → K) :=
  if a < sh.arrays ∧ b < sh.size then pure (set2 m a b v)
  else throw "m_points index out of range"

/-- A counted loop `for (i = lo; i < hi; ++i) body` whose body can fail: the first
failure ends the run. -/
def forLoopE {σ : Type} (lo hi : ℕ) (body : ℕ → σ → Except String σ) (s : σ) :
    Except String σ :=
  (List.range' lo (hi - lo)).foldlM (fun s i => body i s) s

/-- The statements `m_points[0][isum] = 2.0*b - 1.0; m_points[1][isum] = 2.0*c - 1.0;
isum++;`. -/
def storePoint (sh : PointsShape) (b c : K) (s : PointsState K) :
    Except String (PointsState K) := do
  let m ← writePoint sh s.m_points 0 s.isum (2 * b - 1)
  let m ← writePoint sh m 1 s.isum (2 * c - 1)
  pure { isum := s.isum + 1, m_points := m }

/-- One pass of the loop over table rows in `NodalTriFekete::CalculatePoints`, for the
row `index`. -/
def feketeRow (T : FeketeTables K) (sh : PointsShape) (index : ℕ) (s : PointsState K) :
    Except String (PointsState K) :=
  if truncInt (T.NodalTriFeketeData index 0) ≠ 0 then
    -- symmetry1
    storePoint sh (T.NodalTriFeketeData index 4) (T.NodalTriFeketeData index 5) s
  else if truncInt (T.NodalTriFeketeData index 1) = 1 then
    -- symmetry3a
    forLoopE 0 3 (fun j s =>
      storePoint sh (T.NodalTriFeketeData index (T.perm3A_2d j 1))
        (T.NodalTriFeketeData index (T.perm3A_2d j 2)) s) s
  else if truncInt (T.NodalTriFeketeData index 1) = 2 then
    -- symmetry3b
    forLoopE 0 3 (fun j s =>
      storePoint sh (T.NodalTriFeketeData index (T.perm3B_2d j 1))
        (T.NodalTriFeketeData index (T.perm3B_2d j 2)) s) s
  else if truncInt (T.NodalTriFeketeData index 2) ≠ 0 then
    -- symmetry6
    forLoopE 0 6 (fun j s =>
      storePoint sh (T.NodalTriFeketeData index (T.perm6_2d j 1))
        (T.NodalTriFeketeData index (T.perm6_2d j 2)) s) s
  else pure s

/-- The exchange of `m_points[j+1][0]` with `m_points[j][0]` and of `m_points[j+1][1]`
with `m_points[j][1]` in `NodalTriFekete::NodalPointReorder2d`. -/
def swapEntries (m : ℕ → ℕ → K) (j : ℕ) : ℕ → ℕ → K :=
  let tmp0 := m (j + 1) 0
  let m1 := set2 m (j + 1) 0 (m j 0)
  let m2 := set2 m1 j 0 tmp0
  let tmp1 := m2 (j + 1) 1
  let m3 := set2 m2 (j + 1) 1 (m2 j 1)
  set2 m3 j 1 tmp1

/-- One bubble sort of `NodalTriFekete::NodalPointReorder2d` over the indices
`istart .. iend - 1`, exchanging where `test (m_points[j+1][c]) (m_points[j][c])`. -/
def bubbleSort (test : K → K → Bool) (c istart iend : ℕ) (m : ℕ → ℕ → K) : ℕ → ℕ → K :=
  forLoop istart iend (fun _ m =>
    forLoop istart (iend - 1) (fun j m =>
      if test (m (j + 1) c) (m j c) then swapEntries m j else m) m) m

/-- The routine `NodalTriFekete::NodalPointReorder2d` with `m_points` read as a table
indexed as the source indexes it and no limit on either index: what
`NodalPointReorder2dChecked` computes when no access is outside the storage. -/
def NodalPointReorder2d (key : PointsKey) (m_points : ℕ → ℕ → K) : ℕ → ℕ → K :=
  let numvert : ℕ := 3
  let numepoints : ℤ := unsignedToInt (unsignedPred key.NumPoints)
  if numepoints = 0 then m_points
  else
    -- a negative `numepoints` leaves every loop range empty
    let ne : ℕ := numepoints.toNat
    -- bubble sort for first edge
    let istart := numvert
    let iend := istart + ne
    let m1 := bubbleSort (fun x y => decide (x < y)) 0 istart iend m_points
    -- bubble sort for second edge
    let istart := numvert + ne
    let iend := istart + ne
    let m2 := bubbleSort (fun x y => decide (x > y)) 0 istart iend m1
    -- bubble sort for third edge
    let istart := numvert + 2 * ne
    let iend := istart + ne
    bubbleSort (fun x y => decide (x > y)) 1 istart iend m2

/-- The exchange of `m_points[j+1][0]` with `m_points[j][0]` and of `m_points[j+1][1]`
with `m_points[j][1]` in `NodalTriFekete::NodalPointReorder2d`, on storage of the shape
`sh`. -/
def swapEntriesChecked (sh : PointsShape) (m : ℕ → ℕ → K) (j : ℕ) :
    Except String (ℕ → ℕ → K) := do
  let tmpdouble ← readPoint sh m (j + 1) 0
  let v ← readPoint sh m j 0
  let m ← writePoint sh m (j + 1) 0 v
  let m ← writePoint sh m j 0 tmpdouble
  let tmpdouble ← readPoint sh m (j + 1) 1
  let v ← readPoint sh m j 1
  let m ← writePoint sh m (j + 1) 1 v
  writePoint sh m j 1 tmpdouble

/-- One bubble sort of `NodalTriFekete::NodalPointReorder2d` over the indices
`istart .. iend - 1`, exchanging where `test (m_points[j+1][c]) (m_points[j][c])`, on
storage of the shape `sh`. -/
def bubbleSortChecked (sh : PointsShape) (test : K → K → Bool) (c istart iend : ℕ)
    (m : ℕ → ℕ → K) : Except String (ℕ → ℕ → K) :=
  forLoopE istart iend (fun _ m =>
    forLoopE istart (iend - 1) (fun j m => do
      let x ← readPoint sh m (j + 1) c
      let y ← readPoint sh m j c
      if test x y then swapEntriesChecked sh m j else pure m) m) m

/-- The routine `NodalTriFekete::NodalPointReorder2d` on storage of the shape `sh`: the
statements of `NodalPointReorder2d`, every access to `m_points` being inside the storage
or a fault. -/
def NodalPointReorder2dChecked (sh : PointsShape) (key : PointsKey) (m_points : ℕ → ℕ → K) :
    Except String (ℕ → ℕ → K) :=
  let numvert : ℕ := 3
  let numepoints : ℤ := unsignedToInt (unsignedPred key.NumPoints)
  if numepoints = 0 then pure m_points
  else do
    -- a negative `numepoints` leaves every loop range empty
    let ne : ℕ := numepoints.toNat
    -- bubble sort for first edge
    let istart := numvert
    let iend := istart + ne
    let m1 ← bubbleSortChecked sh (fun x y => decide (x < y)) 0 istart iend m_points
    -- bubble sort for second edge
    let istart := numvert + ne
    let iend := istart + ne
    let m2 ← bubbleSortChecked sh (fun x y => decide (x > y)) 0 istart iend m1
    -- bubble sort for third edge
    let istart := numvert + 2 * ne
    let iend := istart + ne
    bubbleSortChecked sh (fun x y => decide (x > y)) 1 istart iend m2

/-- The routine `NodalTriFekete::CalculatePoints`; `sh` is the shape and `storage` the
content of `m_points` after the base-class allocation. -/
def CalculatePoints (T : FeketeTables K) (key : PointsKey) (sh : PointsShape)
    (storage : ℕ → ℕ → K) : Except String (ℕ → ℕ → K) := do
  -- initialize values
  let index0 : ℕ :=
    forLoop 0 (unsignedPred key.NumPoints) (fun i index => index + T.NodalTriFeketeNPTS i) 0
  let s ← forLoopE 0 (T.NodalTriFeketeNPTS key.NumPoints)
    (fun i s => feketeRow T sh (index0 + i) s) ⟨0, storage⟩
  let m ← NodalPointReorder2dChecked sh key s.m_points
  ASSERTL (s.isum == key.TotNumPoints) "sum not equal to npts"
  pure m

end FeketeDefs

section FeketeSpecDefs

variable {K : Type} [LinearOrderedField K] [FloorRing K]

/-- The number of points a table row stands for: one for a symmetry-1 row, three for a
symmetry-3 row (of either kind), six for a symmetry-6 row. -/
def pointsOfRow (T : FeketeTables K) (index : ℕ) : ℕ :=
  if truncInt (T.NodalTriFeketeData index 0) ≠ 0 then 1
  else if truncInt (T.NodalTriFeketeData index 1) = 1 then 3
  else if truncInt (T.NodalTriFeketeData index 1) = 2 then 3
  else if truncInt (T.NodalTriFeketeData index 2) ≠ 0 then 6
  else 0

/-- The index of the first table row that `CalculatePoints` reads. -/
def firstRow (T : FeketeTables K) (key : PointsKey) : ℕ :=
  forLoop 0 (unsignedPred key.NumPoints) (fun i index => index + T.NodalTriFeketeNPTS i) 0

/-- The number of points that the table rows read for the key stand for. -/
def pointsGenerated (T : FeketeTables K) (key : PointsKey) : ℕ :=
  ∑ i in Finset.range (T.NodalTriFeketeNPTS key.NumPoints), pointsOfRow T (firstRow T key + i)

end FeketeSpecDefs

section FeketeExampleDefs



/-- The storage before a reordering for `NumPoints = 3`: nine points whose first
coordinates are `-1, 1, -1, 1/2, -1/2, 0, 0, 0, 0`, second coordinates all `-1`. -/
def exampleStorage : ℕ → ℕ → ℚ :=
  fun d n =>
    if d = 0 then
      (if n = 0 then -1 else if n = 1 then 1 else if n = 2 then -1
        else if n = 3 then 1 / 2 else if n = 4 then -1 / 2 else 0)
    else if d = 1 then -1
    else 0

end FeketeExampleDefs

section StdPyrDefs

variable {K : Type} [Field K]

/-- The assignment `a[n] = v` on an array. -/
def set1 {α : Type} (a : ℕ → α) (n : ℕ) (v : α) : ℕ → α :=
  fun n1 => if n1 = n then v else a n1

/-- The point distributions `LibUtilities::PointsType` named in `StdPyrExp.cpp`. -/
inductive PointsType
  | eGaussRadauMAlpha2Beta0
  | eGaussLobattoLegendre
  | eGaussRadauMLegendre
  | other (code : ℕ)
  deriving DecidableEq, Repr

/-- The basis families `LibUtilities::BasisType` named in `StdPyrExp.cpp`, `TriExp.cpp`
and `TetExp.cpp`. -/
inductive BasisType
  | eModified_A
  | eOrtho_B
  | eModified_B
  | eOrtho_C
  | eModified_C
  | other (code : ℕ)
  deriving DecidableEq, Repr

/-- The data of a `StdPyrExp` that its routines read: per direction `i` the number of
points and of modes of `m_base[i]`, its basis data, basis type and points type, the
points and weights of `ExpPointsProperties(i)`, and the routine `GetStdMatrix` of the
base class, which is not part of the sources at hand. -/
structure StdPyrExp (K : Type) where
  /-- Result of `m_base[i]->GetNumPoints()`. -/
  NumPoints : ℕ → ℕ
  /-- Result of `m_base[i]->GetNumModes()`. -/
  NumModes : ℕ → ℕ
  /-- Result of `m_base[i]->GetBdata()`. -/
  Bdata : ℕ → ℕ → K
  /-- Result of `m_base[i]->GetBasisType()`. -/
  GetBasisType : ℕ → BasisType
  /-- Result of `m_base[i]->GetPointsType()`. -/
  GetPointsType : ℕ → PointsType
  /-- Result of `ExpPointsProperties(i)->GetZ()`. -/
  Z : ℕ → ℕ → K
  /-- Result of `ExpPointsProperties(i)->GetW()`. -/
  W : ℕ → ℕ → K
  /-- Routine `GetStdMatrix`. -/
  GetStdMatrix : MatrixKey K → DNekMat K

/-- The function `getNumberOfCoefficients(Na, Nb, Nc)` of `StdPyrExp.cpp`. -/
def getNumberOfCoefficients (Na Nb Nc : ℕ) : ℕ :=
  forLoop 0 Na (fun a nCoef =>
    forLoop 0 Nb (fun b nCoef =>
      forLoop 0 (Nc - a - b) (fun _ nCoef => nCoef + 1) nCoef) nCoef) 0

/-- The member `m_ncoeffs`, which the constructor of `StdPyrExp` hands to
`StdExpansion3D` as `getNumberOfCoefficients` of the three mode counts. -/
def StdPyrExp.m_ncoeffs (E : StdPyrExp K) : ℕ :=
  getNumberOfCoefficients (E.NumModes 0) (E.NumModes 1) (E.NumModes 2)

/-- The index map `pqr` "from the hexahedron to the pyramid" that `IProductWRTBase`,
`BwdTrans` and `FillMode` build: an array of `int` initialised to `-1`, filled in the
order of the loops with the running counter `mode`.  Here `nm0 = P + 1`, `nm1 = Q + 1`,
`nm2 = R + 1`, so that `r <= R - p - q` reads `r < nm2 - p - q`. -/
def buildPqr (nm0 nm1 nm2 : ℕ) : ℕ → ℤ :=
  (forLoop 0 nm0 (fun p s =>
    forLoop 0 nm1 (fun q s =>
      forLoop 0 (nm2 - p - q) (fun r (s : (ℕ → ℤ) × ℤ) =>
        (set1 s.1 (r + nm2 * (q + nm1 * p)) s.2, s.2 + 1)) s) s)
    ((fun _ => -1), 0)).1

/-- The function `TripleInnerProduct(fxyz, wx, wy, wz)`; `Qx`, `Qy`, `Qz` are the
lengths of the three weight arrays. -/
def TripleInnerProduct (Qx Qy Qz : ℕ) (fxyz wx wy wz : ℕ → K) : K :=
  -- Sum-factorizing over the stacks
  let A : ℕ → K :=
    forLoop 0 Qx (fun i A =>
      forLoop 0 Qy (fun j A =>
        forLoop 0 Qz (fun k A =>
          set1 A (i + Qx * j) (A (i + Qx * j) + fxyz (i + Qx * (j + Qy * k)) * wz k)) A) A)
      (fun _ => 0)
  -- Sum-factorizing over the columns
  let b : ℕ → K :=
    forLoop 0 Qx (fun i b =>
      forLoop 0 Qy (fun j b => set1 b i (b i + A (i + Qx * j) * wy j)) b) (fun _ => 0)
  -- Sum-factorizing over the rows
  forLoop 0 Qx (fun i c => c + b i * wx i) 0

/-- The routine `StdPyrExp::Integral3D`. -/
def StdPyrExp.Integral3D (Qx Qy Qz : ℕ) (inarray wx wy wz : ℕ → K) : K :=
  TripleInnerProduct Qx Qy Qz inarray wx wy wz

/-- The routine `StdPyrExp::Integral`. -/
def StdPyrExp.Integral (E : StdPyrExp K) (inarray : ℕ → K) : K :=
  let Qz := E.NumPoints 2
  let z := E.Z 2
  let wx := E.W 0
  let wy := E.W 1
  let wz := E.W 2
  -- Convert wz into wz_hat, which includes the 1/4 scale factor.
  let wz_hat : ℕ → K :=
    match E.GetPointsType 2 with
    | .eGaussRadauMAlpha2Beta0 => fun k => if k < Qz then (1 / 4) * wz k else 0
    | .eGaussLobattoLegendre => fun k =>
        if k < Qz then (1 / 4) * (1 - z k) * (1 - z k) * wz k else 0
    | .eGaussRadauMLegendre => fun k =>
        if k < Qz then (1 / 4) * (1 - z k) * (1 - z k) * wz k else 0
    | _ => fun _ => 0
  StdPyrExp.Integral3D (E.NumPoints 0) (E.NumPoints 1) Qz inarray wx wy wz_hat

/-- The routine `StdPyrExp::IProductWRTBase(bx, by, bz, inarray, outarray)`: the array
`outarray` after the call. -/
def StdPyrExp.IProductWRTBase5 (E : StdPyrExp K) (bx by1 bz inarray outarray : ℕ → K) :
    ℕ → K :=
  let Qx := E.NumPoints 0
  let Qy := E.NumPoints 1
  let Qz := E.NumPoints 2
  let nm0 := E.NumModes 0
  let nm1 := E.NumModes 1
  let nm2 := E.NumModes 2
  -- Create an index map from the hexahedron to the pyramid.
  let pqr := buildPqr nm0 nm1 nm2
  -- Compute innerproduct over each mode in the Pyramid domain
  forLoop 0 nm0 (fun p outarray =>
    forLoop 0 nm1 (fun q outarray =>
      forLoop 0 (nm2 - p - q) (fun r outarray =>
        let mode_pqr : ℤ := pqr (r + nm2 * (q + nm1 * p))
        -- Compute tensor product of inarray with the 3 basis functions
        let g_pqr : ℕ → K :=
          forLoop 0 Qz (fun k g =>
            forLoop 0 Qy (fun j g =>
              forLoop 0 Qx (fun i g =>
                let s := i + Qx * (j + Qy * k)
                set1 g s (g s + inarray s * bx (i + Qx * p) * by1 (j + Qy * q)
                  * bz ((k + Qz * mode_pqr).toNat))) g) g) (fun _ => 0)
        set1 outarray mode_pqr.toNat (E.Integral g_pqr)) outarray) outarray) outarray

/-- The routine `StdPyrExp::IProductWRTBase(inarray, outarray)`. -/
def StdPyrExp.IProductWRTBase (E : StdPyrExp K) (inarray outarray : ℕ → K) : ℕ → K :=
  E.IProductWRTBase5 (E.Bdata 0) (E.Bdata 1) (E.Bdata 2) inarray outarray

/-- The routine `StdPyrExp::BwdTrans(inarray, outarray)`: the array `outarray` after the
call. -/
def StdPyrExp.BwdTrans (E : StdPyrExp K) (inarray outarray : ℕ → K) :
    Except String (ℕ → K) := do
  ASSERTL (E.GetBasisType 1 != .eOrtho_B || E.GetBasisType 1 != .eModified_B)
    "Basis[1] is not a general tensor type"
  ASSERTL (E.GetBasisType 2 != .eOrtho_C || E.GetBasisType 2 != .eModified_C)
    "Basis[2] is not a general tensor type"
  let Qx := E.NumPoints 0
  let Qy := E.NumPoints 1
  let Qz := E.NumPoints 2
  let nm0 := E.NumModes 0
  let nm1 := E.NumModes 1
  let nm2 := E.NumModes 2
  let xBasis := E.Bdata 0
  let yBasis := E.Bdata 1
  let zBasis := E.Bdata 2
  -- Create an index map from the hexahedron to the pyramid.
  let pqr := buildPqr nm0 nm1 nm2
  -- Sum-factorize the triple summation starting with the z-dimension
  pure (forLoop 0 Qz (fun k outarray =>
    -- Create the matrix of coefficients summed over the z-modes
    let Ak : ℕ → K :=
      forLoop 0 nm0 (fun p Ak =>
        forLoop 0 nm1 (fun q Ak =>
          forLoop 0 (nm2 - p - q) (fun r Ak =>
            let mode : ℤ := pqr (r + nm2 * (q + nm1 * p))
            set1 Ak (q + nm1 * p)
              (Ak (q + nm1 * p) + inarray mode.toNat * zBasis ((k + Qz * mode).toNat)))
            Ak) Ak) (fun _ => 0)
    -- Factorize the y-dimension
    forLoop 0 Qy (fun j outarray =>
      -- Create the vector of coefficients summed over the y and z-modes
      let bjk : ℕ → K :=
        forLoop 0 nm0 (fun p bjk =>
          forLoop 0 nm1 (fun q bjk =>
            let mode := q
            set1 bjk p (bjk p + Ak (q + nm1 * p) * yBasis (j + Qy * mode))) bjk)
          (fun _ => 0)
      -- Factorize the x-dimension
      forLoop 0 Qx (fun i outarray =>
        let cijk : K :=
          forLoop 0 nm0 (fun p cijk =>
            let mode := p
            cijk + bjk p * xBasis (i + Qx * mode)) 0
        set1 outarray (i + Qx * (j + Qy * k)) cijk) outarray) outarray) outarray)

/-- The routine `StdPyrExp::FwdTrans(inarray, outarray)`: the array `outarray` after the
call. -/
def StdPyrExp.FwdTrans (E : StdPyrExp K) (inarray outarray : ℕ → K) : ℕ → K :=
  let outarray1 := E.IProductWRTBase inarray outarray
  -- get Mass matrix inverse
  let masskey : MatrixKey K := MatrixKey.mk3 .eInvMass .ePyramid
  let matsys := E.GetStdMatrix masskey
  -- copy inarray in case inarray == outarray
  let vin : ℕ → K := outarray1
  fun i =>
    if i < E.m_ncoeffs then ∑ j in Finset.range E.m_ncoeffs, matsys.e i j * vin j
    else outarray1 i

end StdPyrDefs

section PyrModesDefs



/-- The modes `(p, q, r)` of the pyramid expansion in the order in which the loops over
`p <= P`, `q <= Q`, `r <= R - p - q` visit them (`nm0 = P + 1`, `nm1 = Q + 1`,
`nm2 = R + 1`); the position of a triple in this list is its mode number. -/
def pyrModes (nm0 nm1 nm2 : ℕ) : List (ℕ × ℕ × ℕ) :=
  (List.range nm0).flatMap fun p =>
    (List.range nm1).flatMap fun q =>
      (List.range (nm2 - p - q)).map fun r => (p, q, r)

end PyrModesDefs

section PyrIndexDefs



/-- The cell of the index map `pqr` that belongs to the mode number `m`. -/
def pqrCell (nm0 nm1 nm2 m : ℕ) : ℕ :=
  ((pyrModes nm0 nm1 nm2).getD m (0, 0, 0)).2.2
    + nm2 * (((pyrModes nm0 nm1 nm2).getD m (0, 0, 0)).2.1
      + nm1 * ((pyrModes nm0 nm1 nm2).getD m (0, 0, 0)).1)

end PyrIndexDefs

section PyrIntegralDefs

variable {K : Type} [Field K]

/-- The triple sum of `F i j k` against the weights `wx[i] * wy[j] * wz[k]`. -/
def tripleSum (Qx Qy Qz : ℕ) (F : ℕ → ℕ → ℕ → K) (wx wy wz : ℕ → K) : K :=
  ∑ i in Finset.range Qx, ∑ j in Finset.range Qy, ∑ k in Finset.range Qz,
    F i j k * wx i * wy j * wz k

/-- The weights `wz_hat` that `StdPyrExp::Integral` uses in the third direction. -/
def StdPyrExp.wz_hat (E : StdPyrExp K) : ℕ → K :=
  match E.GetPointsType 2 with
  | .eGaussRadauMAlpha2Beta0 => fun k => if k < E.NumPoints 2 then (1 / 4) * E.W 2 k else 0
  | .eGaussLobattoLegendre => fun k =>
      if k < E.NumPoints 2 then (1 / 4) * (1 - E.Z 2 k) * (1 - E.Z 2 k) * E.W 2 k else 0
  | .eGaussRadauMLegendre => fun k =>
      if k < E.NumPoints 2 then (1 / 4) * (1 - E.Z 2 k) * (1 - E.Z 2 k) * E.W 2 k else 0
  | _ => fun _ => 0

/-- The quadrature sum of `StdPyrExp::Integral` for a function of the three point
indices. -/
def StdPyrExp.quadSum (E : StdPyrExp K) (F : ℕ → ℕ → ℕ → K) : K :=
  tripleSum (E.NumPoints 0) (E.NumPoints 1) (E.NumPoints 2) F (E.W 0) (E.W 1) E.wz_hat

end PyrIntegralDefs

section PyrIProductDefs

variable {K : Type} [Field K]

/-- The triple `(p, q, r)` whose mode number is `m`. -/
def StdPyrExp.modeTriple (E : StdPyrExp K) (m : ℕ) : ℕ × ℕ × ℕ :=
  (pyrModes (E.NumModes 0) (E.NumModes 1) (E.NumModes 2)).getD m (0, 0, 0)

/-- The value at the point `(i, j, k)` of the mode with number `m`:
`phi_m[i,j,k] = bx[i + Qx*p] * by[j + Qy*q] * bz[k + Qz*m]`, where `(p, q, r)` is the
triple of mode `m`. -/
def StdPyrExp.phi (E : StdPyrExp K) (m i j k : ℕ) : K :=
  E.Bdata 0 (i + E.NumPoints 0 * (E.modeTriple m).1)
    * E.Bdata 1 (j + E.NumPoints 1 * (E.modeTriple m).2.1)
    * E.Bdata 2 (k + E.NumPoints 2 * m)

end PyrIProductDefs

section PyrBwd2Defs

variable {K : Type} [Field K]

/-- The local array `Ak` of `StdPyrExp::BwdTrans` for the point index `k`. -/
def StdPyrExp.bwdAk (E : StdPyrExp K) (inarray : ℕ → K) (k : ℕ) : ℕ → K :=
  forLoop 0 (E.NumModes 0) (fun p Ak =>
    forLoop 0 (E.NumModes 1) (fun q Ak =>
      forLoop 0 (E.NumModes 2 - p - q) (fun r Ak =>
        set1 Ak (q + E.NumModes 1 * p)
          (Ak (q + E.NumModes 1 * p)
            + inarray (buildPqr (E.NumModes 0) (E.NumModes 1) (E.NumModes 2)
                (r + E.NumModes 2 * (q + E.NumModes 1 * p))).toNat
              * E.Bdata 2 ((k + E.NumPoints 2
                  * buildPqr (E.NumModes 0) (E.NumModes 1) (E.NumModes 2)
                    (r + E.NumModes 2 * (q + E.NumModes 1 * p))).toNat)))
        Ak) Ak) (fun _ => 0)

/-- The local array `bjk` of `StdPyrExp::BwdTrans` for the point indices `j`, `k`. -/
def StdPyrExp.bwdBjk (E : StdPyrExp K) (inarray : ℕ → K) (j k : ℕ) : ℕ → K :=
  forLoop 0 (E.NumModes 0) (fun p bjk =>
    forLoop 0 (E.NumModes 1) (fun q bjk =>
      set1 bjk p (bjk p + E.bwdAk inarray k (q + E.NumModes 1 * p)
        * E.Bdata 1 (j + E.NumPoints 1 * q))) bjk) (fun _ => 0)

/-- The local value `cijk` of `StdPyrExp::BwdTrans` for the point indices `i`, `j`,
`k`. -/
def StdPyrExp.bwdCijk (E : StdPyrExp K) (inarray : ℕ → K) (i j k : ℕ) : K :=
  forLoop 0 (E.NumModes 0) (fun p cijk =>
    cijk + E.bwdBjk inarray j k p * E.Bdata 0 (i + E.NumPoints 0 * p)) 0

end PyrBwd2Defs

section PyrRoundTripDefs

variable {K : Type} [Field K]

/-- The mode with number `m` as an array over the quadrature points, stored at
`s = i + Qx*(j + Qy*k)`. -/
def StdPyrExp.phiArray (E : StdPyrExp K) (m : ℕ) : ℕ → K :=
  fun s => E.phi m (s % E.NumPoints 0) (s / E.NumPoints 0 % E.NumPoints 1)
    (s / E.NumPoints 0 / E.NumPoints 1)

/-- The mass matrix entry `M[m][n] = Integral(phi_m * phi_n)`. -/
def StdPyrExp.massEntry (E : StdPyrExp K) (m n : ℕ) : K :=
  E.Integral (fun s => E.phiArray m s * E.phiArray n s)

end PyrRoundTripDefs

section PyrExample2Defs



/-- A pyramid expansion with mode counts `(1, 2, 2)`, hence the three modes `(0,0,0)`,
`(0,0,1)`, `(0,1,0)`, on a grid of `1 x 2 x 2` points. -/
def examplePyr3 : StdPyrExp ℚ :=
  { NumPoints := fun d => if d = 0 then 1 else 2
    NumModes := fun d => if d = 0 then 1 else 2
    Bdata := fun d n =>
      if d = 0 then 1
      else if d = 1 then (if n = 0 ∨ n = 3 then 1 else 0)
      else (if n = 0 ∨ n = 3 ∨ n = 4 ∨ n = 5 then 1 else 0)
    GetBasisType := fun _ => .other 0
    GetPointsType := fun _ => .eGaussRadauMAlpha2Beta0
    Z := fun _ _ => 0
    W := fun d _ => if d = 2 then 4 else 1
    GetStdMatrix := fun _ => ⟨3, 3, fun i j => if i = j then (if i = 2 then 1 / 2 else 1) else 0⟩ }

end PyrExample2Defs

section PyrIntegralClaimDefs

variable {K : Type} [Field K]

/-- A copy of `examplePyr3` whose third direction uses the Gauss-Lobatto-Legendre
points `-1, 1` with weights `1, 1`. -/
def examplePyrGLL : StdPyrExp ℚ :=
  { examplePyr3 with
    GetPointsType := fun _ => .eGaussLobattoLegendre
    Z := fun _ k => if k = 0 then -1 else 1
    W := fun _ _ => 1 }

/-- A copy of `examplePyr3` whose third direction uses a point distribution other than
the three that the `switch` of `StdPyrExp::Integral` lists. -/
def examplePyrOther : StdPyrExp ℚ :=
  { examplePyr3 with GetPointsType := fun _ => .other 0 }

end PyrIntegralClaimDefs

section GetCoordDefs

variable {K : Type} [LinearOrderedField K]

/-- The part of the geometry object `m_geom` that `GetCoord` reads: the dimension of the
coordinate space and the coordinate `GetCoord(i, Lcoords)` of the physical point at the
local coordinates `Lcoords` (after `FillGeom()`). -/
structure Geometry (K : Type) where
  /-- Result of `m_geom->GetCoordim()`. -/
  GetCoordim : ℕ
  /-- Result of `m_geom->GetCoord(i, Lcoords)`. -/
  GetCoord : ℕ → (ℕ → K) → K

/-- The routine `TetExp::v_GetCoord`: the array `coords` after the call. -/
def TetExp.GetCoord (m_geom : Geometry K) (Lcoords coords : ℕ → K) :
    Except String (ℕ → K) := do
  ASSERTL (decide (Lcoords 0 ≤ -1 ∧ Lcoords 0 ≥ 1 ∧
                   Lcoords 1 ≤ -1 ∧ Lcoords 1 ≥ 1 ∧
                   Lcoords 2 ≤ -1 ∧ Lcoords 2 ≥ 1))
    "Local coordinates are not in region [-1,1]"
  pure (forLoop 0 m_geom.GetCoordim
    (fun i coords => set1 coords i (m_geom.GetCoord i Lcoords)) coords)

/-- The routine `TriExp::v_GetCoord`: the array `coords` after the call. -/
def TriExp.GetCoord (m_geom : Geometry K) (Lcoords coords : ℕ → K) :
    Except String (ℕ → K) := do
  ASSERTL (decide (Lcoords 0 ≥ -1 ∧ Lcoords 1 ≤ 1 ∧
                   Lcoords 1 ≥ -1 ∧ Lcoords 1 ≤ 1))
    "Local coordinates are not in region [-1,1]"
  pure (forLoop 0 m_geom.GetCoordim
    (fun i coords => set1 coords i (m_geom.GetCoord i Lcoords)) coords)

/-- A geometry in three dimensions that maps local coordinates to themselves. -/
def exampleGeometry : Geometry ℚ :=
  { GetCoordim := 3
    GetCoord := fun i Lcoords => Lcoords i }

end GetCoordDefs

section PyrEvaluateDefs

variable {K : Type} [LinearOrderedField K]

/-- Modelled from the spec: the constant `NekConstants::kEvaluateTol`, whose header is
not part of the sources at hand: "tolerance ~1e-12"; the comment next to its use in
`StdPyrExp::PhysEvaluate` gives the same value. -/
def kEvaluateTol : K := 1 / 1000000000000

/-- The quotient `a / b` of two `NekDouble`s; the divisor is appended to the record of
the divisors used so far. -/
def divRecord {F : Type} [Div F] (a b : F) (divisors : List F) : F × List F :=
  (a / b, divisors ++ [b])

/-- The first part of `StdPyrExp::PhysEvaluate`: the array `eta` of collapsed
coordinates that is handed to `PhysEvaluate3D`, with the record of the divisors of the
divisions performed.  The argument `eta` is the array as allocated. -/
def StdPyrExp.PhysEvaluate_eta (xi eta : ℕ → K) : (ℕ → K) × List K :=
  if |xi 2 - 1| < kEvaluateTol then
    -- Very top point of the pyramid
    let eta := set1 eta 0 (-1)
    let eta := set1 eta 1 (-1)
    let eta := set1 eta 2 (xi 2)
    (eta, [])
  else
    -- Below the line-singularity -- Common case
    let eta := set1 eta 2 (xi 2)
    let q1 := divRecord (2 * (1 + xi 1)) (1 - xi 2) []
    let eta := set1 eta 1 (q1.1 - 1)
    let q0 := divRecord (2 * (1 + xi 0)) (1 - xi 2) q1.2
    let eta := set1 eta 0 (q0.1 - 1)
    (eta, q0.2)

/-- The routine `StdPyrExp::PhysEvaluate`; `PhysEvaluate3D` is the routine of
`StdExpansion3D`, which is not part of the sources at hand. -/
def StdPyrExp.PhysEvaluate (PhysEvaluate3D : (ℕ → K) → K) (xi eta : ℕ → K) : K :=
  PhysEvaluate3D (StdPyrExp.PhysEvaluate_eta xi eta).1

end PyrEvaluateDefs

section PyrDerivDefs

variable {K : Type} [Field K]

/-- The state of the loop of `StdPyrExp::PhysDeriv`: the three output arrays, the
running point counter `n`, and the record of the divisors of the divisions performed so
far. -/
structure PhysDerivState (K : Type) where
  out_dxi1 : ℕ → K
  out_dxi2 : ℕ → K
  out_dxi3 : ℕ → K
  n : ℕ
  divisors : List K

/-- The body of the loop of `StdPyrExp::PhysDeriv` at the point `(i, j, k)`, with the
arrays `out_dEta1`, `out_dEta2`, `out_dEta3` of tensor-product derivatives. -/
def StdPyrExp.PhysDeriv_body (E : StdPyrExp K) (out_dEta1 out_dEta2 out_dEta3 : ℕ → K)
    (i j k : ℕ) (s : PhysDerivState K) : PhysDerivState K :=
  let eta_x := E.Z 0
  let eta_y := E.Z 1
  let eta_z := E.Z 2
  let q1 := divRecord 2 (1 - eta_z k) s.divisors
  let q2 := divRecord 2 (1 - eta_z k) q1.2
  let q3 := divRecord (1 + eta_x i) (1 - eta_z k) q2.2
  let q4 := divRecord (1 + eta_y j) (1 - eta_z k) q3.2
  { out_dxi1 := set1 s.out_dxi1 s.n (q1.1 * out_dEta1 s.n)
    out_dxi2 := set1 s.out_dxi2 s.n (q2.1 * out_dEta2 s.n)
    out_dxi3 := set1 s.out_dxi3 s.n
      (q3.1 * out_dEta1 s.n + q4.1 * out_dEta2 s.n + out_dEta3 s.n)
    n := s.n + 1
    divisors := q4.2 }

/-- The routine `StdPyrExp::PhysDeriv(u_physical, out_dxi1, out_dxi2, out_dxi3)`.
`PhysTensorDeriv u d` is the array `out_dEta(d+1)` that the routine `PhysTensorDeriv` of
`StdExpansion3D`, which is not part of the sources at hand, fills for `u`. -/
def StdPyrExp.PhysDeriv (E : StdPyrExp K) (PhysTensorDeriv : (ℕ → K) → ℕ → ℕ → K)
    (u_physical out_dxi1 out_dxi2 out_dxi3 : ℕ → K) : PhysDerivState K :=
  let Qx := E.NumPoints 0
  let Qy := E.NumPoints 1
  let Qz := E.NumPoints 2
  -- Compute the physical derivative
  let out_dEta1 := PhysTensorDeriv u_physical 0
  let out_dEta2 := PhysTensorDeriv u_physical 1
  let out_dEta3 := PhysTensorDeriv u_physical 2
  forLoop 0 Qz (fun k s =>
    forLoop 0 Qy (fun j s =>
      forLoop 0 Qx (fun i s =>
        E.PhysDeriv_body out_dEta1 out_dEta2 out_dEta3 i j k s) s) s)
    ⟨out_dxi1, out_dxi2, out_dxi3, 0, []⟩

end PyrDerivDefs

section MatrixManagerDefs

variable {K : Type} [DecidableEq K]

/-- Modelled from the spec: the matrix manager `NekManager`, whose class is not part of
the sources at hand, a cache that "maps MatrixKey → lazily-computed, shared, immutable
matrix object": `Get(key)` "returns a cached matrix if present; otherwise constructs it
via a shape-specific factory callback, stores it, and returns it".  The state is the
list of the stored entries together with the record of the keys that were handed to
the callback (the "construction-counter hook" of the spec). -/
structure NekManager (K V : Type) where
  m_values : List (MatrixKey K × V)
  constructed : List (MatrixKey K)

/-- Modelled from the spec: the access `manager[key]` of `NekManager` with the factory
callback `creator`: the value returned and the state of the manager after the call. -/
def NekManager.get {V : Type} (creator : MatrixKey K → Except String V)
    (mgr : NekManager K V) (key : MatrixKey K) : Except String (V × NekManager K V) :=
  match mgr.m_values.lookup key with
  | some v => pure (v, mgr)
  | none => do
    let v ← creator key
    pure (v, ⟨(key, v) :: mgr.m_values, mgr.constructed ++ [key]⟩)

end MatrixManagerDefs

section MatrixCacheDefs

variable {K : Type} [Field K] [DecidableEq K]

/-- The routine `TetExp::v_GetLocMatrix`, `return m_matrixManager[mkey]`, on the state of
the manager `m_matrixManager`, whose callback the constructor binds to
`TetExp::CreateMatrix`.  The accesses to the manager that `CreateMatrix` makes itself
are for keys of other kinds and are taken by value. -/
def TetExp.v_GetLocMatrix (X : LocalExp K) (m_matrixManager : NekManager K (DNekScalMat K))
    (mkey : MatrixKey K) : Except String (DNekScalMat K × NekManager K (DNekScalMat K)) :=
  m_matrixManager.get (TetExp.CreateMatrix X) mkey

/-- The routine `TriExp::v_GetLocMatrix`, `return m_matrixManager[mkey]`, on the state of
the manager `m_matrixManager`, whose callback the constructor binds to
`TriExp::CreateMatrix`.  The accesses to the manager that `CreateMatrix` makes itself
are for keys of other kinds and are taken by value. -/
def TriExp.v_GetLocMatrix (X : LocalExp K) (m_matrixManager : NekManager K (DNekScalMat K))
    (mkey : MatrixKey K) : Except String (DNekScalMat K × NekManager K (DNekScalMat K)) :=
  m_matrixManager.get (TriExp.CreateMatrix X) mkey

end MatrixCacheDefs

section VmathOpsDefs

variable {K : Type} [Field K]

/-- The routine `Vmath::Fill(n, alpha, x + off, 1)`: `n` entries of `x` from `off` on are
set to `alpha`. -/
def Vmath.Fill (n : ℕ) (alpha : K) (x : ℕ → K) (off : ℕ) : ℕ → K :=
  fun i => if off ≤ i ∧ i < off + n then alpha else x i

/-- The routine `Blas::Dscal(n, alpha, x + off, incx)`: the `n` entries `x[off + incx*t]`
are multiplied by `alpha`. -/
def Blas.Dscal (n : ℕ) (alpha : K) (x : ℕ → K) (off incx : ℕ) : ℕ → K :=
  forLoop 0 n (fun t x => set1 x (off + incx * t) (alpha * x (off + incx * t))) x

/-- The routine `Vmath::Vmul(n, x, 1, y, 1, z, 1)`: `z[i] = x[i] * y[i]` for `i < n`. -/
def Vmath.Vmul (n : ℕ) (x y z : ℕ → K) : ℕ → K :=
  fun i => if i < n then x i * y i else z i

/-- The routine `Vmath::Vadd(n, x, 1, y, 1, z, 1)`: `z[i] = x[i] + y[i]` for `i < n`. -/
def Vmath.Vadd (n : ℕ) (x y z : ℕ → K) : ℕ → K :=
  fun i => if i < n then x i + y i else z i

/-- The routine `Vmath::Vvtvp(n, w, 1, x, 1, y, 1, z, 1)`:
`z[i] = w[i] * x[i] + y[i]` for `i < n`. -/
def Vmath.Vvtvp (n : ℕ) (w x y z : ℕ → K) : ℕ → K :=
  fun i => if i < n then w i * x i + y i else z i

/-- The routine `Vmath::Vvtvvtp(n, v, 1, w, 1, x, 1, y, 1, z, 1)`:
`z[i] = v[i] * w[i] + x[i] * y[i]` for `i < n`. -/
def Vmath.Vvtvvtp (n : ℕ) (v w x y z : ℕ → K) : ℕ → K :=
  fun i => if i < n then v i * w i + x i * y i else z i

/-- The routine `Vmath::Svtvp(n, alpha, x, 1, y, 1, z, 1)`:
`z[i] = alpha * x[i] + y[i]` for `i < n`. -/
def Vmath.Svtvp (n : ℕ) (alpha : K) (x y z : ℕ → K) : ℕ → K :=
  fun i => if i < n then alpha * x i + y i else z i

/-- The routine `Vmath::Svtsvtp(n, alpha, x, 1, beta, y, 1, z, 1)`:
`z[i] = alpha * x[i] + beta * y[i]` for `i < n`. -/
def Vmath.Svtsvtp (n : ℕ) (alpha : K) (x : ℕ → K) (beta : K) (y z : ℕ → K) : ℕ → K :=
  fun i => if i < n then alpha * x i + beta * y i else z i

end VmathOpsDefs

section LaplacianMetricDefs

variable {K : Type} [Field K]

/-- The keys `MetricType` of the map `m_metrics` that `TetExp.cpp` and `TriExp.cpp`
name. -/
inductive MetricType
  | MetricQuadrature
  | MetricLaplacian00
  | MetricLaplacian01
  | MetricLaplacian02
  | MetricLaplacian11
  | MetricLaplacian12
  | MetricLaplacian22
  deriving DecidableEq, Repr

/-- The data of a three-dimensional local expansion that the matrix-free Laplacian code
reads besides that of `LocalExp`: per direction `i` the number of points, the points,
the basis and the basis derivative of `m_base[i]`, and the routines of the base classes
(`Expansion`, `StdExpansion3D`, `StdTetExp`), which are not part of the sources at
hand. -/
structure LocalExp3D (K : Type) extends LocalExp K where
  /-- Result of `m_base[i]->GetNumPoints()`. -/
  NumPoints : ℕ → ℕ
  /-- Result of `m_base[i]->GetZ()`. -/
  Z : ℕ → ℕ → K
  /-- Result of `m_base[i]->GetBdata()`. -/
  Bdata : ℕ → ℕ → K
  /-- Result of `m_base[i]->GetDbdata()`. -/
  Dbdata : ℕ → ℕ → K
  /-- The array that `ComputeQuadratureMetric` stores under `MetricQuadrature`. -/
  QuadratureMetric : ℕ → K
  /-- Routine `StdExpansion3D::PhysTensorDeriv(inarray, out_d0, out_d1, out_d2)`: the
  array `out_d` for direction `d`. -/
  PhysTensorDeriv : (ℕ → K) → ℕ → ℕ → K
  /-- Routine `IProductWRTBase_SumFacKernel(base0, base1, base2, inarray, outarray, wsp,
  c0, c1, c2)`: the array `outarray` after the call. -/
  IProductWRTBase_SumFacKernel :
    (ℕ → K) → (ℕ → K) → (ℕ → K) → (ℕ → K) → (ℕ → K) → Bool → Bool → Bool → ℕ → K
  /-- Routine `BwdTrans_SumFacKernel`: the values at the quadrature points of the
  expansion with the given coefficients. -/
  BwdTrans_SumFacKernel : (ℕ → K) → ℕ → K

/-- The routine `ComputeQuadratureMetric` of `Expansion`, which is not part of the
sources at hand: it stores the quadrature metric under `MetricQuadrature`. -/
def LocalExp3D.ComputeQuadratureMetric (X : LocalExp3D K)
    (m_metrics : MetricType → Option (ℕ → K)) : MetricType → Option (ℕ → K) :=
  fun t => if t = .MetricQuadrature then some X.QuadratureMetric else m_metrics t

/-- Modelled from the spec: the routine `MultiplyByQuadratureMetric(inarray, outarray)`
of `Expansion`, which is not part of the sources at hand: the values are "scaled by the
quadrature weight and Jacobian (quadrature metric)", pointwise over the quadrature
points. -/
def LocalExp3D.MultiplyByQuadratureMetric (X : LocalExp3D K)
    (m_metrics : MetricType → Option (ℕ → K)) (inarray outarray : ℕ → K) : ℕ → K :=
  let m_metrics :=
    if (m_metrics .MetricQuadrature).isNone then X.ComputeQuadratureMetric m_metrics
    else m_metrics
  Vmath.Vmul X.TotPoints ((m_metrics .MetricQuadrature).getD (fun _ => 0)) inarray outarray

/-- The blocks of the temporary storage `alloc` of `TetExp::v_ComputeLaplacianMetric`,
each of `nqtot` entries, named after the first array declared on them.  The arrays
`wsp4`, `wsp5`, `wsp6`, `wsp7`, `wsp8`, `wsp9` are declared on the blocks of `g1`, `g2`,
`g5`, `h0`, `h1`, `h2`. -/
structure LaplacianMetricWork (K : Type) where
  wsp1 : ℕ → K
  wsp2 : ℕ → K
  wsp3 : ℕ → K
  g0 : ℕ → K
  g1 : ℕ → K
  g2 : ℕ → K
  g3 : ℕ → K
  g4 : ℕ → K
  g5 : ℕ → K
  h0 : ℕ → K
  h1 : ℕ → K
  h2 : ℕ → K
  h3 : ℕ → K

/-- The assignment `m_metrics[t] = a`. -/
def setMetric (m_metrics : MetricType → Option (ℕ → K)) (t : MetricType) (a : ℕ → K) :
    MetricType → Option (ℕ → K) :=
  fun t1 => if t1 = t then some a else m_metrics t1

/-- The keys `m[i][j]`, `i <= j < 3`, in the order of the loops of
`TetExp::v_ComputeLaplacianMetric`. -/
def laplacianKeys3 : List MetricType :=
  [.MetricLaplacian00, .MetricLaplacian01, .MetricLaplacian02, .MetricLaplacian11,
    .MetricLaplacian12, .MetricLaplacian22]

/-- The loops of `TetExp::v_ComputeLaplacianMetric` that fill `h0`, `h1`, `h2`, `h3`
(all zero at the start, as `alloc` is). -/
def TetExp.LaplacianMetric_h (X : LocalExp3D K) :
    (ℕ → K) × (ℕ → K) × (ℕ → K) × (ℕ → K) :=
  let z0 := X.Z 0
  let z1 := X.Z 1
  let z2 := X.Z 2
  let nquad0 := X.NumPoints 0
  let nquad1 := X.NumPoints 1
  let nquad2 := X.NumPoints 2
  let h := forLoop 0 nquad2 (fun j h =>
    forLoop 0 nquad1 (fun i (h : (ℕ → K) × (ℕ → K) × (ℕ → K) × (ℕ → K)) =>
      (Vmath.Fill nquad0 (4 / (1 - z1 i) / (1 - z2 j)) h.1
          (i * nquad0 + j * nquad0 * nquad1),
        Vmath.Fill nquad0 (2 / (1 - z1 i) / (1 - z2 j)) h.2.1
          (i * nquad0 + j * nquad0 * nquad1),
        Vmath.Fill nquad0 (2 / (1 - z2 j)) h.2.2.1 (i * nquad0 + j * nquad0 * nquad1),
        Vmath.Fill nquad0 ((1 + z1 i) / (1 - z2 j)) h.2.2.2
          (i * nquad0 + j * nquad0 * nquad1))) h)
    (fun _ => 0, fun _ => 0, fun _ => 0, fun _ => 0)
  forLoop 0 nquad0 (fun i (h : (ℕ → K) × (ℕ → K) × (ℕ → K) × (ℕ → K)) =>
    (h.1, Blas.Dscal (nquad1 * nquad2) (1 + z0 i) h.2.1 i nquad0, h.2.2.1, h.2.2.2)) h

/-- The branch of `TetExp::v_ComputeLaplacianMetric` for deformed geometry: the
temporary storage after "Step 3". -/
def TetExp.LaplacianMetric_deformed (X : LocalExp3D K) : LaplacianMetricWork K :=
  let nqtot := X.TotPoints
  let df := X.DerivFactors
  let zero : ℕ → K := fun _ => 0
  let h0 := (TetExp.LaplacianMetric_h X).1
  let h1 := (TetExp.LaplacianMetric_h X).2.1
  let h2 := (TetExp.LaplacianMetric_h X).2.2.1
  let h3 := (TetExp.LaplacianMetric_h X).2.2.2
  -- wsp4
  let wsp4 := Vmath.Vadd nqtot (df 1) (df 2) zero
  let wsp4 := Vmath.Vvtvvtp nqtot (df 0) h0 wsp4 h1 wsp4
  -- wsp5
  let wsp5 := Vmath.Vadd nqtot (df 4) (df 5) zero
  let wsp5 := Vmath.Vvtvvtp nqtot (df 3) h0 wsp5 h1 wsp5
  -- wsp6
  let wsp6 := Vmath.Vadd nqtot (df 7) (df 8) zero
  let wsp6 := Vmath.Vvtvvtp nqtot (df 6) h0 wsp6 h1 wsp6
  -- g0
  let g0 := Vmath.Vvtvvtp nqtot wsp4 wsp4 wsp5 wsp5 zero
  let g0 := Vmath.Vvtvp nqtot wsp6 wsp6 g0 g0
  -- g4
  let g4 := Vmath.Vvtvvtp nqtot (df 2) wsp4 (df 5) wsp5 zero
  let g4 := Vmath.Vvtvp nqtot (df 8) wsp6 g4 g4
  -- overwrite h0, h1, h2
  -- wsp7 (h2f1 + h3f2)
  let wsp7 := Vmath.Vvtvvtp nqtot (df 1) h2 (df 2) h3 h0
  -- wsp8 (h2f4 + h3f5)
  let wsp8 := Vmath.Vvtvvtp nqtot (df 4) h2 (df 5) h3 h1
  -- wsp9 (h2f7 + h3f8)
  let wsp9 := Vmath.Vvtvvtp nqtot (df 7) h2 (df 8) h3 h2
  -- g3
  let g3 := Vmath.Vvtvvtp nqtot wsp4 wsp7 wsp5 wsp8 zero
  let g3 := Vmath.Vvtvp nqtot wsp6 wsp9 g3 g3
  -- overwrite wsp4, wsp5, wsp6
  -- g1
  let g1 := Vmath.Vvtvvtp nqtot wsp7 wsp7 wsp8 wsp8 wsp4
  let g1 := Vmath.Vvtvp nqtot wsp9 wsp9 g1 g1
  -- g5
  let g5 := Vmath.Vvtvvtp nqtot (df 2) wsp7 (df 5) wsp8 wsp6
  let g5 := Vmath.Vvtvp nqtot (df 8) wsp9 g5 g5
  -- g2
  let g2 := Vmath.Vvtvvtp nqtot (df 2) (df 2) (df 5) (df 5) wsp5
  let g2 := Vmath.Vvtvp nqtot (df 8) (df 8) g2 g2
  ⟨zero, zero, zero, g0, g1, g2, g3, g4, g5, wsp7, wsp8, wsp9, h3⟩

/-- The branch of `TetExp::v_ComputeLaplacianMetric` for geometry that is not deformed:
the temporary storage after "Step 3". -/
def TetExp.LaplacianMetric_regular (X : LocalExp3D K) : LaplacianMetricWork K :=
  let nqtot := X.TotPoints
  let df := X.DerivFactors
  let zero : ℕ → K := fun _ => 0
  let h0 := (TetExp.LaplacianMetric_h X).1
  let h1 := (TetExp.LaplacianMetric_h X).2.1
  let h2 := (TetExp.LaplacianMetric_h X).2.2.1
  let h3 := (TetExp.LaplacianMetric_h X).2.2.2
  -- wsp4
  let wsp4 := Vmath.Svtsvtp nqtot (df 0 0) h0 (df 1 0 + df 2 0) h1 zero
  -- wsp5
  let wsp5 := Vmath.Svtsvtp nqtot (df 3 0) h0 (df 4 0 + df 5 0) h1 zero
  -- wsp6
  let wsp6 := Vmath.Svtsvtp nqtot (df 6 0) h0 (df 7 0 + df 8 0) h1 zero
  -- g0
  let g0 := Vmath.Vvtvvtp nqtot wsp4 wsp4 wsp5 wsp5 zero
  let g0 := Vmath.Vvtvp nqtot wsp6 wsp6 g0 g0
  -- g4
  let g4 := Vmath.Svtsvtp nqtot (df 2 0) wsp4 (df 5 0) wsp5 zero
  let g4 := Vmath.Svtvp nqtot (df 8 0) wsp6 g4 g4
  -- overwrite h0, h1, h2
  -- wsp7 (h2f1 + h3f2)
  let wsp7 := Vmath.Svtsvtp nqtot (df 1 0) h2 (df 2 0) h3 h0
  -- wsp8 (h2f4 + h3f5)
  let wsp8 := Vmath.Svtsvtp nqtot (df 4 0) h2 (df 5 0) h3 h1
  -- wsp9 (h2f7 + h3f8)
  let wsp9 := Vmath.Svtsvtp nqtot (df 7 0) h2 (df 8 0) h3 h2
  -- g3
  let g3 := Vmath.Vvtvvtp nqtot wsp4 wsp7 wsp5 wsp8 zero
  let g3 := Vmath.Vvtvp nqtot wsp6 wsp9 g3 g3
  -- overwrite wsp4, wsp5, wsp6
  -- g1
  let g1 := Vmath.Vvtvvtp nqtot wsp7 wsp7 wsp8 wsp8 wsp4
  let g1 := Vmath.Vvtvp nqtot wsp9 wsp9 g1 g1
  -- g5
  let g5 := Vmath.Svtsvtp nqtot (df 2 0) wsp7 (df 5 0) wsp8 wsp6
  let g5 := Vmath.Svtvp nqtot (df 8 0) wsp9 g5 g5
  -- g2
  let g2 := Vmath.Fill nqtot (df 2 0 * df 2 0 + df 5 0 * df 5 0 + df 8 0 * df 8 0) wsp5 0
  ⟨zero, zero, zero, g0, g1, g2, g3, g4, g5, wsp7, wsp8, wsp9, h3⟩

/-- The routine `TetExp::v_ComputeLaplacianMetric`: the map `m_metrics` after the call,
and the temporary storage `alloc` as the routine leaves it.  `fresh t` is the content of
the array that `Array<OneD, NekDouble>(nqtot)` allocates for the key `t`. -/
def TetExp.ComputeLaplacianMetric (X : LocalExp3D K) (fresh : MetricType → ℕ → K)
    (m_metrics : MetricType → Option (ℕ → K)) :
    (MetricType → Option (ℕ → K)) × LaplacianMetricWork K :=
  let m_metrics :=
    if (m_metrics .MetricQuadrature).isNone then X.ComputeQuadratureMetric m_metrics
    else m_metrics
  let m_metrics := laplacianKeys3.foldl (fun mm t => setMetric mm t (fresh t)) m_metrics
  -- Step 3. Construct combined metric terms for physical space to
  -- collapsed coordinate system.
  let alloc :=
    if X.Gtype = .eDeformed then TetExp.LaplacianMetric_deformed X
    else TetExp.LaplacianMetric_regular X
  let m_metrics := laplacianKeys3.foldl (fun mm t =>
    setMetric mm t (X.MultiplyByQuadratureMetric mm ((mm t).getD (fun _ => 0))
      ((mm t).getD (fun _ => 0)))) m_metrics
  (m_metrics, alloc)

/-- The quadrature metric in force once `ComputeQuadratureMetric` has been called if
needed. -/
def LocalExp3D.quadMetric (X : LocalExp3D K) (m_metrics : MetricType → Option (ℕ → K)) :
    ℕ → K :=
  if (m_metrics .MetricQuadrature).isNone then X.QuadratureMetric
  else (m_metrics .MetricQuadrature).getD (fun _ => 0)

/-- A tetrahedral expansion on `exampleRegular 1` with `2 x 1 x 1` quadrature points,
unit quadrature metric, and derivative factors `diag(a, b, 1)`, hence
`gmat = diag(a^2, b^2, 1)`. -/
def exampleTet (a b : ℚ) : LocalExp3D ℚ :=
  { exampleRegular 1 with
    DerivFactors := fun k _ => if k = 0 then a else if k = 4 then b else if k = 8 then 1 else 0
    Gmat := fun k _ =>
      if k = 0 then a * a else if k = 4 then b * b else if k = 8 then 1 else 0
    NumPoints := fun d => if d = 0 then 2 else 1
    Z := fun d i => if d = 0 then (if i = 0 then -1 else 0) else -1 / 2
    Bdata := fun _ _ => 1
    Dbdata := fun _ _ => 1
    QuadratureMetric := fun _ => 1
    PhysTensorDeriv := fun u _ => u
    IProductWRTBase_SumFacKernel := fun _ _ _ inarray outarray _ _ _ i =>
      if i < 2 then inarray i else outarray i
    BwdTrans_SumFacKernel := fun u => u }

end LaplacianMetricDefs

section LaplacianKernelDefs

variable {K : Type} [Field K]

/-- The routine `TetExp::v_LaplacianMatrixOp_MatFree_Kernel(inarray, outarray, wsp)`: the
array `outarray` and the map `m_metrics` after the call.  `wsp_num_elements` is the
length of `wsp` and `wsp b` the content of its block `wsp + b*nqtot` before the call;
`fresh` is as in `TetExp.ComputeLaplacianMetric`.  The use that
`IProductWRTBase_SumFacKernel` makes of its scratch argument `wsp0` is not part of the
model. -/
def TetExp.LaplacianMatrixOp_MatFree_Kernel (X : LocalExp3D K)
    (fresh : MetricType → ℕ → K) (m_metrics : MetricType → Option (ℕ → K))
    (inarray outarray : ℕ → K) (wsp_num_elements : ℕ) (wsp : ℕ → ℕ → K) :
    Except String ((ℕ → K) × (MetricType → Option (ℕ → K))) := do
  -- This implementation is only valid when there are no
  -- coefficients associated to the Laplacian operator
  let m_metrics :=
    if (m_metrics .MetricLaplacian00).isNone then
      (TetExp.ComputeLaplacianMetric X fresh m_metrics).1
    else m_metrics
  let nquad0 := X.NumPoints 0
  let nquad1 := X.NumPoints 1
  let nquad2 := X.NumPoints 2
  let nqtot := nquad0 * nquad1 * nquad2
  ASSERTL (decide (wsp_num_elements ≥ 6 * nqtot)) "Insufficient workspace size."
  let base0 := X.Bdata 0
  let base1 := X.Bdata 1
  let base2 := X.Bdata 2
  let dbase0 := X.Dbdata 0
  let dbase1 := X.Dbdata 1
  let dbase2 := X.Dbdata 2
  let metric00 := (m_metrics .MetricLaplacian00).getD (fun _ => 0)
  let metric01 := (m_metrics .MetricLaplacian01).getD (fun _ => 0)
  let metric02 := (m_metrics .MetricLaplacian02).getD (fun _ => 0)
  let metric11 := (m_metrics .MetricLaplacian11).getD (fun _ => 0)
  let metric12 := (m_metrics .MetricLaplacian12).getD (fun _ => 0)
  let metric22 := (m_metrics .MetricLaplacian22).getD (fun _ => 0)
  -- LAPLACIAN MATRIX OPERATION
  let wsp0 := X.PhysTensorDeriv inarray 0
  let wsp1 := X.PhysTensorDeriv inarray 1
  let wsp2 := X.PhysTensorDeriv inarray 2
  let wsp3 := Vmath.Vvtvvtp nqtot metric00 wsp0 metric01 wsp1 (wsp 3)
  let wsp3 := Vmath.Vvtvp nqtot metric02 wsp2 wsp3 wsp3
  let wsp4 := Vmath.Vvtvvtp nqtot metric01 wsp0 metric11 wsp1 (wsp 4)
  let wsp4 := Vmath.Vvtvp nqtot metric12 wsp2 wsp4 wsp4
  let wsp5 := Vmath.Vvtvvtp nqtot metric02 wsp0 metric12 wsp1 (wsp 5)
  let wsp5 := Vmath.Vvtvp nqtot metric22 wsp2 wsp5 wsp5
  -- outarray = m = (D_xi1 * B)^T * k
  -- wsp1     = n = (D_xi2 * B)^T * l
  let outarray := X.IProductWRTBase_SumFacKernel dbase0 base1 base2 wsp3 outarray
    false true true
  let wsp1 := X.IProductWRTBase_SumFacKernel base0 dbase1 base2 wsp4 wsp1 true false true
  let wsp2 := X.IProductWRTBase_SumFacKernel base0 base1 dbase2 wsp5 wsp2 true true false
  -- outarray = outarray + wsp1
  --          = L * u_hat
  let outarray := Vmath.Vadd X.m_ncoeffs wsp1 outarray outarray
  let outarray := Vmath.Vadd X.m_ncoeffs wsp2 outarray outarray
  pure (outarray, m_metrics)

/-- The map `m_metrics` that the kernel reads: the map it is called with, after
`ComputeLaplacianMetric` when `MetricLaplacian00` is not stored. -/
def TetExp.kernelMetrics (X : LocalExp3D K) (fresh : MetricType → ℕ → K)
    (m_metrics : MetricType → Option (ℕ → K)) : MetricType → Option (ℕ → K) :=
  if (m_metrics .MetricLaplacian00).isNone then
    (TetExp.ComputeLaplacianMetric X fresh m_metrics).1
  else m_metrics

end LaplacianKernelDefs

section LaplacianOpDefs

variable {K : Type} [Field K]

/-- Modelled from the spec: the routine `LaplacianMatrixOp_MatFree` of the base class,
which is not part of the sources at hand and stands between `v_LaplacianMatrixOp` and
the kernel: the matrix-free operator is applied to "the input coefficient vector", whose
values at the quadrature points are handed to the kernel together with a workspace of
the size the kernel asks for. -/
def TetExp.LaplacianMatrixOp_MatFree (X : LocalExp3D K) (fresh : MetricType → ℕ → K)
    (m_metrics : MetricType → Option (ℕ → K)) (inarray outarray : ℕ → K) :
    Except String ((ℕ → K) × (MetricType → Option (ℕ → K))) :=
  TetExp.LaplacianMatrixOp_MatFree_Kernel X fresh m_metrics (X.BwdTrans_SumFacKernel inarray)
    outarray (6 * (X.NumPoints 0 * X.NumPoints 1 * X.NumPoints 2)) (fun _ _ => 0)

/-- The routine `TetExp::v_LaplacianMatrixOp(inarray, outarray, mkey)`. -/
def TetExp.LaplacianMatrixOp (X : LocalExp3D K) (fresh : MetricType → ℕ → K)
    (m_metrics : MetricType → Option (ℕ → K)) (inarray outarray : ℕ → K) :
    Except String ((ℕ → K) × (MetricType → Option (ℕ → K))) :=
  TetExp.LaplacianMatrixOp_MatFree X fresh m_metrics inarray outarray

/-- The statement "the matrix-free `LaplacianMatrixOp` applied to a coefficient vector
equals the explicit Laplacian matrix multiplied by that vector" for the element `X`:
for every `u`, the output of `LaplacianMatrixOp` on a new element (no metric stored
yet) has the entries `sum_j L(i,j) * u[j]`, where `L = GetLocMatrix(eLaplacian)`. -/
def TetExp.LaplacianOpAgrees (X : LocalExp3D K) (fresh : MetricType → ℕ → K) : Prop :=
  ∀ L : DNekScalMat K,
    TetExp.GetLocMatrix X.toLocalExp (MatrixKey.mk3 .eLaplacian .eTetrahedron) = .ok L →
    ∀ (u out : ℕ → K) (i : ℕ), i < X.m_ncoeffs →
      (TetExp.LaplacianMatrixOp X fresh (fun _ => none) u out).map (fun r => r.1 i)
        = .ok (∑ j in Finset.range X.m_ncoeffs, L.entry i j * u j)

end LaplacianOpDefs

section FaceNormalDefs

variable {K : Type} [LinearOrderedField K]

/-- The routine `Vmath::Smul(n, alpha, x, 1, y, 1)`: `y[i] = alpha * x[i]` for `i < n`. -/
def Vmath.Smul {F : Type} [Mul F] (n : ℕ) (alpha : F) (x y : ℕ → F) : ℕ → F :=
  fun i => if i < n then alpha * x i else y i

/-- The array `a[i]` of an array of arrays replaced by `row`. -/
def setRow {α : Type} (a : ℕ → ℕ → α) (i : ℕ) (row : ℕ → α) : ℕ → ℕ → α :=
  fun i1 => if i1 = i then row else a i1

/-- The routine `TetExp::v_ComputeFaceNormal(face)`: the array `m_faceNormals[face]`
after the call, indexed `normal[i][n]`.  `sqrt` is the library function, `GetCoordim`
the result of `GetCoordim()`, `fresh` the content of the arrays
`Array<OneD, NekDouble>(nq)` as allocated.  The branch for deformed geometry, which
interpolates with `LibUtilities::Interp2D` (not part of the sources at hand), is the
argument `deformedNormal`. -/
def TetExp.ComputeFaceNormal (X : LocalExp3D K) (sqrt : K → K) (GetCoordim : ℕ)
    (deformedNormal : ℤ → Except String (ℕ → ℕ → K)) (fresh : ℕ → ℕ → K) (face : ℤ) :
    Except String (ℕ → ℕ → K) := do
  let type := X.Gtype
  let df := X.DerivFactors
  let nq := X.NumPoints 0 * X.NumPoints 0
  let vCoordDim := GetCoordim
  let normal := fresh
  -- Regular geometry case
  if type = .eRegular ∨ type = .eMovingRegular then
    -- Set up normals
    let normal ←
      match face with
      | 0 => pure (forLoop 0 vCoordDim (fun i normal =>
          setRow normal i (Vmath.Fill nq (-df (3 * i + 2) 0) (normal i) 0)) normal)
      | 1 => pure (forLoop 0 vCoordDim (fun i normal =>
          setRow normal i (Vmath.Fill nq (-df (3 * i + 1) 0) (normal i) 0)) normal)
      | 2 => pure (forLoop 0 vCoordDim (fun i normal =>
          setRow normal i (Vmath.Fill nq (df (3 * i) 0 + df (3 * i + 1) 0
            + df (3 * i + 2) 0) (normal i) 0)) normal)
      | 3 => pure (forLoop 0 vCoordDim (fun i normal =>
          setRow normal i (Vmath.Fill nq (-df (3 * i) 0) (normal i) 0)) normal)
      | _ => do
        ASSERTL false "face is out of range (edge < 3)"
        pure normal
    -- normalise
    let fac := forLoop 0 vCoordDim (fun i fac => fac + normal i 0 * normal i 0) 0
    let fac := 1 / sqrt fac
    pure (forLoop 0 vCoordDim (fun i normal =>
      setRow normal i (Vmath.Smul nq fac (normal i) (normal i))) normal)
  else
    deformedNormal face

/-- The vector `v` of the statement on face normals: `v_i = -df[3i+2][0]` for face 0,
`-df[3i+1][0]` for face 1, `df[3i][0] + df[3i+1][0] + df[3i+2][0]` for face 2 and
`-df[3i][0]` for face 3. -/
def TetExp.faceVector (X : LocalExp3D K) (face : ℤ) (i : ℕ) : K :=
  if face = 0 then -X.DerivFactors (3 * i + 2) 0
  else if face = 1 then -X.DerivFactors (3 * i + 1) 0
  else if face = 2 then
    X.DerivFactors (3 * i) 0 + X.DerivFactors (3 * i + 1) 0 + X.DerivFactors (3 * i + 2) 0
  else -X.DerivFactors (3 * i) 0

end FaceNormalDefs

section FeketeRowsDefs

variable {K : Type}

/-- The indices of the table rows that `NodalTriFekete::CalculatePoints` reads, in the
order of its loop: `NodalTriFeketeNPTS[GetNumPoints()]` rows from the first one on. -/
def rowsRead (T : FeketeTables K) (key : PointsKey) : List ℕ :=
  (List.range (T.NodalTriFeketeNPTS key.NumPoints)).map (fun i => firstRow T key + i)

/-- Tables whose orders have `1, 2, 3, ...` rows; the rows themselves are not read
here. -/
def exampleTables : FeketeTables ℚ :=
  { NodalTriFeketeNPTS := fun i => i + 1
    NodalTriFeketeData := fun _ _ => 0
    perm3A_2d := fun _ _ => 0
    perm3B_2d := fun _ _ => 0
    perm6_2d := fun _ _ => 0 }

end FeketeRowsDefs

section PyrModeMapDefs



/-- The lexicographic order on mode triples `(p, q, r)`. -/
def lexLt (t t1 : ℕ × ℕ × ℕ) : Prop :=
  t.1 < t1.1 ∨ (t.1 = t1.1 ∧ (t.2.1 < t1.2.1 ∨ (t.2.1 = t1.2.1 ∧ t.2.2 < t1.2.2)))

end PyrModeMapDefs

section PyrCoordsDefs

variable {K : Type} [Field K]

/-- The three arrays that `StdPyrExp::GetCoords` fills. -/
structure PyrCoords (K : Type) where
  xi_x : ℕ → K
  xi_y : ℕ → K
  xi_z : ℕ → K

/-- The routine `StdPyrExp::GetCoords(xi_x, xi_y, xi_z)`: the three arrays after the
call. -/
def StdPyrExp.GetCoords (E : StdPyrExp K) (xi_x xi_y xi_z : ℕ → K) : PyrCoords K :=
  let eta_x := E.Z 0
  let eta_y := E.Z 1
  let eta_z := E.Z 2
  let Qx := E.NumPoints 0
  let Qy := E.NumPoints 1
  let Qz := E.NumPoints 2
  -- Convert collapsed coordinates into cartesian coordinates: eta --> xi
  forLoop 0 Qz (fun k c =>
    forLoop 0 Qy (fun j c =>
      forLoop 0 Qx (fun i (c : PyrCoords K) =>
        let s := i + Qx * (j + Qy * k)
        let xi_z := set1 c.xi_z s (eta_z k)
        let xi_y := set1 c.xi_y s ((1 + eta_y j) * (1 - eta_z k) / 2 - 1)
        let xi_x := set1 c.xi_x s ((1 + eta_x i) * (1 - eta_z k) / 2 - 1)
        ⟨xi_x, xi_y, xi_z⟩) c) c)
    ⟨xi_x, xi_y, xi_z⟩

end PyrCoordsDefs

section ExtractDataDefs

variable {K : Type} [Field K]

/-- The routine `Vmath::Zero(n, x, 1)`: the first `n` entries of `x` are set to zero. -/
def Vmath.Zero (n : ℕ) (x : ℕ → K) : ℕ → K :=
  fun i => if i < n then 0 else x i

/-- The routine `Vmath::Vcopy(n, x + xoff, 1, y + yoff, 1)` with a count and offsets of
type `int`: `y[yoff + t] = x[xoff + t]` for `0 <= t < n`, nothing for `n <= 0`. -/
def Vmath.VcopyAt {F : Type} (n : ℤ) (x : ℕ → F) (xoff : ℤ) (y : ℕ → F) (yoff : ℤ) : ℕ → F :=
  fun c => if yoff ≤ (c : ℤ) ∧ (c : ℤ) < yoff + n then x (xoff + ((c : ℤ) - yoff)).toNat
    else y c

/-- A counted loop `for (i = lo; i < hi; ++i) body` with bounds of type `int`. -/
def forLoopInt {σ : Type} (lo hi : ℤ) (body : ℤ → σ → σ) (s : σ) : σ :=
  (List.range (hi - lo).toNat).foldl (fun s (t : ℕ) => body (lo + (t : ℤ)) s) s

/-- What `ExtractDataToCoeffs` reads from the expansion: the mode counts and basis types
of `m_base[i]` and the member `m_ncoeffs`. -/
structure ExpansionBases where
  /-- Result of `m_base[i]->GetNumModes()`. -/
  GetNumModes : ℕ → ℕ
  /-- Result of `m_base[i]->GetBasisType()`. -/
  GetBasisType : ℕ → BasisType
  /-- Member `m_ncoeffs`. -/
  m_ncoeffs : ℕ

/-- The routine `TriExp::v_ExtractDataToCoeffs(data, nummodes, mode_offset, coeffs)`: the
array `coeffs` after the call. -/
def TriExp.ExtractDataToCoeffs (B : ExpansionBases) (data : ℕ → K) (nummodes : ℕ → ℕ)
    (mode_offset : ℕ) (coeffs : ℕ → K) : Except String (ℕ → K) := do
  let data_order0 : ℤ := nummodes mode_offset
  let fillorder0 : ℤ := min (B.GetNumModes 0 : ℤ) data_order0
  let data_order1 : ℤ := nummodes (mode_offset + 1)
  let order1 : ℤ := B.GetNumModes 1
  let fillorder1 : ℤ := min order1 data_order1
  match B.GetBasisType 0 with
  | .eModified_A =>
    ASSERTL (B.GetBasisType 1 == .eModified_B) "Extraction routine not set up for this basis"
    let coeffs := Vmath.Zero B.m_ncoeffs coeffs
    let s := forLoopInt 0 fillorder0 (fun i (s : (ℕ → K) × ℤ × ℤ) =>
      (Vmath.VcopyAt (fillorder1 - i) data s.2.1 s.1 s.2.2,
        s.2.1 + (data_order1 - i), s.2.2 + (order1 - i))) (coeffs, 0, 0)
    pure s.1
  | _ => do
    ASSERTL false "basis is either not set up or not hierarchicial"
    pure coeffs

/-- The routine `TetExp::v_ExtractDataToCoeffs(data, nummodes, mode_offset, coeffs)`: the
array `coeffs` after the call. -/
def TetExp.ExtractDataToCoeffs (B : ExpansionBases) (data : ℕ → K) (nummodes : ℕ → ℕ)
    (mode_offset : ℕ) (coeffs : ℕ → K) : Except String (ℕ → K) := do
  let data_order0 : ℤ := nummodes mode_offset
  let fillorder0 : ℤ := min (B.GetNumModes 0 : ℤ) data_order0
  let data_order1 : ℤ := nummodes (mode_offset + 1)
  let order1 : ℤ := B.GetNumModes 1
  let fillorder1 : ℤ := min order1 data_order1
  let data_order2 : ℤ := nummodes (mode_offset + 2)
  let order2 : ℤ := B.GetNumModes 2
  let fillorder2 : ℤ := min order2 data_order2
  match B.GetBasisType 0 with
  | .eModified_A =>
    ASSERTL (B.GetBasisType 1 == .eModified_B) "Extraction routine not set up for this basis"
    ASSERTL (B.GetBasisType 2 == .eModified_C) "Extraction routine not set up for this basis"
    let coeffs := Vmath.Zero B.m_ncoeffs coeffs
    let s := forLoopInt 0 fillorder0 (fun j (s : (ℕ → K) × ℤ × ℤ) =>
      let s := forLoopInt 0 (fillorder1 - j) (fun i (s : (ℕ → K) × ℤ × ℤ) =>
        (Vmath.VcopyAt (fillorder2 - j - i) data s.2.1 s.1 s.2.2,
          s.2.1 + (data_order2 - j - i), s.2.2 + (order2 - j - i))) s
      -- count out data for j iteration
      let cnt := forLoopInt (fillorder1 - j) data_order1
        (fun i cnt => cnt + (data_order2 - j - i)) s.2.1
      let cnt1 := forLoopInt (fillorder1 - j) order1
        (fun i cnt1 => cnt1 + (order2 - j - i)) s.2.2
      (s.1, cnt, cnt1)) (coeffs, 0, 0)
    pure s.1
  | _ => do
    ASSERTL false "basis is either not set up or not hierarchicial"
    pure coeffs

/-- The offset `off(p) = sum over i < p of (order1 - i)` of the modes with first index
`p` in the coefficient array of a triangle with `order1` modes in the second
direction. -/
def triOff (order1 p : ℕ) : ℕ := ∑ i in Finset.range p, (order1 - i)

/-- A triangle expansion with three Modified_A / Modified_B modes in each direction and
six coefficients. -/
def exampleTriBases : ExpansionBases where
  GetNumModes := fun _ => 3
  GetBasisType := fun d => if d = 0 then .eModified_A else .eModified_B
  m_ncoeffs := 6

end ExtractDataDefs

section ExtractTetDefs0Defs



/-- A tetrahedral expansion with four Modified_A / Modified_B / Modified_C modes in each
direction and its twenty coefficients. -/
def exampleTetBases : ExpansionBases where
  GetNumModes := fun _ => 4
  GetBasisType := fun d => if d = 0 then .eModified_A else if d = 1 then .eModified_B
    else .eModified_C
  m_ncoeffs := 20

/-- A tetrahedral expansion with three Modified_A / Modified_B / Modified_C modes in each
direction and its ten coefficients. -/
def exampleTetBases3 : ExpansionBases where
  GetNumModes := fun _ => 3
  GetBasisType := fun d => if d = 0 then .eModified_A else if d = 1 then .eModified_B
    else .eModified_C
  m_ncoeffs := 10

end ExtractTetDefs0Defs

section LaplacianSymmetryDefs

variable {K : Type} [Field K]

/-- A dense matrix is symmetric: it is square and `M(i,j) = M(j,i)` inside its
dimensions. -/
def DNekMat.IsSymmetric (m : DNekMat K) : Prop :=
  m.rows = m.cols ∧ ∀ i, i < m.rows → ∀ j, j < m.rows → m.e i j = m.e j i

instance [DecidableEq K] (m : DNekMat K) : Decidable (DNekMat.IsSymmetric m) := by
  unfold DNekMat.IsSymmetric
  infer_instance

/-- A regular element whose reference matrices `Laplacian01`, `Laplacian02`,
`Laplacian12` are not symmetric, while the other reference matrices are. -/
def exampleLap (g : ℕ → ℚ) : LocalExp ℚ :=
  { exampleRegular 3 with
    Gmat := fun k _ => g k
    GetStdMatrix := fun k =>
      match k.mtype with
      | .eLaplacian01 => ⟨2, 2, fun i j => if i = 0 ∧ j = 1 then 3 else 0⟩
      | .eLaplacian02 => ⟨2, 2, fun i j => if i = 1 ∧ j = 0 then 5 else 1⟩
      | .eLaplacian12 => ⟨2, 2, fun i j => if i = 0 ∧ j = 1 then 7 else 2⟩
      | _ => ⟨2, 2, fun i j => if i = j then 2 else 1⟩ }

end LaplacianSymmetryDefs

section TriLaplacianMetricDefs

variable {K : Type} [Field K]

/-- The keys `m[i][j]`, `i <= j < 2`, in the order of the loops of
`TriExp::v_ComputeLaplacianMetric`. -/
def laplacianKeys2 : List MetricType :=
  [.MetricLaplacian00, .MetricLaplacian01, .MetricLaplacian11]

/-- The loops of `TriExp::v_ComputeLaplacianMetric` that scale the arrays `dEta_dXi[0]`
and `dEta_dXi[1]` (all ones at the start). -/
def TriExp.LaplacianMetric_dEta (X : LocalExp3D K) : (ℕ → K) × (ℕ → K) :=
  let z0 := X.Z 0
  let z1 := X.Z 1
  let nquad0 := X.NumPoints 0
  let nquad1 := X.NumPoints 1
  let d := forLoop 0 nquad1 (fun i (d : (ℕ → K) × (ℕ → K)) =>
    (Blas.Dscal nquad0 (2 / (1 - z1 i)) d.1 (i * nquad0) 1,
      Blas.Dscal nquad0 (2 / (1 - z1 i)) d.2 (i * nquad0) 1)) (fun _ => 1, fun _ => 1)
  forLoop 0 nquad0 (fun i (d : (ℕ → K) × (ℕ → K)) =>
    (d.1, Blas.Dscal nquad1 (1 / 2 * (1 + z0 i)) d.2 i nquad0)) d

/-- The branch of `TriExp::v_ComputeLaplacianMetric` for regular and moving regular
geometry: the arrays `m_metrics[MetricLaplacian00]`, `m_metrics[MetricLaplacian01]`,
`m_metrics[MetricLaplacian11]` at the end of the branch. -/
def TriExp.LaplacianMetric_regular (X : LocalExp3D K) (GetCoordim : ℕ)
    (dEta_dXi : (ℕ → K) × (ℕ → K)) (tmp m00 m01 m11 : ℕ → K) :
    (ℕ → K) × (ℕ → K) × (ℕ → K) :=
  let nqtot := X.TotPoints
  let df := X.DerivFactors
  let tmp := Vmath.Smul nqtot (df 0 0) dEta_dXi.1 tmp
  let tmp := Vmath.Svtvp nqtot (df 1 0) dEta_dXi.2 tmp tmp
  let m00 := Vmath.Vmul nqtot tmp tmp m00
  let m01 := Vmath.Smul nqtot (df 1 0) tmp m01
  let tmp := Vmath.Smul nqtot (df 2 0) dEta_dXi.1 tmp
  let tmp := Vmath.Svtvp nqtot (df 3 0) dEta_dXi.2 tmp tmp
  let m00 := Vmath.Vvtvp nqtot tmp tmp m00 m00
  let m01 := Vmath.Svtvp nqtot (df 3 0) tmp m01 m01
  let s : (ℕ → K) × (ℕ → K) :=
    if GetCoordim = 3 then
      let tmp := Vmath.Smul nqtot (df 4 0) dEta_dXi.1 tmp
      let tmp := Vmath.Svtvp nqtot (df 5 0) dEta_dXi.2 tmp tmp
      (Vmath.Vvtvp nqtot tmp tmp m00 m00, Vmath.Svtvp nqtot (df 5 0) tmp m01 m01)
    else (m00, m01)
  let g2 := df 1 0 * df 1 0 + df 3 0 * df 3 0
  let g2 := if GetCoordim = 3 then g2 + df 5 0 * df 5 0 else g2
  (s.1, s.2, Vmath.Fill nqtot g2 m11 0)

/-- The other branch of `TriExp::v_ComputeLaplacianMetric` (deformed geometry): the
arrays `m_metrics[MetricLaplacian00]`, `m_metrics[MetricLaplacian01]`,
`m_metrics[MetricLaplacian11]` at the end of the branch. -/
def TriExp.LaplacianMetric_deformed (X : LocalExp3D K) (GetCoordim : ℕ)
    (dEta_dXi : (ℕ → K) × (ℕ → K)) (tmp m00 m01 m11 : ℕ → K) :
    (ℕ → K) × (ℕ → K) × (ℕ → K) :=
  let nqtot := X.TotPoints
  let df := X.DerivFactors
  let tmp := Vmath.Vmul nqtot (df 0) dEta_dXi.1 tmp
  let tmp := Vmath.Vvtvp nqtot (df 1) dEta_dXi.2 tmp tmp
  let m00 := Vmath.Vmul nqtot tmp tmp m00
  let m01 := Vmath.Vmul nqtot (df 1) tmp m01
  let m11 := Vmath.Vmul nqtot (df 1) (df 1) m11
  let tmp := Vmath.Vmul nqtot (df 2) dEta_dXi.1 tmp
  let tmp := Vmath.Vvtvp nqtot (df 3) dEta_dXi.2 tmp tmp
  let m00 := Vmath.Vvtvp nqtot tmp tmp m00 m00
  let m01 := Vmath.Vvtvp nqtot (df 3) tmp m01 m01
  let m11 := Vmath.Vvtvp nqtot (df 3) (df 3) m11 m11
  if GetCoordim = 3 then
    let tmp := Vmath.Vmul nqtot (df 4) dEta_dXi.1 tmp
    let tmp := Vmath.Vvtvp nqtot (df 5) dEta_dXi.2 tmp tmp
    (Vmath.Vvtvp nqtot tmp tmp m00 m00, Vmath.Vvtvp nqtot (df 5) tmp m01 m01,
      Vmath.Vvtvp nqtot (df 5) (df 5) m11 m11)
  else (m00, m01, m11)

/-- The routine `TriExp::v_ComputeLaplacianMetric`: the map `m_metrics` after the call.
`GetCoordim` is the result of `GetCoordim()`, `fresh t` is the content of the array that
`Array<OneD, NekDouble>(nqtot)` allocates for the key `t`, and `tmp` the content of the
allocated array `tmp`. -/
def TriExp.ComputeLaplacianMetric (X : LocalExp3D K) (GetCoordim : ℕ)
    (fresh : MetricType → ℕ → K) (tmp : ℕ → K) (m_metrics : MetricType → Option (ℕ → K)) :
    MetricType → Option (ℕ → K) :=
  let m_metrics :=
    if (m_metrics .MetricQuadrature).isNone then X.ComputeQuadratureMetric m_metrics
    else m_metrics
  let m_metrics := laplacianKeys2.foldl (fun mm t => setMetric mm t (fresh t)) m_metrics
  let dEta_dXi := TriExp.LaplacianMetric_dEta X
  let m00 := (m_metrics .MetricLaplacian00).getD (fun _ => 0)
  let m01 := (m_metrics .MetricLaplacian01).getD (fun _ => 0)
  let m11 := (m_metrics .MetricLaplacian11).getD (fun _ => 0)
  let g :=
    if X.Gtype = .eRegular ∨ X.Gtype = .eMovingRegular then
      TriExp.LaplacianMetric_regular X GetCoordim dEta_dXi tmp m00 m01 m11
    else TriExp.LaplacianMetric_deformed X GetCoordim dEta_dXi tmp m00 m01 m11
  let m_metrics := setMetric m_metrics .MetricLaplacian00 g.1
  let m_metrics := setMetric m_metrics .MetricLaplacian01 g.2.1
  let m_metrics := setMetric m_metrics .MetricLaplacian11 g.2.2
  laplacianKeys2.foldl (fun mm t =>
    setMetric mm t (X.MultiplyByQuadratureMetric mm ((mm t).getD (fun _ => 0))
      ((mm t).getD (fun _ => 0)))) m_metrics

/-- A triangle expansion in three-dimensional space with `2 x 1` quadrature points on
`exampleRegular 1`, derivative factors `df[k]` equal to `k + 1` at point 0 and to `2 - k`
at point 1, and quadrature metric `1, 2`. -/
def exampleTri3 (gtype : GeomType) : LocalExp3D ℚ :=
  { exampleRegular 1 with
    Gtype := gtype
    DerivFactors := fun k n => if n = 0 then (k : ℚ) + 1 else 2 - (k : ℚ)
    NumPoints := fun d => if d = 0 then 2 else 1
    Z := fun d i => if d = 0 then (if i = 0 then -1 else 0) else -1 / 2
    Bdata := fun _ _ => 1
    Dbdata := fun _ _ => 1
    QuadratureMetric := fun n => (n : ℚ) + 1
    PhysTensorDeriv := fun u _ => u
    IProductWRTBase_SumFacKernel := fun _ _ _ inarray outarray _ _ _ i =>
      if i < 2 then inarray i else outarray i
    BwdTrans_SumFacKernel := fun u => u }

end TriLaplacianMetricDefs

/-! # Theorems -/

section StaticCond

variable {K : Type} [Field K]

theorem DNekMat.toMatrixOf_mul (m n : DNekMat K) (r c : ℕ) :
    (m * n).toMatrixOf r c = m.toMatrixOf r m.cols * n.toMatrixOf m.cols c := by
  ext i j
  show (∑ k in Finset.range m.cols, m.e i k * n.e k j) = _
  rw [Matrix.mul_apply, Finset.sum_range]
  rfl

theorem DNekMat.toMatrixOf_sub (m n : DNekMat K) (r c : ℕ) :
    (m - n).toMatrixOf r c = m.toMatrixOf r c - n.toMatrixOf r c := by
  ext i j
  rfl

theorem DNekMat.toMatrixOf_ofMatrix {r c : ℕ} (M : Matrix (Fin r) (Fin c) K) :
    (DNekMat.ofMatrix M).toMatrixOf r c = M := by
  ext i j
  simp [DNekMat.toMatrixOf, DNekMat.ofMatrix]

theorem DNekMat.toMatrixOf_Invert (m : DNekMat K) :
    m.Invert.toMatrixOf m.rows m.rows = (m.toMatrixOf m.rows m.rows)⁻¹ := by
  unfold DNekMat.Invert
  simp only []
  rw [DNekMat.toMatrixOf_ofMatrix, Matrix.inv_def, Ring.inverse_eq_inv']
  rfl

theorem DNekScalMat.toMatrixOf_one_scale (m : DNekMat K) (r c : ℕ) :
    (DNekScalMat.mk 1 m).toMatrixOf r c = m.toMatrixOf r c := by
  ext i j
  simp [DNekScalMat.toMatrixOf, DNekScalMat.entry, DNekMat.toMatrixOf]

theorem DNekMat.toMatrixOf_Invert_mk (n : ℕ) (d : ℕ → ℕ → K) :
    (DNekMat.Invert ⟨n, n, d⟩).toMatrixOf n n
      = (DNekMat.toMatrixOf n n ⟨n, n, d⟩)⁻¹ :=
  DNekMat.toMatrixOf_Invert ⟨n, n, d⟩

theorem DNekMat.toMatrixOf_condense (nb ni : ℕ) (a b c d : ℕ → ℕ → K) :
    DNekMat.toMatrixOf nb nb
        ((⟨nb, nb, a⟩ : DNekMat K) - (⟨nb, ni, b⟩ * DNekMat.Invert ⟨ni, ni, d⟩) * ⟨ni, nb, c⟩)
      = DNekMat.toMatrixOf nb nb ⟨nb, nb, a⟩
        - DNekMat.toMatrixOf nb ni ⟨nb, ni, b⟩ * (DNekMat.toMatrixOf ni ni ⟨ni, ni, d⟩)⁻¹
          * DNekMat.toMatrixOf ni nb ⟨ni, nb, c⟩ := by
  rw [DNekMat.toMatrixOf_sub, DNekMat.toMatrixOf_mul, DNekMat.toMatrixOf_mul]
  change DNekMat.toMatrixOf nb nb ⟨nb, nb, a⟩
        - DNekMat.toMatrixOf nb ni ⟨nb, ni, b⟩
          * DNekMat.toMatrixOf ni ni (DNekMat.Invert ⟨ni, ni, d⟩)
          * DNekMat.toMatrixOf ni nb ⟨ni, nb, c⟩ = _
  rw [DNekMat.toMatrixOf_Invert_mk]

theorem DNekMat.toMatrixOf_mul_Invert (nb ni : ℕ) (b d : ℕ → ℕ → K) :
    DNekMat.toMatrixOf nb ni ((⟨nb, ni, b⟩ : DNekMat K) * DNekMat.Invert ⟨ni, ni, d⟩)
      = DNekMat.toMatrixOf nb ni ⟨nb, ni, b⟩ * (DNekMat.toMatrixOf ni ni ⟨ni, ni, d⟩)⁻¹ := by
  rw [DNekMat.toMatrixOf_mul]
  change DNekMat.toMatrixOf nb ni ⟨nb, ni, b⟩
          * DNekMat.toMatrixOf ni ni (DNekMat.Invert ⟨ni, ni, d⟩) = _
  rw [DNekMat.toMatrixOf_Invert_mk]

theorem UseLocRegionsMatrix_blocks (X : LocalExp K) (M : DNekScalMat K)
    (hn : X.m_ncoeffs - X.NumBndryCoeffs ≠ 0) :
    IsCondensed X M (UseLocRegionsMatrix X 1 M) := by
  unfold UseLocRegionsMatrix IsCondensed
  simp only [hn, ne_eq, not_false_eq_true, if_true, one_div, inv_one]
  refine ⟨?_, ?_, ?_, ?_⟩
  · rw [DNekScalMat.toMatrixOf_one_scale, DNekMat.toMatrixOf_condense]
    rfl
  · rw [DNekScalMat.toMatrixOf_one_scale, DNekMat.toMatrixOf_mul_Invert]
    rfl
  · rw [DNekScalMat.toMatrixOf_one_scale]
    rfl
  · rw [DNekScalMat.toMatrixOf_one_scale, DNekMat.toMatrixOf_Invert_mk]
    rfl

theorem ASSERTL_geom_ok (g : GeomType) (h : g ≠ .eNoGeomType) :
    ASSERTL (g != .eNoGeomType) "Geometric information is not set up" = .ok () := by
  cases g <;> first | exact absurd rfl h | rfl

theorem ASSERTL_geom_error :
    ASSERTL (GeomType.eNoGeomType != .eNoGeomType) "Geometric information is not set up"
      = .error "Geometric information is not set up" := rfl

theorem tet_CreateMatrix_ok_Gtype (X : LocalExp K) (mkey : MatrixKey K)
    (M : DNekScalMat K) (h : TetExp.CreateMatrix X mkey = .ok M) :
    X.Gtype ≠ .eNoGeomType := by
  intro hg
  rw [TetExp.CreateMatrix, hg, ASSERTL_geom_error] at h
  simp [bind, Except.bind] at h

theorem tri_CreateMatrix_ok_Gtype (X : LocalExp K) (mkey : MatrixKey K)
    (M : DNekScalMat K) (h : TriExp.CreateMatrix X mkey = .ok M) :
    X.Gtype ≠ .eNoGeomType := by
  intro hg
  rw [TriExp.CreateMatrix, hg, ASSERTL_geom_error] at h
  simp [bind, Except.bind] at h

theorem tet_CreateStaticCondMatrix_loc (X : LocalExp K) (mkey : MatrixKey K)
    (M : DNekScalMat K) (hM : TetExp.CreateMatrix X mkey = .ok M)
    (hpath : mkey.mtype = .eLaplacian ∨ mkey.mtype = .eHelmholtz
      ∨ X.Gtype = .eDeformed ∨ mkey.GetNVarCoeff ≠ 0) :
    TetExp.CreateStaticCondMatrix X mkey = .ok (UseLocRegionsMatrix X 1 M) := by
  have hg := tet_CreateMatrix_ok_Gtype X mkey M hM
  rw [TetExp.CreateStaticCondMatrix, ASSERTL_geom_ok _ hg, hM]
  simp only [bind, Except.bind, pure, Except.pure, MatrixKey.GetMatrixType]
  split
  · rfl
  · rfl
  · rename_i h1 h2
    have : X.Gtype = .eDeformed ∨ mkey.GetNVarCoeff ≠ 0 := by
      rcases hpath with h | h | h | h
      · exact absurd h h1
      · exact absurd h h2
      · exact Or.inl h
      · exact Or.inr h
    rw [if_pos this]

theorem tri_CreateStaticCondMatrix_loc (X : LocalExp K) (mkey : MatrixKey K)
    (M : DNekScalMat K) (hM : TriExp.CreateMatrix X mkey = .ok M)
    (hpath : mkey.mtype ≠ .eMass ∨ X.Gtype = .eDeformed ∨ mkey.GetNVarCoeff ≠ 0) :
    TriExp.CreateStaticCondMatrix X mkey = .ok (UseLocRegionsMatrix X 1 M) := by
  have hg := tri_CreateMatrix_ok_Gtype X mkey M hM
  rw [TriExp.CreateStaticCondMatrix, ASSERTL_geom_ok _ hg, hM]
  simp only [bind, Except.bind, pure, Except.pure, MatrixKey.GetMatrixType]
  split
  · rename_i h1
    have : X.Gtype = .eDeformed ∨ mkey.GetNVarCoeff ≠ 0 := by
      rcases hpath with h | h | h
      · exact absurd h1 h
      · exact Or.inl h
      · exact Or.inr h
    rw [if_pos this]
  · rfl

/-- C1: on the local-matrix path of `TetExp::CreateStaticCondMatrix` and of
`TriExp::CreateStaticCondMatrix`, with `nint = ncoeffs - NumBndryCoeffs > 0` and an
invertible interior block `D`, the returned block matrix has block(0,0) `A - B*Dinv*C`,
block(0,1) `B*Dinv`, block(1,0) `C` and block(1,1) `Dinv`, where `A`, `B`, `C`, `D` are
the boundary/interior blocks of `M = GetLocMatrix(key)` and `Dinv` is the inverse of
`D`. -/
theorem C1_static_condensation_blocks (X : LocalExp K) (mkey : MatrixKey K)
    (hnint : 0 < X.m_ncoeffs - X.NumBndryCoeffs) :
    (∀ M : DNekScalMat K, TetExp.GetLocMatrix X mkey = .ok M →
      (mkey.mtype = .eLaplacian ∨ mkey.mtype = .eHelmholtz
        ∨ X.Gtype = .eDeformed ∨ mkey.GetNVarCoeff ≠ 0) →
      (blockD X M).det ≠ 0 →
      TetExp.CreateStaticCondMatrix X mkey = .ok (UseLocRegionsMatrix X 1 M)
        ∧ IsCondensed X M (UseLocRegionsMatrix X 1 M)
        ∧ (blockD X M)⁻¹ * blockD X M = 1 ∧ blockD X M * (blockD X M)⁻¹ = 1)
    ∧ (∀ M : DNekScalMat K, TriExp.GetLocMatrix X mkey = .ok M →
      (mkey.mtype ≠ .eMass ∨ X.Gtype = .eDeformed ∨ mkey.GetNVarCoeff ≠ 0) →
      (blockD X M).det ≠ 0 →
      TriExp.CreateStaticCondMatrix X mkey = .ok (UseLocRegionsMatrix X 1 M)
        ∧ IsCondensed X M (UseLocRegionsMatrix X 1 M)
        ∧ (blockD X M)⁻¹ * blockD X M = 1 ∧ blockD X M * (blockD X M)⁻¹ = 1) := by
  have hn : X.m_ncoeffs - X.NumBndryCoeffs ≠ 0 := Nat.pos_iff_ne_zero.mp hnint
  constructor
  · intro M hM hpath hD
    have hu : IsUnit (blockD X M).det := isUnit_iff_ne_zero.mpr hD
    exact ⟨tet_CreateStaticCondMatrix_loc X mkey M hM hpath,
      UseLocRegionsMatrix_blocks X M hn, Matrix.nonsing_inv_mul _ hu,
      Matrix.mul_nonsing_inv _ hu⟩
  · intro M hM hpath hD
    have hu : IsUnit (blockD X M).det := isUnit_iff_ne_zero.mpr hD
    exact ⟨tri_CreateStaticCondMatrix_loc X mkey M hM hpath,
      UseLocRegionsMatrix_blocks X M hn, Matrix.nonsing_inv_mul _ hu,
      Matrix.mul_nonsing_inv _ hu⟩

theorem exampleDeformed_tet_mass :
    TetExp.GetLocMatrix exampleDeformed exampleMassKey = .ok exampleMassMat := by
  rw [TetExp.GetLocMatrix, TetExp.CreateMatrix]
  rfl

theorem exampleDeformed_tri_mass :
    TriExp.GetLocMatrix exampleDeformed exampleMassKey = .ok exampleMassMat := by
  rw [TriExp.GetLocMatrix, TriExp.CreateMatrix]
  rfl

theorem exampleDeformed_det : (blockD exampleDeformed exampleMassMat).det ≠ 0 := by
  show (blockD exampleDeformed exampleMassMat :
    Matrix (Fin 1) (Fin 1) ℚ).det ≠ 0
  rw [Matrix.det_fin_one]
  simp [blockD, DNekScalMat.entry, exampleDeformed, exampleMassMat]

theorem C1_static_condensation_blocks_witness :
    (TetExp.CreateStaticCondMatrix exampleDeformed exampleMassKey
        = .ok (UseLocRegionsMatrix exampleDeformed 1 exampleMassMat)
      ∧ IsCondensed exampleDeformed exampleMassMat
          (UseLocRegionsMatrix exampleDeformed 1 exampleMassMat)
      ∧ (blockD exampleDeformed exampleMassMat)⁻¹ * blockD exampleDeformed exampleMassMat = 1
      ∧ blockD exampleDeformed exampleMassMat * (blockD exampleDeformed exampleMassMat)⁻¹ = 1)
    ∧ (TriExp.CreateStaticCondMatrix exampleDeformed exampleMassKey
        = .ok (UseLocRegionsMatrix exampleDeformed 1 exampleMassMat)
      ∧ IsCondensed exampleDeformed exampleMassMat
          (UseLocRegionsMatrix exampleDeformed 1 exampleMassMat)
      ∧ (blockD exampleDeformed exampleMassMat)⁻¹ * blockD exampleDeformed exampleMassMat = 1
      ∧ blockD exampleDeformed exampleMassMat * (blockD exampleDeformed exampleMassMat)⁻¹ = 1) :=
  ⟨(C1_static_condensation_blocks exampleDeformed exampleMassKey (by decide)).1
      exampleMassMat exampleDeformed_tet_mass (Or.inr (Or.inr (Or.inl rfl)))
      exampleDeformed_det,
   (C1_static_condensation_blocks exampleDeformed exampleMassKey (by decide)).2
      exampleMassMat exampleDeformed_tri_mass (Or.inr (Or.inl rfl)) exampleDeformed_det⟩

end StaticCond

section C2

variable {K : Type} [Field K]

theorem UseLocRegionsMatrix_blocks_all (X : LocalExp K) (M : DNekScalMat K) :
    IsCondensed X M (UseLocRegionsMatrix X 1 M) := by
  by_cases hn : X.m_ncoeffs - X.NumBndryCoeffs = 0
  · have hE : IsEmpty (Fin (X.m_ncoeffs - X.NumBndryCoeffs)) := by
      rw [hn]; infer_instance
    unfold UseLocRegionsMatrix IsCondensed
    simp only [hn, ne_eq, not_true_eq_false, if_false, one_div, inv_one]
    refine ⟨?_, ?_, ?_, ?_⟩
    · rw [DNekScalMat.toMatrixOf_one_scale]
      ext i j
      simp only [Matrix.sub_apply, Matrix.mul_apply, Finset.univ_eq_empty, Finset.sum_empty,
        sub_zero]
      rfl
    · ext i j
      exact hE.elim j
    · ext i j
      exact hE.elim i
    · ext i j
      exact hE.elim i
  · exact UseLocRegionsMatrix_blocks X M hn

theorem IsCondensed.recovers (X : LocalExp K) (M : DNekScalMat K) (R : DNekScalBlkMat K)
    (hR : IsCondensed X M R) (hD : (blockD X M).det ≠ 0) (hl : ListsEveryIndexOnce X) :
    RecoversLocalMatrix X M R := by
  obtain ⟨h00, h01, h10, h11⟩ := hR
  have hu : IsUnit (blockD X M).det := isUnit_iff_ne_zero.mpr hD
  have hinv : ((blockD X M)⁻¹)⁻¹ = blockD X M := Matrix.nonsing_inv_nonsing_inv _ hu
  have e1 : ∀ (i j : Fin X.NumBndryCoeffs), M.entry (X.bmap i) (X.bmap j)
      = (R.b00.toMatrixOf X.NumBndryCoeffs X.NumBndryCoeffs
        + R.b01.toMatrixOf X.NumBndryCoeffs (X.m_ncoeffs - X.NumBndryCoeffs)
          * R.b10.toMatrixOf (X.m_ncoeffs - X.NumBndryCoeffs) X.NumBndryCoeffs) i j := by
    intro i j
    rw [h00, h01, h10, sub_add_cancel]
    rfl
  have e2 : ∀ (i : Fin X.NumBndryCoeffs) (j : Fin (X.m_ncoeffs - X.NumBndryCoeffs)), M.entry (X.bmap i) (X.imap j)
      = (R.b01.toMatrixOf X.NumBndryCoeffs (X.m_ncoeffs - X.NumBndryCoeffs)
        * (R.b11.toMatrixOf (X.m_ncoeffs - X.NumBndryCoeffs)
            (X.m_ncoeffs - X.NumBndryCoeffs))⁻¹) i j := by
    intro i j
    rw [h01, h11, hinv, Matrix.nonsing_inv_mul_cancel_right _ _ hu]
    rfl
  have e3 : ∀ (i : Fin (X.m_ncoeffs - X.NumBndryCoeffs)) (j : Fin X.NumBndryCoeffs), M.entry (X.imap i) (X.bmap j)
      = R.b10.toMatrixOf (X.m_ncoeffs - X.NumBndryCoeffs) X.NumBndryCoeffs i j := by
    intro i j
    rw [h10]
    rfl
  have e4 : ∀ (i j : Fin (X.m_ncoeffs - X.NumBndryCoeffs)), M.entry (X.imap i) (X.imap j)
      = (R.b11.toMatrixOf (X.m_ncoeffs - X.NumBndryCoeffs)
            (X.m_ncoeffs - X.NumBndryCoeffs))⁻¹ i j := by
    intro i j
    rw [h11, hinv]
    rfl
  refine ⟨e1, e2, e3, e4, ?_⟩
  intro a b ha hb
  obtain ⟨s, hs, -⟩ := hl a ha
  obtain ⟨t, ht, -⟩ := hl b hb
  refine ⟨s, t, hs, ht, ?_⟩
  subst hs ht
  rcases s with i | i <;> rcases t with j | j
  · exact e1 i j
  · exact e2 i j
  · exact e3 i j
  · exact e4 i j

/-- C2: static condensation round trip.  For the four blocks `S`, `E`, `C`, `Dinv`
returned by `TetExp::CreateStaticCondMatrix` / `TriExp::CreateStaticCondMatrix` on the
local-matrix path, when `bmap` and `imap` together list every local coefficient index
exactly once and the interior block is invertible, the local matrix `M` is recovered:
`M(bmap i, bmap j) = (S + E*C) i j`, `M(bmap i, imap j) = (E * inverse Dinv) i j`,
`M(imap i, bmap j) = C i j`, `M(imap i, imap j) = (inverse Dinv) i j`, so that every
entry of `M` is an entry of the reassembled block matrix. -/
theorem C2_static_condensation_round_trip (X : LocalExp K) (mkey : MatrixKey K)
    (hl : ListsEveryIndexOnce X) :
    (∀ M : DNekScalMat K, TetExp.GetLocMatrix X mkey = .ok M →
      (mkey.mtype = .eLaplacian ∨ mkey.mtype = .eHelmholtz
        ∨ X.Gtype = .eDeformed ∨ mkey.GetNVarCoeff ≠ 0) →
      (blockD X M).det ≠ 0 →
      TetExp.CreateStaticCondMatrix X mkey = .ok (UseLocRegionsMatrix X 1 M)
        ∧ RecoversLocalMatrix X M (UseLocRegionsMatrix X 1 M))
    ∧ (∀ M : DNekScalMat K, TriExp.GetLocMatrix X mkey = .ok M →
      (mkey.mtype ≠ .eMass ∨ X.Gtype = .eDeformed ∨ mkey.GetNVarCoeff ≠ 0) →
      (blockD X M).det ≠ 0 →
      TriExp.CreateStaticCondMatrix X mkey = .ok (UseLocRegionsMatrix X 1 M)
        ∧ RecoversLocalMatrix X M (UseLocRegionsMatrix X 1 M)) := by
  constructor
  · intro M hM hpath hD
    exact ⟨tet_CreateStaticCondMatrix_loc X mkey M hM hpath,
      IsCondensed.recovers X M _ (UseLocRegionsMatrix_blocks_all X M) hD hl⟩
  · intro M hM hpath hD
    exact ⟨tri_CreateStaticCondMatrix_loc X mkey M hM hpath,
      IsCondensed.recovers X M _ (UseLocRegionsMatrix_blocks_all X M) hD hl⟩

theorem exampleDeformed_lists : ListsEveryIndexOnce exampleDeformed := by
  intro a ha
  have ha2 : a < 2 := ha
  have key : ∀ s : Fin 1 ⊕ Fin 1,
      listedIndex exampleDeformed s = Sum.elim (fun _ => 0) (fun _ => 1) s := by
    rintro (i | i)
    · show (i : ℕ) = 0
      omega
    · show (i : ℕ) + 1 = 1
      omega
  interval_cases a
  · refine ⟨Sum.inl (0 : Fin 1), rfl, ?_⟩
    intro t ht
    have := key t
    rw [ht] at this
    rcases t with i | i
    · exact congrArg Sum.inl (Subsingleton.elim (α := Fin 1) _ _)
    · simp at this
  · refine ⟨Sum.inr (0 : Fin 1), rfl, ?_⟩
    intro t ht
    have := key t
    rw [ht] at this
    rcases t with i | i
    · simp at this
    · exact congrArg Sum.inr (Subsingleton.elim (α := Fin 1) _ _)

theorem C2_static_condensation_round_trip_witness :
    (TetExp.CreateStaticCondMatrix exampleDeformed exampleMassKey
        = .ok (UseLocRegionsMatrix exampleDeformed 1 exampleMassMat)
      ∧ RecoversLocalMatrix exampleDeformed exampleMassMat
          (UseLocRegionsMatrix exampleDeformed 1 exampleMassMat))
    ∧ (TriExp.CreateStaticCondMatrix exampleDeformed exampleMassKey
        = .ok (UseLocRegionsMatrix exampleDeformed 1 exampleMassMat)
      ∧ RecoversLocalMatrix exampleDeformed exampleMassMat
          (UseLocRegionsMatrix exampleDeformed 1 exampleMassMat)) :=
  ⟨(C2_static_condensation_round_trip exampleDeformed exampleMassKey
      exampleDeformed_lists).1
      exampleMassMat exampleDeformed_tet_mass (Or.inr (Or.inr (Or.inl rfl)))
      exampleDeformed_det,
   (C2_static_condensation_round_trip exampleDeformed exampleMassKey
      exampleDeformed_lists).2
      exampleMassMat exampleDeformed_tri_mass (Or.inr (Or.inl rfl)) exampleDeformed_det⟩

end C2

section KeyLemmas



theorem GetConstFactor_of_lookup {K : Type} (mkey : MatrixKey K) (f : ConstFactorType) (v : K)
    (h : mkey.factors.lookup f = some v) : mkey.GetConstFactor f = .ok v := by
  unfold MatrixKey.GetConstFactor
  rw [h]
  rfl

end KeyLemmas

section Helmholtz

variable {K : Type} [Field K]

theorem tet_CreateMatrix_eMass (X : LocalExp K) (mkey : MatrixKey K)
    (hg : X.Gtype ≠ .eNoGeomType) (hm : mkey.mtype = .eMass) :
    TetExp.CreateMatrix X mkey
      = if X.Gtype = .eDeformed ∨ mkey.GetNVarCoeff ≠ 0 then
          .ok ⟨1, TetExp.GenMatrix X mkey⟩
        else .ok ⟨X.Jac 0, X.GetStdMatrix mkey⟩ := by
  rw [TetExp.CreateMatrix, ASSERTL_geom_ok _ hg]
  simp only [bind, Except.bind]
  split <;> first | rfl | (exfalso; simp_all)

theorem tri_CreateMatrix_eMass (X : LocalExp K) (mkey : MatrixKey K)
    (hg : X.Gtype ≠ .eNoGeomType) (hm : mkey.mtype = .eMass) :
    TriExp.CreateMatrix X mkey
      = if X.Gtype = .eDeformed ∨ mkey.GetNVarCoeff ≠ 0 then
          .ok ⟨1, TriExp.GenMatrix X mkey⟩
        else .ok ⟨X.Jac 0, X.GetStdMatrix mkey⟩ := by
  rw [TriExp.CreateMatrix, ASSERTL_geom_ok _ hg]
  simp only [bind, Except.bind]
  split <;> first | rfl | (exfalso; simp_all)

theorem tet_CreateMatrix_eLaplacian_isOk (X : LocalExp K) (mkey : MatrixKey K)
    (hg : X.Gtype ≠ .eNoGeomType) (hm : mkey.mtype = .eLaplacian) :
    (TetExp.CreateMatrix X mkey).isOk = true := by
  rw [TetExp.CreateMatrix, ASSERTL_geom_ok _ hg]
  simp only [bind, Except.bind]
  split <;> first | (exfalso; simp_all; done) | (split <;> rfl)

theorem tri_CreateMatrix_eLaplacian_isOk (X : LocalExp K) (mkey : MatrixKey K)
    (hg : X.Gtype ≠ .eNoGeomType) (hm : mkey.mtype = .eLaplacian) :
    (TriExp.CreateMatrix X mkey).isOk = true := by
  rw [TriExp.CreateMatrix, ASSERTL_geom_ok _ hg]
  simp only [bind, Except.bind]
  split <;> first | (exfalso; simp_all; done) | (split <;> rfl)

theorem tet_CreateMatrix_eMass_isOk (X : LocalExp K) (mkey : MatrixKey K)
    (hg : X.Gtype ≠ .eNoGeomType) (hm : mkey.mtype = .eMass) :
    (TetExp.CreateMatrix X mkey).isOk = true := by
  rw [tet_CreateMatrix_eMass X mkey hg hm]
  split <;> rfl

theorem tri_CreateMatrix_eMass_isOk (X : LocalExp K) (mkey : MatrixKey K)
    (hg : X.Gtype ≠ .eNoGeomType) (hm : mkey.mtype = .eMass) :
    (TriExp.CreateMatrix X mkey).isOk = true := by
  rw [tri_CreateMatrix_eMass X mkey hg hm]
  split <;> rfl

theorem tet_CreateMatrix_eHelmholtz (X : LocalExp K) (mkey : MatrixKey K)
    (hg : X.Gtype ≠ .eNoGeomType) (hm : mkey.mtype = .eHelmholtz) :
    TetExp.CreateMatrix X mkey
      = (do
          let factor ← mkey.GetConstFactor .eFactorLambda
          let MassMat ← TetExp.CreateMatrix X (MatrixKey.mk3 .eMass mkey.GetShapeType)
          let LapMat ← TetExp.CreateMatrix X
            ⟨.eLaplacian, mkey.GetShapeType, mkey.factors, mkey.varcoeffs⟩
          pure ⟨1, ⟨LapMat.GetRows, LapMat.GetColumns,
            fun i j => LapMat.entry i j + factor * MassMat.entry i j⟩⟩) := by
  rw [TetExp.CreateMatrix, ASSERTL_geom_ok _ hg]
  simp only [bind, Except.bind]
  split <;> first | rfl | (exfalso; simp_all)

theorem tri_CreateMatrix_eHelmholtz (X : LocalExp K) (mkey : MatrixKey K)
    (hg : X.Gtype ≠ .eNoGeomType) (hm : mkey.mtype = .eHelmholtz) :
    TriExp.CreateMatrix X mkey
      = (do
          let factor ← mkey.GetConstFactor .eFactorLambda
          let MassMat ← TriExp.CreateMatrix X (mkey.retype .eMass)
          let LapMat ← TriExp.CreateMatrix X (mkey.retype .eLaplacian)
          pure ⟨1, ⟨LapMat.GetRows, LapMat.GetColumns,
            fun i j => LapMat.entry i j + factor * MassMat.entry i j⟩⟩) := by
  rw [TriExp.CreateMatrix, ASSERTL_geom_ok _ hg]
  simp only [bind, Except.bind]
  split <;> first | rfl | (exfalso; simp_all)

/-- C3: for every Helmholtz matrix key carrying the constant factor lambda,
`TetExp::CreateMatrix` and `TriExp::CreateMatrix` return a matrix with scale 1 whose
`(i,j)` entry equals `Lap(i,j) + lambda * Mass(i,j)`, where `Lap` and `Mass` are the
scaled local matrices that the element's own matrix manager returns (and it does return
them) for the Laplacian key and the mass key. -/
theorem C3_helmholtz_is_laplacian_plus_lambda_mass (X : LocalExp K) (mkey : MatrixKey K)
    (lam : K) (hg : X.Gtype ≠ .eNoGeomType) (hm : mkey.mtype = .eHelmholtz)
    (hlam : mkey.factors.lookup .eFactorLambda = some lam) :
    ((TetExp.GetLocMatrix X
          ⟨.eLaplacian, mkey.GetShapeType, mkey.factors, mkey.varcoeffs⟩).isOk = true
      ∧ (TetExp.GetLocMatrix X (MatrixKey.mk3 .eMass mkey.GetShapeType)).isOk = true
      ∧ ∀ Lap Mass : DNekScalMat K,
        TetExp.GetLocMatrix X
          ⟨.eLaplacian, mkey.GetShapeType, mkey.factors, mkey.varcoeffs⟩ = .ok Lap →
        TetExp.GetLocMatrix X (MatrixKey.mk3 .eMass mkey.GetShapeType) = .ok Mass →
        (TetExp.CreateMatrix X mkey).map (fun R => R.scale) = .ok 1
          ∧ ∀ i j, (TetExp.CreateMatrix X mkey).map (fun R => R.entry i j)
              = .ok (Lap.entry i j + lam * Mass.entry i j))
    ∧ ((TriExp.GetLocMatrix X (mkey.retype .eLaplacian)).isOk = true
      ∧ (TriExp.GetLocMatrix X (mkey.retype .eMass)).isOk = true
      ∧ ∀ Lap Mass : DNekScalMat K,
        TriExp.GetLocMatrix X (mkey.retype .eLaplacian) = .ok Lap →
        TriExp.GetLocMatrix X (mkey.retype .eMass) = .ok Mass →
        (TriExp.CreateMatrix X mkey).map (fun R => R.scale) = .ok 1
          ∧ ∀ i j, (TriExp.CreateMatrix X mkey).map (fun R => R.entry i j)
              = .ok (Lap.entry i j + lam * Mass.entry i j)) := by
  have hf := GetConstFactor_of_lookup mkey _ lam hlam
  refine ⟨⟨tet_CreateMatrix_eLaplacian_isOk X _ hg rfl,
      tet_CreateMatrix_eMass_isOk X _ hg rfl, ?_⟩,
    ⟨tri_CreateMatrix_eLaplacian_isOk X _ hg rfl,
      tri_CreateMatrix_eMass_isOk X _ hg rfl, ?_⟩⟩
  · intro Lap Mass hL hM
    unfold TetExp.GetLocMatrix at hL hM
    rw [tet_CreateMatrix_eHelmholtz X mkey hg hm, hf]
    simp only [bind, Except.bind, hL, hM, pure, Except.pure, Except.map]
    refine ⟨trivial, fun i j => ?_⟩
    simp [DNekScalMat.entry]
  · intro Lap Mass hL hM
    unfold TriExp.GetLocMatrix at hL hM
    rw [tri_CreateMatrix_eHelmholtz X mkey hg hm, hf]
    simp only [bind, Except.bind, hL, hM, pure, Except.pure, Except.map]
    refine ⟨trivial, fun i j => ?_⟩
    simp [DNekScalMat.entry]

end Helmholtz

section HelmholtzWitness



theorem exampleDeformed_tet_lap :
    TetExp.GetLocMatrix exampleDeformed
      ⟨.eLaplacian, exampleHelmKey.GetShapeType, exampleHelmKey.factors,
        exampleHelmKey.varcoeffs⟩ = .ok exampleMassMat := by
  rw [TetExp.GetLocMatrix, TetExp.CreateMatrix]
  rfl

theorem exampleDeformed_tet_mass3 :
    TetExp.GetLocMatrix exampleDeformed (MatrixKey.mk3 .eMass exampleHelmKey.GetShapeType)
      = .ok exampleMassMat := by
  rw [TetExp.GetLocMatrix, TetExp.CreateMatrix]
  rfl

theorem exampleDeformed_tri_lap :
    TriExp.GetLocMatrix exampleDeformed (exampleHelmKey.retype .eLaplacian)
      = .ok exampleMassMat := by
  rw [TriExp.GetLocMatrix, TriExp.CreateMatrix]
  rfl

theorem exampleDeformed_tri_mass3 :
    TriExp.GetLocMatrix exampleDeformed (exampleHelmKey.retype .eMass)
      = .ok exampleMassMat := by
  rw [TriExp.GetLocMatrix, TriExp.CreateMatrix]
  rfl

theorem C3_helmholtz_is_laplacian_plus_lambda_mass_witness :
    ((TetExp.CreateMatrix exampleDeformed exampleHelmKey).map (fun R => R.scale) = .ok 1
      ∧ ∀ i j, (TetExp.CreateMatrix exampleDeformed exampleHelmKey).map
            (fun R => R.entry i j)
          = .ok (exampleMassMat.entry i j + 3 * exampleMassMat.entry i j))
    ∧ ((TriExp.CreateMatrix exampleDeformed exampleHelmKey).map (fun R => R.scale) = .ok 1
      ∧ ∀ i j, (TriExp.CreateMatrix exampleDeformed exampleHelmKey).map
            (fun R => R.entry i j)
          = .ok (exampleMassMat.entry i j + 3 * exampleMassMat.entry i j)) :=
  ⟨(C3_helmholtz_is_laplacian_plus_lambda_mass exampleDeformed exampleHelmKey 3
      (by decide) rfl rfl).1.2.2 exampleMassMat exampleMassMat
      exampleDeformed_tet_lap exampleDeformed_tet_mass3,
   (C3_helmholtz_is_laplacian_plus_lambda_mass exampleDeformed exampleHelmKey 3
      (by decide) rfl rfl).2.2.2 exampleMassMat exampleMassMat
      exampleDeformed_tri_lap exampleDeformed_tri_mass3⟩

end HelmholtzWitness

section RegularMass

variable {K : Type} [Field K]

/-- C4: for a `TetExp` whose geometry is set up and not deformed and a mass-matrix key
with no variable coefficients, `CreateMatrix` returns the reference matrix
`GetStdMatrix(key)` wrapped with scale `Jac[0]`, so every entry equals `Jac[0]` times the
reference mass entry; with `Jac[0] = 1` the local mass matrix equals the reference mass
matrix. -/
theorem C4_regular_mass_is_jacobian_times_reference (X : LocalExp K) (mkey : MatrixKey K)
    (hg0 : X.Gtype ≠ .eNoGeomType) (hg : X.Gtype ≠ .eDeformed)
    (hm : mkey.mtype = .eMass) (hv : mkey.GetNVarCoeff = 0) :
    TetExp.CreateMatrix X mkey = .ok ⟨X.Jac 0, X.GetStdMatrix mkey⟩
      ∧ (∀ i j, (TetExp.GetLocMatrix X mkey).map (fun R => R.entry i j)
          = .ok (X.Jac 0 * (X.GetStdMatrix mkey).e i j))
      ∧ (X.Jac 0 = 1 → ∀ i j, (TetExp.GetLocMatrix X mkey).map (fun R => R.entry i j)
          = .ok ((X.GetStdMatrix mkey).e i j)) := by
  have h : TetExp.CreateMatrix X mkey = .ok ⟨X.Jac 0, X.GetStdMatrix mkey⟩ := by
    rw [tet_CreateMatrix_eMass X mkey hg0 hm, if_neg]
    rintro (h | h)
    · exact hg h
    · exact h hv
  refine ⟨h, fun i j => ?_, fun h1 i j => ?_⟩
  · rw [TetExp.GetLocMatrix, h]
    rfl
  · rw [TetExp.GetLocMatrix, h]
    simp [Except.map, DNekScalMat.entry, h1]

theorem C4_regular_mass_is_jacobian_times_reference_witness :
    TetExp.CreateMatrix (exampleRegular 1) exampleMassKey
        = .ok ⟨(exampleRegular 1).Jac 0, (exampleRegular 1).GetStdMatrix exampleMassKey⟩
      ∧ (∀ i j, (TetExp.GetLocMatrix (exampleRegular 1) exampleMassKey).map
            (fun R => R.entry i j)
          = .ok ((exampleRegular 1).Jac 0
              * ((exampleRegular 1).GetStdMatrix exampleMassKey).e i j))
      ∧ (∀ i j, (TetExp.GetLocMatrix (exampleRegular 1) exampleMassKey).map
            (fun R => R.entry i j)
          = .ok (((exampleRegular 1).GetStdMatrix exampleMassKey).e i j)) :=
  ⟨(C4_regular_mass_is_jacobian_times_reference (exampleRegular 1) exampleMassKey
      (by decide) (by decide) rfl rfl).1,
   (C4_regular_mass_is_jacobian_times_reference (exampleRegular 1) exampleMassKey
      (by decide) (by decide) rfl rfl).2.1,
   (C4_regular_mass_is_jacobian_times_reference (exampleRegular 1) exampleMassKey
      (by decide) (by decide) rfl rfl).2.2 rfl⟩

end RegularMass

section GenPath

variable {K : Type} [Field K]

theorem tet_CreateMatrix_eMass_deformed (X : LocalExp K) (mkey : MatrixKey K)
    (hd : X.Gtype = .eDeformed) (hm : mkey.mtype = .eMass) :
    TetExp.CreateMatrix X mkey = .ok ⟨1, TetExp.GenMatrix X mkey⟩ := by
  have hg : X.Gtype ≠ .eNoGeomType := by rw [hd]; decide
  rw [tet_CreateMatrix_eMass X mkey hg hm, if_pos (Or.inl hd)]

theorem tet_CreateMatrix_eLaplacian_deformed (X : LocalExp K) (mkey : MatrixKey K)
    (hd : X.Gtype = .eDeformed) (hm : mkey.mtype = .eLaplacian) :
    TetExp.CreateMatrix X mkey = .ok ⟨1, TetExp.GenMatrix X mkey⟩ := by
  have hg : X.Gtype ≠ .eNoGeomType := by rw [hd]; decide
  rw [TetExp.CreateMatrix, ASSERTL_geom_ok _ hg]
  simp only [bind, Except.bind, pure, Except.pure, hd, true_or, if_true]
  split <;> first | rfl | (exfalso; simp_all)

theorem tet_CreateMatrix_eHelmholtz_deformed (X : LocalExp K) (mkey : MatrixKey K)
    (hd : X.Gtype = .eDeformed) (hm : mkey.mtype = .eHelmholtz) :
    TetExp.CreateMatrix X mkey = TetExp.HelmholtzFromGenMatrix X mkey := by
  have hg : X.Gtype ≠ .eNoGeomType := by rw [hd]; decide
  rw [tet_CreateMatrix_eHelmholtz X mkey hg hm,
    tet_CreateMatrix_eMass_deformed X _ hd rfl,
    tet_CreateMatrix_eLaplacian_deformed X _ hd rfl]
  rfl

theorem tet_CreateStaticCondMatrix_eHelmholtz (X : LocalExp K) (mkey : MatrixKey K)
    (hg : X.Gtype ≠ .eNoGeomType) (hm : mkey.mtype = .eHelmholtz) :
    TetExp.CreateStaticCondMatrix X mkey
      = (do let mat ← TetExp.CreateMatrix X mkey
            pure (UseLocRegionsMatrix X 1 mat)) := by
  rw [TetExp.CreateStaticCondMatrix, ASSERTL_geom_ok _ hg]
  simp only [bind, Except.bind, pure, Except.pure, MatrixKey.GetMatrixType, hm]

theorem tet_CreateMatrix_eq_GenMatrixPath_of_deformed (X : LocalExp K) (mkey : MatrixKey K)
    (hd : X.Gtype = .eDeformed) :
    TetExp.CreateMatrix X mkey = TetExp.GenMatrixPath X mkey := by
  have hg : X.Gtype ≠ .eNoGeomType := by rw [hd]; decide
  by_cases hH : mkey.mtype = .eHelmholtz
  · rw [tet_CreateMatrix_eHelmholtz_deformed X mkey hd hH]
    simp only [TetExp.GenMatrixPath, hH]
  have hsc := tet_CreateStaticCondMatrix_eHelmholtz X
    ⟨.eHelmholtz, mkey.GetShapeType, mkey.factors, mkey.varcoeffs⟩ hg rfl
  rw [tet_CreateMatrix_eHelmholtz_deformed X _ hd rfl] at hsc
  rw [TetExp.CreateMatrix, ASSERTL_geom_ok _ hg]
  simp only [bind, Except.bind, pure, Except.pure, hd, true_or, if_true]
  split
  all_goals first
    | (rename_i h; exact absurd h hH)
    | (rename_i h; simp only [TetExp.GenMatrixPath, h, pure, Except.pure]; done)
    | (rename_i h; simp only [TetExp.GenMatrixPath, h, hsc, bind, Except.bind, pure,
        Except.pure]; done)
    | skip
  all_goals
    rename_i h
    rw [hsc]
    simp only [TetExp.GenMatrixPath, h]
    cases TetExp.HelmholtzFromGenMatrix X
      ⟨.eHelmholtz, mkey.GetShapeType, mkey.factors, mkey.varcoeffs⟩ <;> rfl

theorem tet_CreateMatrix_eq_GenMatrixPath_of_varcoeff (X : LocalExp K) (mkey : MatrixKey K)
    (hg : X.Gtype ≠ .eNoGeomType) (hv : mkey.GetNVarCoeff ≠ 0)
    (hk : mkey.mtype ∉ [MatrixType.eInvMass, .eIProductWRTBase, .eHelmholtz,
      .ePreconLinearSpace, .ePreconR, .ePreconRT]) :
    TetExp.CreateMatrix X mkey = TetExp.GenMatrixPath X mkey := by
  have hv2 : mkey.GetNVarCoeff > 0 := Nat.pos_of_ne_zero hv
  simp only [List.mem_cons, List.mem_singleton, List.not_mem_nil, or_false, not_or] at hk
  obtain ⟨k1, k2, k3, k4, k5, k6⟩ := hk
  rw [TetExp.CreateMatrix, ASSERTL_geom_ok _ hg]
  simp only [bind, Except.bind, pure, Except.pure, hv, hv2, ne_eq, not_false_eq_true,
    or_true, true_or, if_true]
  split
  all_goals first
    | (rename_i h; exact absurd h (by assumption))
    | (rename_i h; simp only [TetExp.GenMatrixPath, h, pure, Except.pure])

theorem tet_HelmholtzFromGenMatrix_scale (X : LocalExp K) (mkey : MatrixKey K)
    (R : DNekScalMat K) (h : TetExp.HelmholtzFromGenMatrix X mkey = .ok R) :
    R.scale = 1 := by
  unfold TetExp.HelmholtzFromGenMatrix at h
  cases hf : mkey.GetConstFactor .eFactorLambda with
  | error e => rw [hf] at h; exact absurd h (by simp [bind, Except.bind])
  | ok v =>
    rw [hf] at h
    simp only [bind, Except.bind, pure, Except.pure] at h
    injection h with h
    rw [← h]

theorem tet_GenMatrixPath_scale (X : LocalExp K) (mkey : MatrixKey K)
    (R : DNekScalMat K) (h : TetExp.GenMatrixPath X mkey = .ok R) : R.scale = 1 := by
  unfold TetExp.GenMatrixPath at h
  split at h
  all_goals first
    | (simp only [pure, Except.pure] at h; injection h with h; rw [← h])
    | exact tet_HelmholtzFromGenMatrix_scale X mkey R h
    | skip
  all_goals
    cases hh : TetExp.HelmholtzFromGenMatrix X
      ⟨.eHelmholtz, mkey.GetShapeType, mkey.factors, mkey.varcoeffs⟩ with
    | error e => rw [hh] at h; exact absurd h (by simp [bind, Except.bind])
    | ok v =>
      rw [hh] at h
      simp only [bind, Except.bind, pure, Except.pure] at h
      injection h with h
      rw [← h]

theorem tet_HelmholtzFromGenMatrix_isOk (X : LocalExp K) (mkey : MatrixKey K)
    (hl : (mkey.factors.lookup .eFactorLambda).isSome = true) :
    (TetExp.HelmholtzFromGenMatrix X mkey).isOk = true := by
  obtain ⟨v, hv⟩ := Option.isSome_iff_exists.mp hl
  unfold TetExp.HelmholtzFromGenMatrix
  rw [GetConstFactor_of_lookup mkey _ v hv]
  rfl

theorem tet_GenMatrixPath_isOk (X : LocalExp K) (mkey : MatrixKey K)
    (hl : mkey.mtype.rank = 0 ∨ (mkey.factors.lookup .eFactorLambda).isSome = true) :
    (TetExp.GenMatrixPath X mkey).isOk = true := by
  unfold TetExp.GenMatrixPath
  split
  all_goals first
    | rfl
    | (rename_i h
       rcases hl with hl | hl
       · rw [h] at hl; exact absurd hl (by decide)
       · first
         | exact tet_HelmholtzFromGenMatrix_isOk X mkey hl
         | (obtain ⟨v, hv⟩ := Option.isSome_iff_exists.mp hl
            have hv2 : MatrixKey.GetConstFactor (K := K)
                ⟨.eHelmholtz, mkey.GetShapeType, mkey.factors, mkey.varcoeffs⟩
                .eFactorLambda = .ok v := GetConstFactor_of_lookup _ _ v hv
            simp only [TetExp.HelmholtzFromGenMatrix, hv2, bind, Except.bind, pure,
              Except.pure]
            rfl))

/-- C5 (amended): for every matrix kind handled by `TetExp::CreateMatrix`, if the
geometry is deformed, or the geometry is set up, the key carries at least one variable
coefficient and the kind is none of `eInvMass`, `eIProductWRTBase`, `eHelmholtz`,
`ePreconLinearSpace`, `ePreconR`, `ePreconRT`, then the matrix is built from `GenMatrix`
on the physical element with scale factor 1: `CreateMatrix` agrees with the
`GenMatrix` path, every returned matrix has scale 1, the result does not change when
`GetStdMatrix`, `GetStdStaticCondMatrix` and the Jacobian are replaced, and a matrix is
returned whenever the kind needs no Helmholtz matrix or the key carries lambda. -/
theorem C5_genmatrix_path_amended (X : LocalExp K) (mkey : MatrixKey K)
    (h : X.Gtype = .eDeformed
      ∨ (X.Gtype ≠ .eNoGeomType ∧ mkey.GetNVarCoeff ≠ 0
        ∧ mkey.mtype ∉ [MatrixType.eInvMass, .eIProductWRTBase, .eHelmholtz,
          .ePreconLinearSpace, .ePreconR, .ePreconRT])) :
    TetExp.CreateMatrix X mkey = TetExp.GenMatrixPath X mkey
      ∧ (∀ R, TetExp.CreateMatrix X mkey = .ok R → R.scale = 1)
      ∧ (∀ (g : MatrixKey K → DNekMat K) (s : MatrixKey K → DNekBlkMat K) (J : ℕ → K),
          TetExp.CreateMatrix
              { X with GetStdMatrix := g, GetStdStaticCondMatrix := s, Jac := J } mkey
            = TetExp.CreateMatrix X mkey)
      ∧ (mkey.mtype.rank = 0 ∨ (mkey.factors.lookup .eFactorLambda).isSome = true →
          (TetExp.CreateMatrix X mkey).isOk = true) := by
  have key : ∀ Y : LocalExp K, Y.Gtype = X.Gtype →
      TetExp.CreateMatrix Y mkey = TetExp.GenMatrixPath Y mkey := by
    intro Y hY
    rcases h with hd | ⟨hg, hv, hk⟩
    · exact tet_CreateMatrix_eq_GenMatrixPath_of_deformed Y mkey (hY.trans hd)
    · exact tet_CreateMatrix_eq_GenMatrixPath_of_varcoeff Y mkey (hY ▸ hg) hv hk
  refine ⟨key X rfl, ?_, ?_, ?_⟩
  · intro R hR
    rw [key X rfl] at hR
    exact tet_GenMatrixPath_scale X mkey R hR
  · intro g s J
    rw [key X rfl,
      key { X with GetStdMatrix := g, GetStdStaticCondMatrix := s, Jac := J } rfl]
    rfl
  · intro hl
    rw [key X rfl]
    exact tet_GenMatrixPath_isOk X mkey hl

end GenPath

section GenPathExamples



theorem exampleRegular_invmass :
    TetExp.CreateMatrix (exampleRegular 2) exampleVarInvMassKey
      = .ok ⟨1 / 2, (exampleRegular 2).GetStdMatrix exampleVarInvMassKey⟩ := by
  rw [TetExp.CreateMatrix]
  rfl

/-- C5 (counterexample): on a regular element with `Jac[0] = 2`, for an `eInvMass` key
that carries one variable coefficient, `TetExp::CreateMatrix` returns the reference
matrix `GetStdMatrix(key)` wrapped with the reciprocal `1/2` of the Jacobian: the scale
factor is not 1 and the shortcut is taken although the key carries a variable
coefficient. -/
theorem C5_genmatrix_path_counterexample :
    ((exampleRegular 2).Gtype = .eDeformed ∨ exampleVarInvMassKey.GetNVarCoeff ≠ 0)
      ∧ TetExp.CreateMatrix (exampleRegular 2) exampleVarInvMassKey
          = .ok ⟨1 / (exampleRegular 2).Jac 0,
              (exampleRegular 2).GetStdMatrix exampleVarInvMassKey⟩
      ∧ ¬ (∀ R, TetExp.CreateMatrix (exampleRegular 2) exampleVarInvMassKey = .ok R →
            R.scale = 1)
      ∧ TetExp.CreateMatrix (exampleRegular 2) exampleVarInvMassKey
          ≠ TetExp.GenMatrixPath (exampleRegular 2) exampleVarInvMassKey := by
  refine ⟨Or.inr (by decide), exampleRegular_invmass, ?_, ?_⟩
  · intro h
    have := h _ exampleRegular_invmass
    norm_num at this
  · rw [exampleRegular_invmass]
    intro h
    have h2 := tet_GenMatrixPath_scale _ _ _ h.symm
    norm_num at h2

theorem C5_genmatrix_path_amended_witness :
    TetExp.CreateMatrix (exampleRegular 2) exampleVarMassKey
        = TetExp.GenMatrixPath (exampleRegular 2) exampleVarMassKey
      ∧ (∀ R, TetExp.CreateMatrix (exampleRegular 2) exampleVarMassKey = .ok R →
          R.scale = 1)
      ∧ (∀ (g : MatrixKey ℚ → DNekMat ℚ) (s : MatrixKey ℚ → DNekBlkMat ℚ) (J : ℕ → ℚ),
          TetExp.CreateMatrix
              { exampleRegular 2 with
                GetStdMatrix := g, GetStdStaticCondMatrix := s, Jac := J }
              exampleVarMassKey
            = TetExp.CreateMatrix (exampleRegular 2) exampleVarMassKey)
      ∧ (exampleVarMassKey.mtype.rank = 0
          ∨ (exampleVarMassKey.factors.lookup .eFactorLambda).isSome = true →
          (TetExp.CreateMatrix (exampleRegular 2) exampleVarMassKey).isOk = true) :=
  C5_genmatrix_path_amended (exampleRegular 2) exampleVarMassKey
    (Or.inr ⟨by decide, by decide, by decide⟩)

end GenPathExamples

section IProdDeriv

variable {K : Type} [Field K]

theorem tri_CreateMatrix_iprodDeriv_regular (X : LocalExp K) (mkey : MatrixKey K)
    (hg0 : X.Gtype ≠ .eNoGeomType) (hg : X.Gtype ≠ .eDeformed)
    (hm : mkey.mtype = .eIProductWRTDerivBase0 ∨ mkey.mtype = .eIProductWRTDerivBase1
      ∨ mkey.mtype = .eIProductWRTDerivBase2) :
    TriExp.CreateMatrix X mkey = .ok ⟨X.Jac 0,
      X.DerivFactors (2 * iprodDerivDir mkey.mtype) 0
          • X.GetStdMatrix (MatrixKey.mk3 .eIProductWRTDerivBase0 mkey.GetShapeType)
        + X.DerivFactors (2 * iprodDerivDir mkey.mtype + 1) 0
          • X.GetStdMatrix (MatrixKey.mk3 .eIProductWRTDerivBase0 mkey.GetShapeType)⟩ := by
  rw [TriExp.CreateMatrix, ASSERTL_geom_ok _ hg0]
  simp only [bind, Except.bind, pure, Except.pure, hg, if_false, MatrixKey.GetMatrixType]
  rcases hm with hm | hm | hm
  all_goals
    split
    all_goals first
      | (rename_i h; rw [hm] at h; exact absurd h (by decide))
      | (exfalso; exact (by assumption : mkey.mtype = _ → False) hm)
      | (simp only [hm, iprodDerivDir])

/-- C6 (the code at the failing input): on the regular triangle `exampleTri`, where the
reference matrix of `eIProductWRTDerivBase0` is `[1]` and that of
`eIProductWRTDerivBase1` is `[2]`, with `Jac[0] = 1`, `df[0][0] = 0`, `df[1][0] = 1`,
`TriExp::CreateMatrix` for the key `eIProductWRTDerivBase0` returns the entry
`1 * (0 * 1 + 1 * 1) = 1`, built from the reference matrix of `eIProductWRTDerivBase0`
twice, whereas the chain-rule combination `Jac[0] * (df[0][0]*S0 + df[1][0]*S1)` has the
entry `1 * (0 * 1 + 1 * 2) = 2`. -/
theorem C6_iprod_deriv_uses_S0_twice :
    (TriExp.CreateMatrix exampleTri exampleIProdDeriv0Key).map (fun R => R.entry 0 0)
        = .ok 1
      ∧ exampleTri.Jac 0
          * (exampleTri.DerivFactors 0 0
              * (exampleTri.GetStdMatrix
                  (MatrixKey.mk3 .eIProductWRTDerivBase0 .eTriangle)).e 0 0
            + exampleTri.DerivFactors 1 0
              * (exampleTri.GetStdMatrix
                  (MatrixKey.mk3 .eIProductWRTDerivBase1 .eTriangle)).e 0 0) = 2 := by
  constructor
  · rw [tri_CreateMatrix_iprodDeriv_regular exampleTri exampleIProdDeriv0Key (by decide)
      (by decide) (Or.inl rfl)]
    show Except.ok _ = Except.ok _
    congr 1
    show (1 : ℚ) * ((if (0 : ℕ) = 0 then (0 : ℚ) else 1) * 1
      + (if (1 : ℕ) = 0 then (0 : ℚ) else 1) * 1) = 1
    norm_num
  · show (1 : ℚ) * ((if (0 : ℕ) = 0 then (0 : ℚ) else 1) * 1
      + (if (1 : ℕ) = 0 then (0 : ℚ) else 1) * 2) = 2
    norm_num

end IProdDeriv

section FwdTrans

variable {K : Type} [Field K]

theorem tet_FwdTrans_collocated (X : LocalExp K) (m_coeffs inarray outarray : ℕ → K)
    (hc : X.Collocation 0 = true ∧ X.Collocation 1 = true ∧ X.Collocation 2 = true) :
    TetExp.FwdTrans X m_coeffs inarray outarray
      = .ok ⟨Vmath.Vcopy X.m_ncoeffs inarray m_coeffs, outarray⟩ := by
  unfold TetExp.FwdTrans
  simp [hc.1, hc.2.1, hc.2.2]
  rfl

/-- C7 (the code at the failing input): on an element with two coefficients whose
three bases are collocated, `TetExp::v_FwdTrans` called with `inarray = (1, 1, ..)`,
`outarray = (0, 0, ..)` and member array `m_coeffs = (5, 5, ..)` leaves `outarray`
unchanged (`outarray[0] = 0`, not `inarray[0] = 1`) and stores the copy in the member
array `m_coeffs` instead. -/
theorem C7_collocated_fwdtrans_writes_m_coeffs :
    (exampleCollocated.Collocation 0 = true ∧ exampleCollocated.Collocation 1 = true
        ∧ exampleCollocated.Collocation 2 = true)
      ∧ (TetExp.FwdTrans exampleCollocated (fun _ => 5) (fun _ => 1) (fun _ => 0)).map
          (fun r => (r.outarray 0, r.outarray 1)) = .ok (0, 0)
      ∧ (TetExp.FwdTrans exampleCollocated (fun _ => 5) (fun _ => 1) (fun _ => 0)).map
          (fun r => (r.m_coeffs 0, r.m_coeffs 1)) = .ok (1, 1) := by
  refine ⟨⟨rfl, rfl, rfl⟩, ?_, ?_⟩
  · rw [tet_FwdTrans_collocated _ _ _ _ ⟨rfl, rfl, rfl⟩]
    rfl
  · rw [tet_FwdTrans_collocated _ _ _ _ ⟨rfl, rfl, rfl⟩]
    rfl

end FwdTrans

section Loops



theorem forLoop_empty {σ : Type} (lo hi : ℕ) (body : ℕ → σ → σ) (s : σ) (h : hi ≤ lo) :
    forLoop lo hi body s = s := by
  unfold forLoop
  rw [Nat.sub_eq_zero_of_le h]
  rfl

theorem forLoop_succ {σ : Type} (lo hi : ℕ) (body : ℕ → σ → σ) (s : σ) (h : lo ≤ hi) :
    forLoop lo (hi + 1) body s = body hi (forLoop lo hi body s) := by
  unfold forLoop
  have : hi + 1 - lo = (hi - lo) + 1 := by omega
  rw [this, List.range'_1_concat, List.foldl_append]
  simp only [List.foldl_cons, List.foldl_nil]
  congr 1
  omega

theorem forLoop_invariant {σ : Type} (P : σ → Prop) (lo hi : ℕ) (body : ℕ → σ → σ)
    (s : σ) (h0 : P s) (hstep : ∀ i t, lo ≤ i → i < hi → P t → P (body i t)) :
    P (forLoop lo hi body s) := by
  by_cases hle : lo ≤ hi
  · induction hi, hle using Nat.le_induction with
    | base => rw [forLoop_empty _ _ _ _ (le_refl _)]; exact h0
    | succ n hn ih =>
      rw [forLoop_succ _ _ _ _ hn]
      exact hstep n _ hn (Nat.lt_succ_self n)
        (ih (fun i t h1 h2 hp => hstep i t h1 (Nat.lt_succ_of_lt h2) hp))
  · rw [forLoop_empty _ _ _ _ (by omega)]
    exact h0

theorem forLoop_count {σ : Type} (f : σ → ℕ) (g : ℕ → ℕ) (n : ℕ) (body : ℕ → σ → σ)
    (s : σ) (hstep : ∀ i t, i < n → f (body i t) = f t + g i) :
    f (forLoop 0 n body s) = f s + ∑ i in Finset.range n, g i := by
  induction n with
  | zero => rw [forLoop_empty _ _ _ _ (le_refl _)]; simp
  | succ n ih =>
    rw [forLoop_succ _ _ _ _ (Nat.zero_le n), hstep n _ (Nat.lt_succ_self n),
      ih (fun i t h => hstep i t (Nat.lt_succ_of_lt h)), Finset.sum_range_succ, add_assoc]

theorem set2_other {α : Type} (a : ℕ → ℕ → α) (d n : ℕ) (v : α) (d1 n1 : ℕ)
    (h : d1 ≠ d) : set2 a d n v d1 n1 = a d1 n1 := by
  unfold set2
  rw [if_neg]
  exact fun h1 => h h1.1

theorem swapEntries_other {K : Type} (m : ℕ → ℕ → K) (j d n : ℕ) (h : d < j) :
    swapEntries m j d n = m d n := by
  unfold swapEntries
  rw [set2_other _ _ _ _ _ _ (by omega), set2_other _ _ _ _ _ _ (by omega),
    set2_other _ _ _ _ _ _ (by omega), set2_other _ _ _ _ _ _ (by omega)]

theorem bubbleSort_other {K : Type} (test : K → K → Bool) (c istart iend : ℕ) (m : ℕ → ℕ → K)
    (d n : ℕ) (h : d < istart) : bubbleSort test c istart iend m d n = m d n := by
  unfold bubbleSort
  refine forLoop_invariant (fun t : ℕ → ℕ → K => t d n = m d n) _ _ _ _ rfl ?_
  intro i t _ _ ht
  refine forLoop_invariant (fun u : ℕ → ℕ → K => u d n = m d n) _ _ _ _ ht ?_
  intro j u hj _ hu
  show (if test (u (j + 1) c) (u j c) then swapEntries u j else u) d n = m d n
  split_ifs
  · rw [swapEntries_other u j d n (by omega), hu]
  · exact hu

end Loops

section FeketeReorder

variable {K : Type} [LinearOrderedField K]

/-- The routine `NodalPointReorder2d` never touches `m_points[d][n]` for `d < 3`: the
coordinate arrays `m_points[0]`, `m_points[1]`, `m_points[2]` that `CalculatePoints`
fills keep their contents, whatever the key. -/
theorem NodalPointReorder2d_coordinates_unchanged (key : PointsKey) (m : ℕ → ℕ → K)
    (d n : ℕ) (h : d < 3) : NodalPointReorder2d key m d n = m d n := by
  unfold NodalPointReorder2d
  simp only []
  split_ifs
  · rfl
  · rw [bubbleSort_other _ _ _ _ _ _ _ (by omega), bubbleSort_other _ _ _ _ _ _ _ (by omega),
      bubbleSort_other _ _ _ _ _ _ _ (by omega)]

end FeketeReorder


section FeketeExample



/-- C9 (the code at the failing input): with `NumPoints = 3`, hence two points per
edge, and first-edge points stored at indices 3 and 4 with first coordinates `1/2` and
`-1/2`, `NodalPointReorder2d` leaves both where they are: after the call the first
coordinates at indices 3, 4 are `1/2`, `-1/2`, which is not non-decreasing.  The
routine compares and exchanges `m_points[j][0]`, `m_points[j][1]` for `j >= 3`, while
point `n` is stored at `m_points[0][n]`, `m_points[1][n]`. -/
theorem C9_reorder_leaves_edge_points_unsorted :
    NodalPointReorder2d ⟨3, 9⟩ exampleStorage 0 3 = 1 / 2
      ∧ NodalPointReorder2d ⟨3, 9⟩ exampleStorage 0 4 = -1 / 2
      ∧ ¬ (NodalPointReorder2d ⟨3, 9⟩ exampleStorage 0 3
            ≤ NodalPointReorder2d ⟨3, 9⟩ exampleStorage 0 4) := by
  rw [NodalPointReorder2d_coordinates_unchanged _ _ 0 3 (by decide),
    NodalPointReorder2d_coordinates_unchanged _ _ 0 4 (by decide)]
  refine ⟨?_, ?_, ?_⟩ <;> norm_num [exampleStorage]

end FeketeExample

section LoopLemmas



theorem forLoop_congr {σ : Type} (lo hi : ℕ) (body body1 : ℕ → σ → σ) (s : σ)
    (h : ∀ i t, lo ≤ i → i < hi → body i t = body1 i t) :
    forLoop lo hi body s = forLoop lo hi body1 s := by
  by_cases hle : lo ≤ hi
  · induction hi, hle using Nat.le_induction with
    | base => rw [forLoop_empty _ _ _ _ (le_refl _), forLoop_empty _ _ _ _ (le_refl _)]
    | succ n hn ih =>
      rw [forLoop_succ _ _ _ _ hn, forLoop_succ _ _ _ _ hn,
        ih (fun i t h1 h2 => h i t h1 (Nat.lt_succ_of_lt h2)),
        h n _ hn (Nat.lt_succ_self n)]
  · rw [forLoop_empty _ _ _ _ (by omega), forLoop_empty _ _ _ _ (by omega)]

theorem forLoop_eq_foldl_range {σ : Type} (n : ℕ) (body : ℕ → σ → σ) (s : σ) :
    forLoop 0 n body s = (List.range n).foldl (fun s i => body i s) s := by
  unfold forLoop
  rw [List.range_eq_range', Nat.sub_zero]

theorem foldl_eq_forLoop {σ ι : Type} (L : List ι) (d : ι) (B : ι → σ → σ) (s : σ) :
    L.foldl (fun s t => B t s) s = forLoop 0 L.length (fun m s => B (L.getD m d) s) s := by
  induction L using List.reverseRecOn with
  | nil => exact (forLoop_empty 0 0 _ s (le_refl _)).symm
  | append_singleton L t ih =>
    rw [List.foldl_append, List.length_append, List.length_singleton,
      forLoop_succ _ _ _ _ (Nat.zero_le _)]
    simp only [List.foldl_cons, List.foldl_nil]
    rw [ih]
    congr 1
    · simp [List.getD_append_right]
    · apply forLoop_congr
      intro i t _ hi
      rw [List.getD_append _ _ _ _ hi]

theorem forLoop_add {α : Type} [AddCommMonoid α] (n : ℕ) (body : ℕ → (ℕ → α) → (ℕ → α))
    (g : ℕ → ℕ → α) (A : ℕ → α)
    (h : ∀ i B, i < n → body i B = fun c => B c + g i c) :
    forLoop 0 n body A = fun c => A c + ∑ i in Finset.range n, g i c := by
  induction n with
  | zero => rw [forLoop_empty _ _ _ _ (le_refl _)]; simp
  | succ n ih =>
    rw [forLoop_succ _ _ _ _ (Nat.zero_le n), h n _ (Nat.lt_succ_self n),
      ih (fun i B hi => h i B (Nat.lt_succ_of_lt hi))]
    funext c
    rw [Finset.sum_range_succ, add_assoc]

theorem forLoop_sum {α : Type} [AddCommMonoid α] (n : ℕ) (g : ℕ → α) (a : α) :
    forLoop 0 n (fun i c => c + g i) a = a + ∑ i in Finset.range n, g i := by
  induction n with
  | zero => rw [forLoop_empty _ _ _ _ (le_refl _)]; simp
  | succ n ih =>
    rw [forLoop_succ _ _ _ _ (Nat.zero_le n), ih, Finset.sum_range_succ, add_assoc]

theorem set1_add {α : Type} [AddCommMonoid α] (A : ℕ → α) (c0 : ℕ) (v : α) :
    set1 A c0 (A c0 + v) = fun c => A c + (if c = c0 then v else 0) := by
  funext c
  unfold set1
  split_ifs with h
  · rw [h]
  · rw [add_zero]

theorem forLoop_write_pos {α : Type} (n : ℕ) (v : ℕ → α) (A : ℕ → α) :
    forLoop 0 n (fun m B => set1 B m (v m)) A = fun c => if c < n then v c else A c := by
  induction n with
  | zero => rw [forLoop_empty _ _ _ _ (le_refl _)]; simp
  | succ n ih =>
    rw [forLoop_succ _ _ _ _ (Nat.zero_le n), ih]
    funext c
    unfold set1
    by_cases h1 : c = n
    · simp [h1]
    · by_cases h2 : c < n
      · simp [h1, h2, Nat.lt_succ_of_lt h2]
      · have : ¬ c < n + 1 := by omega
        simp [h1, h2, this]

end LoopLemmas

section PyrModes



theorem foldl_flatMap_eq {α β σ : Type} (l : List α) (f : α → List β) (g : σ → β → σ)
    (s : σ) : (l.flatMap f).foldl g s = l.foldl (fun s a => (f a).foldl g s) s := by
  induction l generalizing s with
  | nil => rfl
  | cons a l ih => rw [List.flatMap_cons, List.foldl_append, List.foldl_cons, ih]

theorem tripleLoop_eq_foldl {σ : Type} (nm0 nm1 nm2 : ℕ) (body : ℕ → ℕ → ℕ → σ → σ)
    (s : σ) :
    forLoop 0 nm0 (fun p s =>
        forLoop 0 nm1 (fun q s => forLoop 0 (nm2 - p - q) (fun r s => body p q r s) s) s) s
      = (pyrModes nm0 nm1 nm2).foldl (fun s t => body t.1 t.2.1 t.2.2 s) s := by
  unfold pyrModes
  rw [foldl_flatMap_eq, forLoop_eq_foldl_range]
  congr 1
  funext s p
  rw [foldl_flatMap_eq, forLoop_eq_foldl_range]
  congr 1
  funext s q
  rw [List.foldl_map, forLoop_eq_foldl_range]

theorem tripleLoop_eq_forLoop {σ : Type} (nm0 nm1 nm2 : ℕ) (body : ℕ → ℕ → ℕ → σ → σ)
    (s : σ) :
    forLoop 0 nm0 (fun p s =>
        forLoop 0 nm1 (fun q s => forLoop 0 (nm2 - p - q) (fun r s => body p q r s) s) s) s
      = forLoop 0 (pyrModes nm0 nm1 nm2).length (fun m s =>
          body ((pyrModes nm0 nm1 nm2).getD m (0, 0, 0)).1
            ((pyrModes nm0 nm1 nm2).getD m (0, 0, 0)).2.1
            ((pyrModes nm0 nm1 nm2).getD m (0, 0, 0)).2.2 s) s := by
  rw [tripleLoop_eq_foldl,
    foldl_eq_forLoop _ (0, 0, 0) (fun t s => body t.1 t.2.1 t.2.2 s)]

theorem mem_pyrModes (nm0 nm1 nm2 : ℕ) (t : ℕ × ℕ × ℕ) :
    t ∈ pyrModes nm0 nm1 nm2 ↔ t.1 < nm0 ∧ t.2.1 < nm1 ∧ t.2.2 < nm2 - t.1 - t.2.1 := by
  obtain ⟨p, q, r⟩ := t
  unfold pyrModes
  simp only [List.mem_flatMap, List.mem_map, List.mem_range, Prod.mk.injEq]
  constructor
  · rintro ⟨p1, hp, q1, hq, r1, hr, rfl, rfl, rfl⟩
    exact ⟨hp, hq, hr⟩
  · rintro ⟨hp, hq, hr⟩
    exact ⟨p, hp, q, hq, r, hr, rfl, rfl, rfl⟩

theorem nodup_pyrModes (nm0 nm1 nm2 : ℕ) : (pyrModes nm0 nm1 nm2).Nodup := by
  unfold pyrModes
  rw [List.nodup_flatMap]
  refine ⟨fun p _ => ?_, ?_⟩
  · rw [List.nodup_flatMap]
    refine ⟨fun q _ => ?_, ?_⟩
    · exact (List.nodup_range _).map (fun a b h => by injection h with _ h; injection h)
    · refine List.Pairwise.imp (R := fun a b => a ≠ b) ?_ (List.nodup_range nm1)
      · intro a b hab
        simp only [Function.onFun, List.disjoint_left, List.mem_map, List.mem_range]
        rintro t ⟨r1, _, rfl⟩ ⟨r2, _, h⟩
        injection h with _ h
        injection h with h _
        exact hab h.symm
  · refine List.Pairwise.imp (R := fun a b => a ≠ b) ?_ (List.nodup_range nm0)
    · intro a b hab
      simp only [Function.onFun, List.disjoint_left, List.mem_flatMap, List.mem_map,
        List.mem_range]
      rintro t ⟨q1, _, r1, _, rfl⟩ ⟨q2, _, r2, _, h⟩
      injection h with h _
      exact hab h.symm

end PyrModes

section PyrIndex



theorem idx2_inj (n1 q p q1 p1 : ℕ) (hq : q < n1) (hq1 : q1 < n1)
    (h : q + n1 * p = q1 + n1 * p1) : p = p1 ∧ q = q1 := by
  have h1 : (q + n1 * p) % n1 = (q1 + n1 * p1) % n1 := by rw [h]
  rw [Nat.add_mul_mod_self_left, Nat.add_mul_mod_self_left, Nat.mod_eq_of_lt hq,
    Nat.mod_eq_of_lt hq1] at h1
  subst h1
  have h2 : n1 * p = n1 * p1 := by omega
  exact ⟨Nat.eq_of_mul_eq_mul_left (by omega) h2, rfl⟩

theorem idx3_inj (n1 n2 p q r p1 q1 r1 : ℕ) (hq : q < n1) (hq1 : q1 < n1) (hr : r < n2)
    (hr1 : r1 < n2) (h : r + n2 * (q + n1 * p) = r1 + n2 * (q1 + n1 * p1)) :
    p = p1 ∧ q = q1 ∧ r = r1 := by
  obtain ⟨h1, h2⟩ := idx2_inj n2 r (q + n1 * p) r1 (q1 + n1 * p1) hr hr1 h
  obtain ⟨h3, h4⟩ := idx2_inj n1 q p q1 p1 hq hq1 h1
  exact ⟨h3, h4, h2⟩

theorem set1_same {α : Type} (a : ℕ → α) (n : ℕ) (v : α) : set1 a n v n = v := by
  unfold set1
  rw [if_pos rfl]

theorem set1_ne {α : Type} (a : ℕ → α) (n : ℕ) (v : α) (c : ℕ) (h : c ≠ n) :
    set1 a n v c = a c := by
  unfold set1
  rw [if_neg h]

theorem counterLoop (ι : ℕ → ℕ) (A : ℕ → ℤ) (N : ℕ)
    (hinj : ∀ m m1, m < N → m1 < N → ι m = ι m1 → m = m1) :
    (forLoop 0 N (fun m (s : (ℕ → ℤ) × ℤ) => (set1 s.1 (ι m) s.2, s.2 + 1)) (A, 0)).2 = N
      ∧ (∀ m, m < N →
          (forLoop 0 N (fun m (s : (ℕ → ℤ) × ℤ) => (set1 s.1 (ι m) s.2, s.2 + 1))
            (A, 0)).1 (ι m) = m)
      ∧ (∀ c, (∀ m, m < N → ι m ≠ c) →
          (forLoop 0 N (fun m (s : (ℕ → ℤ) × ℤ) => (set1 s.1 (ι m) s.2, s.2 + 1))
            (A, 0)).1 c = A c) := by
  induction N with
  | zero =>
    rw [forLoop_empty _ _ _ _ (le_refl _)]
    exact ⟨rfl, fun m hm => absurd hm (Nat.not_lt_zero m), fun c _ => rfl⟩
  | succ n ih =>
    obtain ⟨h1, h2, h3⟩ := ih (fun m m1 hm hm1 => hinj m m1 (Nat.lt_succ_of_lt hm)
      (Nat.lt_succ_of_lt hm1))
    rw [forLoop_succ _ _ _ _ (Nat.zero_le n)]
    refine ⟨?_, ?_, ?_⟩
    · show _ + 1 = _
      rw [h1]
      push_cast
      rfl
    · intro m hm
      show set1 _ (ι n) _ (ι m) = _
      by_cases hmn : m = n
      · rw [hmn, set1_same, h1]
      · have hne : ι m ≠ ι n := fun h =>
          hmn (hinj m n hm (Nat.lt_succ_self n) h)
        rw [set1_ne _ _ _ _ hne]
        exact h2 m (by omega)
    · intro c hc
      show set1 _ (ι n) _ c = _
      rw [set1_ne _ _ _ _ (fun h => hc n (Nat.lt_succ_self n) h.symm)]
      exact h3 c (fun m hm => hc m (Nat.lt_succ_of_lt hm))

theorem getNumberOfCoefficients_eq_length (nm0 nm1 nm2 : ℕ) :
    getNumberOfCoefficients nm0 nm1 nm2 = (pyrModes nm0 nm1 nm2).length := by
  unfold getNumberOfCoefficients
  rw [tripleLoop_eq_forLoop nm0 nm1 nm2 (fun _ _ _ n => n + 1)]
  have := forLoop_sum (pyrModes nm0 nm1 nm2).length (fun _ => 1) 0
  simp only [Finset.sum_const, Finset.card_range, smul_eq_mul, mul_one, zero_add] at this
  exact this

theorem pyrModes_getD_mem (nm0 nm1 nm2 m : ℕ) (hm : m < (pyrModes nm0 nm1 nm2).length) :
    ((pyrModes nm0 nm1 nm2).getD m (0, 0, 0)).1 < nm0
      ∧ ((pyrModes nm0 nm1 nm2).getD m (0, 0, 0)).2.1 < nm1
      ∧ ((pyrModes nm0 nm1 nm2).getD m (0, 0, 0)).2.2
          < nm2 - ((pyrModes nm0 nm1 nm2).getD m (0, 0, 0)).1
              - ((pyrModes nm0 nm1 nm2).getD m (0, 0, 0)).2.1 := by
  rw [List.getD_eq_getElem _ _ hm]
  exact (mem_pyrModes nm0 nm1 nm2 _).mp (List.getElem_mem _)

theorem pyrModes_getD_inj (nm0 nm1 nm2 m m1 : ℕ)
    (hm : m < (pyrModes nm0 nm1 nm2).length) (hm1 : m1 < (pyrModes nm0 nm1 nm2).length)
    (h : (pyrModes nm0 nm1 nm2).getD m (0, 0, 0)
      = (pyrModes nm0 nm1 nm2).getD m1 (0, 0, 0)) : m = m1 := by
  rw [List.getD_eq_getElem _ _ hm, List.getD_eq_getElem _ _ hm1] at h
  exact ((nodup_pyrModes nm0 nm1 nm2).getElem_inj_iff).mp h

theorem pqrCell_inj (nm0 nm1 nm2 m m1 : ℕ)
    (hm : m < (pyrModes nm0 nm1 nm2).length) (hm1 : m1 < (pyrModes nm0 nm1 nm2).length)
    (h : pqrCell nm0 nm1 nm2 m = pqrCell nm0 nm1 nm2 m1) : m = m1 := by
  obtain ⟨_, a2, a3⟩ := pyrModes_getD_mem nm0 nm1 nm2 m hm
  obtain ⟨_, b2, b3⟩ := pyrModes_getD_mem nm0 nm1 nm2 m1 hm1
  obtain ⟨e1, e2, e3⟩ := idx3_inj nm1 nm2 _ _ _ _ _ _ a2 b2 (by omega) (by omega) h
  exact pyrModes_getD_inj nm0 nm1 nm2 m m1 hm hm1 (Prod.ext e1 (Prod.ext e2 e3))

theorem buildPqr_cell (nm0 nm1 nm2 m : ℕ) (hm : m < (pyrModes nm0 nm1 nm2).length) :
    buildPqr nm0 nm1 nm2 (pqrCell nm0 nm1 nm2 m) = m := by
  unfold buildPqr
  rw [tripleLoop_eq_forLoop nm0 nm1 nm2
    (fun p q r (s : (ℕ → ℤ) × ℤ) => (set1 s.1 (r + nm2 * (q + nm1 * p)) s.2, s.2 + 1))]
  exact (counterLoop (pqrCell nm0 nm1 nm2) (fun _ => -1) _
    (fun a b ha hb => pqrCell_inj nm0 nm1 nm2 a b ha hb)).2.1 m hm

theorem buildPqr_other (nm0 nm1 nm2 c : ℕ)
    (hc : ∀ m, m < (pyrModes nm0 nm1 nm2).length → pqrCell nm0 nm1 nm2 m ≠ c) :
    buildPqr nm0 nm1 nm2 c = -1 := by
  unfold buildPqr
  rw [tripleLoop_eq_forLoop nm0 nm1 nm2
    (fun p q r (s : (ℕ → ℤ) × ℤ) => (set1 s.1 (r + nm2 * (q + nm1 * p)) s.2, s.2 + 1))]
  exact (counterLoop (pqrCell nm0 nm1 nm2) (fun _ => -1) _
    (fun a b ha hb => pqrCell_inj nm0 nm1 nm2 a b ha hb)).2.2 c hc

end PyrIndex

section PyrIntegral

variable {K : Type} [Field K]

theorem sum_ite_idx2 {α : Type} [AddCommMonoid α] (n1 n0 : ℕ) (g : ℕ → ℕ → α) (q0 p0 : ℕ)
    (hq0 : q0 < n1) (hp0 : p0 < n0) :
    (∑ p in Finset.range n0, ∑ q in Finset.range n1,
      (if q0 + n1 * p0 = q + n1 * p then g p q else 0)) = g p0 q0 := by
  rw [Finset.sum_eq_single p0]
  · rw [Finset.sum_eq_single q0]
    · rw [if_pos rfl]
    · intro q hq hne
      rw [if_neg]
      intro h
      exact hne (idx2_inj n1 q0 p0 q p0 hq0 (Finset.mem_range.mp hq) h).2.symm
    · intro h
      exact absurd (Finset.mem_range.mpr hq0) h
  · intro p _ hne
    apply Finset.sum_eq_zero
    intro q hq
    rw [if_neg]
    intro h
    exact hne (idx2_inj n1 q0 p0 q p hq0 (Finset.mem_range.mp hq) h).1.symm
  · intro h
    exact absurd (Finset.mem_range.mpr hp0) h

theorem sum_ite_idx2_swap {α : Type} [AddCommMonoid α] (n1 n0 : ℕ) (g : ℕ → ℕ → α)
    (q0 p0 : ℕ) (hq0 : q0 < n1) (hp0 : p0 < n0) :
    (∑ q in Finset.range n1, ∑ p in Finset.range n0,
      (if q0 + n1 * p0 = q + n1 * p then g q p else 0)) = g q0 p0 := by
  rw [Finset.sum_comm]
  exact sum_ite_idx2 n1 n0 (fun p q => g q p) q0 p0 hq0 hp0

theorem sum_ite_eq_range {α : Type} [AddCommMonoid α] (n : ℕ) (g : ℕ → α) (i0 : ℕ)
    (h : i0 < n) : (∑ i in Finset.range n, (if i0 = i then g i else 0)) = g i0 := by
  rw [Finset.sum_ite_eq, if_pos (Finset.mem_range.mpr h)]

theorem forLoop_add_cell {α : Type} [AddCommMonoid α] (n c0 : ℕ) (v : ℕ → α) (B : ℕ → α) :
    forLoop 0 n (fun k A => set1 A c0 (A c0 + v k)) B
      = fun c => B c + (if c = c0 then ∑ k in Finset.range n, v k else 0) := by
  rw [forLoop_add n _ (fun k c => if c = c0 then v k else 0) B
    (fun k A _ => set1_add A c0 (v k))]
  funext c
  congr 1
  split_ifs
  · rfl
  · exact Finset.sum_const_zero

theorem TripleInnerProduct_eq (Qx Qy Qz : ℕ) (f wx wy wz : ℕ → K) :
    TripleInnerProduct Qx Qy Qz f wx wy wz
      = tripleSum Qx Qy Qz (fun i j k => f (i + Qx * (j + Qy * k))) wx wy wz := by
  have hA : forLoop 0 Qx (fun i A =>
      forLoop 0 Qy (fun j A =>
        forLoop 0 Qz (fun k A =>
          set1 A (i + Qx * j) (A (i + Qx * j) + f (i + Qx * (j + Qy * k)) * wz k)) A) A)
      (fun _ => (0 : K))
      = fun c => 0 + ∑ i in Finset.range Qx, ∑ j in Finset.range Qy,
          (if c = i + Qx * j then
            ∑ k in Finset.range Qz, f (i + Qx * (j + Qy * k)) * wz k else 0) := by
    apply forLoop_add
    intro i B _
    apply forLoop_add
    intro j B _
    exact forLoop_add_cell Qz _ _ B
  have hb : forLoop 0 Qx (fun i b =>
      forLoop 0 Qy (fun j b =>
        set1 b i (b i + (fun c => 0 + ∑ i in Finset.range Qx, ∑ j in Finset.range Qy,
          (if c = i + Qx * j then
            ∑ k in Finset.range Qz, f (i + Qx * (j + Qy * k)) * wz k else 0)) (i + Qx * j)
          * wy j)) b) (fun _ => (0 : K))
      = fun c => 0 + ∑ i in Finset.range Qx,
          (if c = i then ∑ j in Finset.range Qy,
            (∑ k in Finset.range Qz, f (i + Qx * (j + Qy * k)) * wz k) * wy j else 0) := by
    apply forLoop_add
    intro i B hi
    rw [forLoop_add_cell]
    funext c
    congr 2
    apply Finset.sum_congr rfl
    intro j hj
    simp only [zero_add]
    rw [sum_ite_idx2_swap Qx Qy
      (fun i j => ∑ k in Finset.range Qz, f (i + Qx * (j + Qy * k)) * wz k) i j hi
      (Finset.mem_range.mp hj)]
  unfold TripleInnerProduct tripleSum
  simp only []
  rw [hA, hb, forLoop_sum, zero_add]
  apply Finset.sum_congr rfl
  intro i hi
  simp only [zero_add]
  rw [sum_ite_eq_range Qx _ i (Finset.mem_range.mp hi), Finset.sum_mul]
  apply Finset.sum_congr rfl
  intro j _
  rw [Finset.sum_mul, Finset.sum_mul]
  apply Finset.sum_congr rfl
  intro k _
  ring

theorem StdPyrExp.Integral_eq (E : StdPyrExp K) (f : ℕ → K) :
    E.Integral f
      = E.quadSum (fun i j k => f (i + E.NumPoints 0 * (j + E.NumPoints 1 * k))) := by
  unfold StdPyrExp.Integral StdPyrExp.Integral3D StdPyrExp.quadSum
  simp only []
  rw [TripleInnerProduct_eq]
  rfl

end PyrIntegral

section PyrIProduct

variable {K : Type} [Field K]

theorem sum_ite_idx3 {α : Type} [AddCommMonoid α] (Qx Qy Qz : ℕ) (G : ℕ → ℕ → ℕ → α)
    (i0 j0 k0 : ℕ) (hi0 : i0 < Qx) (hj0 : j0 < Qy) (hk0 : k0 < Qz) :
    (∑ k in Finset.range Qz, ∑ j in Finset.range Qy, ∑ i in Finset.range Qx,
      (if i0 + Qx * (j0 + Qy * k0) = i + Qx * (j + Qy * k) then G i j k else 0))
      = G i0 j0 k0 := by
  rw [Finset.sum_eq_single k0]
  · rw [Finset.sum_eq_single j0]
    · rw [Finset.sum_eq_single i0]
      · rw [if_pos rfl]
      · intro i hi hne
        rw [if_neg]
        intro h
        exact hne (idx3_inj Qy Qx k0 j0 i0 k0 j0 i hj0 hj0 hi0 (Finset.mem_range.mp hi)
          h).2.2.symm
      · intro h
        exact absurd (Finset.mem_range.mpr hi0) h
    · intro j hj hne
      apply Finset.sum_eq_zero
      intro i hi
      rw [if_neg]
      intro h
      exact hne (idx3_inj Qy Qx k0 j0 i0 k0 j i hj0 (Finset.mem_range.mp hj) hi0
        (Finset.mem_range.mp hi) h).2.1.symm
    · intro h
      exact absurd (Finset.mem_range.mpr hj0) h
  · intro k _ hne
    apply Finset.sum_eq_zero
    intro j hj
    apply Finset.sum_eq_zero
    intro i hi
    rw [if_neg]
    intro h
    exact hne (idx3_inj Qy Qx k0 j0 i0 k j i hj0 (Finset.mem_range.mp hj) hi0
      (Finset.mem_range.mp hi) h).1.symm
  · intro h
    exact absurd (Finset.mem_range.mpr hk0) h

theorem StdPyrExp.m_ncoeffs_eq_length {K : Type} (E : StdPyrExp K) :
    E.m_ncoeffs = (pyrModes (E.NumModes 0) (E.NumModes 1) (E.NumModes 2)).length :=
  getNumberOfCoefficients_eq_length _ _ _

theorem pyr_gpqr_eq (Qx Qy Qz : ℕ) (val : ℕ → ℕ → ℕ → K) :
    forLoop 0 Qz (fun k g =>
        forLoop 0 Qy (fun j g =>
          forLoop 0 Qx (fun i g =>
            set1 g (i + Qx * (j + Qy * k)) (g (i + Qx * (j + Qy * k)) + val i j k)) g) g)
        (fun _ => (0 : K))
      = fun c => 0 + ∑ k in Finset.range Qz, ∑ j in Finset.range Qy,
          ∑ i in Finset.range Qx,
            (if c = i + Qx * (j + Qy * k) then val i j k else 0) := by
  apply forLoop_add
  intro k B _
  apply forLoop_add
  intro j B _
  apply forLoop_add
  intro i B _
  exact set1_add B _ _

theorem StdPyrExp.IProductWRTBase_eq (E : StdPyrExp K) (inarray outarray : ℕ → K) (m : ℕ)
    (hm : m < E.m_ncoeffs) :
    E.IProductWRTBase inarray outarray m
      = E.quadSum (fun i j k =>
          inarray (i + E.NumPoints 0 * (j + E.NumPoints 1 * k)) * E.phi m i j k) := by
  rw [E.m_ncoeffs_eq_length] at hm
  unfold StdPyrExp.IProductWRTBase StdPyrExp.IProductWRTBase5
  simp only []
  rw [tripleLoop_eq_forLoop (E.NumModes 0) (E.NumModes 1) (E.NumModes 2)
    (fun p q r outarray =>
      set1 outarray
        (buildPqr (E.NumModes 0) (E.NumModes 1) (E.NumModes 2)
          (r + E.NumModes 2 * (q + E.NumModes 1 * p))).toNat
        (E.Integral
          (forLoop 0 (E.NumPoints 2) (fun k g =>
            forLoop 0 (E.NumPoints 1) (fun j g =>
              forLoop 0 (E.NumPoints 0) (fun i g =>
                set1 g (i + E.NumPoints 0 * (j + E.NumPoints 1 * k))
                  (g (i + E.NumPoints 0 * (j + E.NumPoints 1 * k))
                    + inarray (i + E.NumPoints 0 * (j + E.NumPoints 1 * k))
                      * E.Bdata 0 (i + E.NumPoints 0 * p)
                      * E.Bdata 1 (j + E.NumPoints 1 * q)
                      * E.Bdata 2 ((k + E.NumPoints 2
                          * buildPqr (E.NumModes 0) (E.NumModes 1) (E.NumModes 2)
                            (r + E.NumModes 2 * (q + E.NumModes 1 * p))).toNat))) g) g)
            (fun _ => 0))))]
  rw [forLoop_congr 0 _ _ (fun n outarray => set1 outarray n
      (E.quadSum (fun i j k =>
        inarray (i + E.NumPoints 0 * (j + E.NumPoints 1 * k)) * E.phi n i j k)))]
  · rw [forLoop_write_pos]
    exact if_pos hm
  · intro n t _ hn
    have hcell := buildPqr_cell (E.NumModes 0) (E.NumModes 1) (E.NumModes 2) n hn
    unfold pqrCell at hcell
    rw [hcell, Int.toNat_ofNat]
    refine congrArg (set1 t n) ?_
    rw [StdPyrExp.Integral_eq, pyr_gpqr_eq]
    unfold StdPyrExp.quadSum tripleSum
    apply Finset.sum_congr rfl
    intro i hi
    apply Finset.sum_congr rfl
    intro j hj
    apply Finset.sum_congr rfl
    intro k hk
    simp only [zero_add]
    rw [sum_ite_idx3 _ _ _ _ i j k (Finset.mem_range.mp hi) (Finset.mem_range.mp hj)
      (Finset.mem_range.mp hk)]
    have e : ((k : ℤ) + (E.NumPoints 2 : ℤ) * (n : ℤ)).toNat = k + E.NumPoints 2 * n := by
      have : ((k : ℤ) + (E.NumPoints 2 : ℤ) * (n : ℤ)) = ((k + E.NumPoints 2 * n : ℕ) : ℤ) := by
        push_cast
        rfl
      rw [this, Int.toNat_ofNat]
    rw [e]
    unfold StdPyrExp.phi StdPyrExp.modeTriple
    ring

end PyrIProduct

section PyrBwd

variable {K : Type} [Field K]

theorem decode_idx3 (Qx Qy i j k : ℕ) (hi : i < Qx) (hj : j < Qy) :
    (i + Qx * (j + Qy * k)) % Qx = i ∧ (i + Qx * (j + Qy * k)) / Qx % Qy = j
      ∧ (i + Qx * (j + Qy * k)) / Qx / Qy = k := by
  have h1 : (i + Qx * (j + Qy * k)) / Qx = j + Qy * k := by
    rw [Nat.add_mul_div_left _ _ (by omega), Nat.div_eq_of_lt hi, zero_add]
  refine ⟨?_, ?_, ?_⟩
  · rw [Nat.add_mul_mod_self_left, Nat.mod_eq_of_lt hi]
  · rw [h1, Nat.add_mul_mod_self_left, Nat.mod_eq_of_lt hj]
  · rw [h1, Nat.add_mul_div_left _ _ (by omega), Nat.div_eq_of_lt hj, zero_add]

theorem forLoop_write_level {α : Type} (n : ℕ) (body : ℕ → (ℕ → α) → (ℕ → α))
    (F : ℕ → ℕ → Prop) (v : ℕ → α)
    (H1 : ∀ i A c, i < n → ¬ F i c → body i A c = A c)
    (H2 : ∀ i A c, i < n → F i c → body i A c = v c) (A : ℕ → α) (c : ℕ) :
    ((∃ i, i < n ∧ F i c) → forLoop 0 n body A c = v c)
      ∧ ((∀ i, i < n → ¬ F i c) → forLoop 0 n body A c = A c) := by
  induction n with
  | zero =>
    rw [forLoop_empty _ _ _ _ (le_refl _)]
    exact ⟨fun ⟨i, hi, _⟩ => absurd hi (Nat.not_lt_zero i), fun _ => rfl⟩
  | succ n ih =>
    obtain ⟨ih1, ih2⟩ := ih (fun i A c hi => H1 i A c (Nat.lt_succ_of_lt hi))
      (fun i A c hi => H2 i A c (Nat.lt_succ_of_lt hi))
    rw [forLoop_succ _ _ _ _ (Nat.zero_le n)]
    constructor
    · rintro ⟨i, hi, hF⟩
      by_cases hn : F n c
      · exact H2 n _ c (Nat.lt_succ_self n) hn
      · rw [H1 n _ c (Nat.lt_succ_self n) hn]
        have hin : i < n := by
          rcases Nat.lt_succ_iff_lt_or_eq.mp hi with h | h
          · exact h
          · rw [h] at hF; exact absurd hF hn
        exact ih1 ⟨i, hin, hF⟩
    · intro hall
      rw [H1 n _ c (Nat.lt_succ_self n) (hall n (Nat.lt_succ_self n))]
      exact ih2 (fun i hi => hall i (Nat.lt_succ_of_lt hi))

theorem tripleWrite {α : Type} (Qx Qy Qz : ℕ) (val : ℕ → ℕ → ℕ → α) (out : ℕ → α) :
    (∀ i j k, i < Qx → j < Qy → k < Qz →
      forLoop 0 Qz (fun k out =>
        forLoop 0 Qy (fun j out =>
          forLoop 0 Qx (fun i out => set1 out (i + Qx * (j + Qy * k)) (val i j k)) out) out)
        out (i + Qx * (j + Qy * k)) = val i j k)
    ∧ (∀ c, (∀ i j k, i < Qx → j < Qy → k < Qz → c ≠ i + Qx * (j + Qy * k)) →
      forLoop 0 Qz (fun k out =>
        forLoop 0 Qy (fun j out =>
          forLoop 0 Qx (fun i out => set1 out (i + Qx * (j + Qy * k)) (val i j k)) out) out)
        out c = out c) := by
  have L1 : ∀ j k (A : ℕ → α) (c : ℕ), j < Qy →
      ((∃ i, i < Qx ∧ c = i + Qx * (j + Qy * k)) →
        forLoop 0 Qx (fun i out => set1 out (i + Qx * (j + Qy * k)) (val i j k)) A c
          = val (c % Qx) (c / Qx % Qy) (c / Qx / Qy))
      ∧ ((∀ i, i < Qx → ¬ c = i + Qx * (j + Qy * k)) →
        forLoop 0 Qx (fun i out => set1 out (i + Qx * (j + Qy * k)) (val i j k)) A c
          = A c) := by
    intro j k A c hj
    apply forLoop_write_level Qx _ (fun i c => c = i + Qx * (j + Qy * k))
    · intro i B c hi hF
      exact set1_ne _ _ _ _ hF
    · intro i B c hi hF
      obtain ⟨d1, d2, d3⟩ := decode_idx3 Qx Qy i j k hi hj
      rw [hF, set1_same, d1, d2, d3]
  have L2 : ∀ k (A : ℕ → α) (c : ℕ),
      ((∃ j, j < Qy ∧ ∃ i, i < Qx ∧ c = i + Qx * (j + Qy * k)) →
        forLoop 0 Qy (fun j out =>
          forLoop 0 Qx (fun i out => set1 out (i + Qx * (j + Qy * k)) (val i j k)) out) A c
          = val (c % Qx) (c / Qx % Qy) (c / Qx / Qy))
      ∧ ((∀ j, j < Qy → ¬ ∃ i, i < Qx ∧ c = i + Qx * (j + Qy * k)) →
        forLoop 0 Qy (fun j out =>
          forLoop 0 Qx (fun i out => set1 out (i + Qx * (j + Qy * k)) (val i j k)) out) A c
          = A c) := by
    intro k A c
    apply forLoop_write_level Qy _ (fun j c => ∃ i, i < Qx ∧ c = i + Qx * (j + Qy * k))
    · intro j B c hj hF
      exact (L1 j k B c hj).2 (fun i hi h => hF ⟨i, hi, h⟩)
    · intro j B c hj hF
      exact (L1 j k B c hj).1 hF
  have L3 : ∀ (A : ℕ → α) (c : ℕ),
      ((∃ k, k < Qz ∧ ∃ j, j < Qy ∧ ∃ i, i < Qx ∧ c = i + Qx * (j + Qy * k)) →
        forLoop 0 Qz (fun k out =>
          forLoop 0 Qy (fun j out =>
            forLoop 0 Qx (fun i out => set1 out (i + Qx * (j + Qy * k)) (val i j k)) out)
            out) A c
          = val (c % Qx) (c / Qx % Qy) (c / Qx / Qy))
      ∧ ((∀ k, k < Qz → ¬ ∃ j, j < Qy ∧ ∃ i, i < Qx ∧ c = i + Qx * (j + Qy * k)) →
        forLoop 0 Qz (fun k out =>
          forLoop 0 Qy (fun j out =>
            forLoop 0 Qx (fun i out => set1 out (i + Qx * (j + Qy * k)) (val i j k)) out)
            out) A c
          = A c) := by
    intro A c
    apply forLoop_write_level Qz _
      (fun k c => ∃ j, j < Qy ∧ ∃ i, i < Qx ∧ c = i + Qx * (j + Qy * k))
    · intro k B c _ hF
      exact (L2 k B c).2 (fun j hj h => hF ⟨j, hj, h⟩)
    · intro k B c _ hF
      exact (L2 k B c).1 hF
  constructor
  · intro i j k hi hj hk
    rw [(L3 out _).1 ⟨k, hk, j, hj, i, hi, rfl⟩]
    obtain ⟨d1, d2, d3⟩ := decode_idx3 Qx Qy i j k hi hj
    rw [d1, d2, d3]
  · intro c hc
    exact (L3 out c).2 (fun k hk ⟨j, hj, i, hi, h⟩ => hc i j k hi hj hk h)

end PyrBwd

section PyrBwd2

variable {K : Type} [Field K]

theorem basisType_assert_B (b : BasisType) :
    (b != .eOrtho_B || b != .eModified_B) = true := by
  cases b <;> rfl

theorem basisType_assert_C (b : BasisType) :
    (b != .eOrtho_C || b != .eModified_C) = true := by
  cases b <;> rfl

theorem StdPyrExp.BwdTrans_eq_loops (E : StdPyrExp K) (inarray outarray : ℕ → K) :
    E.BwdTrans inarray outarray
      = .ok (forLoop 0 (E.NumPoints 2) (fun k out =>
          forLoop 0 (E.NumPoints 1) (fun j out =>
            forLoop 0 (E.NumPoints 0) (fun i out =>
              set1 out (i + E.NumPoints 0 * (j + E.NumPoints 1 * k))
                (E.bwdCijk inarray i j k)) out) out) outarray) := by
  unfold StdPyrExp.BwdTrans
  rw [basisType_assert_B, basisType_assert_C]
  rfl

theorem sum_ite_idx2_rev {α : Type} [AddCommMonoid α] (n1 n0 : ℕ) (g : ℕ → ℕ → α)
    (q0 p0 : ℕ) (hq0 : q0 < n1) (hp0 : p0 < n0) :
    (∑ p in Finset.range n0, ∑ q in Finset.range n1,
      (if q + n1 * p = q0 + n1 * p0 then g p q else 0)) = g p0 q0 := by
  rw [← sum_ite_idx2 n1 n0 g q0 p0 hq0 hp0]
  apply Finset.sum_congr rfl
  intro p _
  apply Finset.sum_congr rfl
  intro q _
  exact if_congr eq_comm rfl rfl

theorem StdPyrExp.bwdAk_eq (E : StdPyrExp K) (inarray : ℕ → K) (k : ℕ) :
    E.bwdAk inarray k = fun c => 0 + ∑ m in Finset.range E.m_ncoeffs,
      (if c = (E.modeTriple m).2.1 + E.NumModes 1 * (E.modeTriple m).1 then
        inarray m * E.Bdata 2 (k + E.NumPoints 2 * m) else 0) := by
  unfold StdPyrExp.bwdAk
  rw [tripleLoop_eq_forLoop (E.NumModes 0) (E.NumModes 1) (E.NumModes 2)
    (fun p q r Ak =>
      set1 Ak (q + E.NumModes 1 * p)
          (Ak (q + E.NumModes 1 * p)
            + inarray (buildPqr (E.NumModes 0) (E.NumModes 1) (E.NumModes 2)
                (r + E.NumModes 2 * (q + E.NumModes 1 * p))).toNat
              * E.Bdata 2 ((k + E.NumPoints 2
                  * buildPqr (E.NumModes 0) (E.NumModes 1) (E.NumModes 2)
                    (r + E.NumModes 2 * (q + E.NumModes 1 * p))).toNat))),
    E.m_ncoeffs_eq_length]
  apply forLoop_add
  intro n B hn
  have hcell := buildPqr_cell (E.NumModes 0) (E.NumModes 1) (E.NumModes 2) n hn
  unfold pqrCell at hcell
  rw [hcell, Int.toNat_ofNat]
  have e : ((k : ℤ) + (E.NumPoints 2 : ℤ) * (n : ℤ)).toNat = k + E.NumPoints 2 * n := by
    have : ((k : ℤ) + (E.NumPoints 2 : ℤ) * (n : ℤ)) = ((k + E.NumPoints 2 * n : ℕ) : ℤ) := by
      push_cast
      rfl
    rw [this, Int.toNat_ofNat]
  rw [e]
  exact set1_add B _ _

theorem StdPyrExp.bwdBjk_eq (E : StdPyrExp K) (inarray : ℕ → K) (j k p : ℕ)
    (hp : p < E.NumModes 0) :
    E.bwdBjk inarray j k p = ∑ q in Finset.range (E.NumModes 1),
      E.bwdAk inarray k (q + E.NumModes 1 * p) * E.Bdata 1 (j + E.NumPoints 1 * q) := by
  unfold StdPyrExp.bwdBjk
  rw [forLoop_add (E.NumModes 0) _ (fun p c => if c = p then
      ∑ q in Finset.range (E.NumModes 1),
        E.bwdAk inarray k (q + E.NumModes 1 * p) * E.Bdata 1 (j + E.NumPoints 1 * q)
      else 0) _ (fun p B _ => forLoop_add_cell _ _ _ B)]
  simp only [zero_add]
  exact sum_ite_eq_range _ _ p hp

theorem StdPyrExp.bwdCijk_eq (E : StdPyrExp K) (inarray : ℕ → K) (i j k : ℕ) :
    E.bwdCijk inarray i j k
      = ∑ m in Finset.range E.m_ncoeffs, inarray m * E.phi m i j k := by
  unfold StdPyrExp.bwdCijk
  rw [forLoop_sum, zero_add]
  have h1 : ∀ p ∈ Finset.range (E.NumModes 0),
      E.bwdBjk inarray j k p * E.Bdata 0 (i + E.NumPoints 0 * p)
        = ∑ q in Finset.range (E.NumModes 1), ∑ m in Finset.range E.m_ncoeffs,
            (if q + E.NumModes 1 * p
                = (E.modeTriple m).2.1 + E.NumModes 1 * (E.modeTriple m).1 then
              inarray m * E.Bdata 2 (k + E.NumPoints 2 * m)
                * E.Bdata 1 (j + E.NumPoints 1 * q) * E.Bdata 0 (i + E.NumPoints 0 * p)
            else 0) := by
    intro p hp
    rw [E.bwdBjk_eq inarray j k p (Finset.mem_range.mp hp), Finset.sum_mul]
    apply Finset.sum_congr rfl
    intro q _
    rw [E.bwdAk_eq]
    simp only [zero_add]
    rw [Finset.sum_mul, Finset.sum_mul]
    apply Finset.sum_congr rfl
    intro m _
    split_ifs
    · rfl
    · rw [zero_mul, zero_mul]
  rw [Finset.sum_congr rfl h1]
  have h2 : ∀ p ∈ Finset.range (E.NumModes 0),
      (∑ q in Finset.range (E.NumModes 1), ∑ m in Finset.range E.m_ncoeffs,
            (if q + E.NumModes 1 * p
                = (E.modeTriple m).2.1 + E.NumModes 1 * (E.modeTriple m).1 then
              inarray m * E.Bdata 2 (k + E.NumPoints 2 * m)
                * E.Bdata 1 (j + E.NumPoints 1 * q) * E.Bdata 0 (i + E.NumPoints 0 * p)
            else 0))
        = ∑ m in Finset.range E.m_ncoeffs, ∑ q in Finset.range (E.NumModes 1),
            (if q + E.NumModes 1 * p
                = (E.modeTriple m).2.1 + E.NumModes 1 * (E.modeTriple m).1 then
              inarray m * E.Bdata 2 (k + E.NumPoints 2 * m)
                * E.Bdata 1 (j + E.NumPoints 1 * q) * E.Bdata 0 (i + E.NumPoints 0 * p)
            else 0) := fun p _ => Finset.sum_comm
  rw [Finset.sum_congr rfl h2, Finset.sum_comm]
  apply Finset.sum_congr rfl
  intro m hm
  have hm2 : m < (pyrModes (E.NumModes 0) (E.NumModes 1) (E.NumModes 2)).length := by
    rw [← E.m_ncoeffs_eq_length]
    exact Finset.mem_range.mp hm
  obtain ⟨a1, a2, _⟩ := pyrModes_getD_mem _ _ _ m hm2
  rw [sum_ite_idx2_rev (E.NumModes 1) (E.NumModes 0)
    (fun p q => inarray m * E.Bdata 2 (k + E.NumPoints 2 * m)
      * E.Bdata 1 (j + E.NumPoints 1 * q) * E.Bdata 0 (i + E.NumPoints 0 * p))
    (E.modeTriple m).2.1 (E.modeTriple m).1 a2 a1]
  unfold StdPyrExp.phi
  ring

end PyrBwd2

section PyrRoundTrip

variable {K : Type} [Field K]

theorem tripleSum_congr (Qx Qy Qz : ℕ) (F G : ℕ → ℕ → ℕ → K) (wx wy wz : ℕ → K)
    (h : ∀ i j k, i < Qx → j < Qy → k < Qz → F i j k = G i j k) :
    tripleSum Qx Qy Qz F wx wy wz = tripleSum Qx Qy Qz G wx wy wz := by
  unfold tripleSum
  apply Finset.sum_congr rfl
  intro i hi
  apply Finset.sum_congr rfl
  intro j hj
  apply Finset.sum_congr rfl
  intro k hk
  rw [h i j k (Finset.mem_range.mp hi) (Finset.mem_range.mp hj) (Finset.mem_range.mp hk)]

theorem sum4_move {α : Type} [AddCommMonoid α] (s1 s2 s3 s4 : Finset ℕ)
    (t : ℕ → ℕ → ℕ → ℕ → α) :
    (∑ i in s1, ∑ j in s2, ∑ k in s3, ∑ l in s4, t i j k l)
      = ∑ l in s4, ∑ i in s1, ∑ j in s2, ∑ k in s3, t i j k l := by
  calc (∑ i in s1, ∑ j in s2, ∑ k in s3, ∑ l in s4, t i j k l)
      = ∑ i in s1, ∑ j in s2, ∑ l in s4, ∑ k in s3, t i j k l :=
        Finset.sum_congr rfl (fun i _ => Finset.sum_congr rfl (fun j _ => Finset.sum_comm))
    _ = ∑ i in s1, ∑ l in s4, ∑ j in s2, ∑ k in s3, t i j k l :=
        Finset.sum_congr rfl (fun i _ => Finset.sum_comm)
    _ = ∑ l in s4, ∑ i in s1, ∑ j in s2, ∑ k in s3, t i j k l := Finset.sum_comm

theorem tripleSum_linear (Qx Qy Qz N : ℕ) (a : ℕ → K) (F : ℕ → ℕ → ℕ → ℕ → K)
    (G : ℕ → ℕ → ℕ → K) (wx wy wz : ℕ → K) :
    tripleSum Qx Qy Qz (fun i j k => (∑ l in Finset.range N, a l * F l i j k) * G i j k)
        wx wy wz
      = ∑ l in Finset.range N,
          a l * tripleSum Qx Qy Qz (fun i j k => F l i j k * G i j k) wx wy wz := by
  unfold tripleSum
  simp only [Finset.sum_mul, Finset.mul_sum]
  rw [sum4_move]
  apply Finset.sum_congr rfl
  intro l _
  apply Finset.sum_congr rfl
  intro i _
  apply Finset.sum_congr rfl
  intro j _
  apply Finset.sum_congr rfl
  intro k _
  ring

theorem StdPyrExp.massEntry_eq (E : StdPyrExp K) (m n : ℕ) :
    E.massEntry m n = E.quadSum (fun i j k => E.phi m i j k * E.phi n i j k) := by
  unfold StdPyrExp.massEntry
  rw [StdPyrExp.Integral_eq]
  unfold StdPyrExp.quadSum
  apply tripleSum_congr
  intro i j k hi hj _
  obtain ⟨d1, d2, d3⟩ := decode_idx3 (E.NumPoints 0) (E.NumPoints 1) i j k hi hj
  unfold StdPyrExp.phiArray
  simp only [d1, d2, d3]

theorem StdPyrExp.BwdTrans_isOk (E : StdPyrExp K) (c out : ℕ → K) :
    (E.BwdTrans c out).isOk = true := by
  rw [E.BwdTrans_eq_loops]
  rfl

theorem StdPyrExp.BwdTrans_apply (E : StdPyrExp K) (c out f : ℕ → K)
    (hf : E.BwdTrans c out = .ok f) (i j k : ℕ) (hi : i < E.NumPoints 0)
    (hj : j < E.NumPoints 1) (hk : k < E.NumPoints 2) :
    f (i + E.NumPoints 0 * (j + E.NumPoints 1 * k))
      = ∑ m in Finset.range E.m_ncoeffs, c m * E.phi m i j k := by
  rw [E.BwdTrans_eq_loops] at hf
  injection hf with hf
  rw [← hf, (tripleWrite (E.NumPoints 0) (E.NumPoints 1) (E.NumPoints 2)
    (fun i j k => E.bwdCijk c i j k) out).1 i j k hi hj hk, E.bwdCijk_eq]

theorem StdPyrExp.IProduct_BwdTrans (E : StdPyrExp K) (c out f out1 : ℕ → K)
    (hf : E.BwdTrans c out = .ok f) (n : ℕ) (hn : n < E.m_ncoeffs) :
    E.IProductWRTBase f out1 n
      = ∑ l in Finset.range E.m_ncoeffs, c l * E.massEntry l n := by
  rw [E.IProductWRTBase_eq f out1 n hn]
  unfold StdPyrExp.quadSum
  rw [tripleSum_congr _ _ _ _
    (fun i j k => (∑ l in Finset.range E.m_ncoeffs, c l * E.phi l i j k) * E.phi n i j k)
    _ _ _ (fun i j k hi hj hk => by rw [E.BwdTrans_apply c out f hf i j k hi hj hk]),
    tripleSum_linear]
  apply Finset.sum_congr rfl
  intro l _
  rw [E.massEntry_eq]
  rfl

theorem StdPyrExp.FwdTrans_BwdTrans (E : StdPyrExp K)
    (hinv : DNekMat.toMatrixOf E.m_ncoeffs E.m_ncoeffs
        (E.GetStdMatrix (MatrixKey.mk3 .eInvMass .ePyramid))
      * (Matrix.of fun m n : Fin E.m_ncoeffs => E.massEntry m n) = 1)
    (c out f out1 : ℕ → K) (hf : E.BwdTrans c out = .ok f) (m : ℕ) (hm : m < E.m_ncoeffs) :
    E.FwdTrans f out1 m = c m := by
  unfold StdPyrExp.FwdTrans
  simp only [hm, if_true]
  have hsym : ∀ a b, E.massEntry a b = E.massEntry b a := by
    intro a b
    rw [E.massEntry_eq, E.massEntry_eq]
    unfold StdPyrExp.quadSum
    exact tripleSum_congr _ _ _ _ _ _ _ _ (fun i j k _ _ _ => mul_comm _ _)
  have h1 : ∀ n ∈ Finset.range E.m_ncoeffs,
      (E.GetStdMatrix (MatrixKey.mk3 .eInvMass .ePyramid)).e m n
          * E.IProductWRTBase f out1 n
        = ∑ l in Finset.range E.m_ncoeffs,
            c l * ((E.GetStdMatrix (MatrixKey.mk3 .eInvMass .ePyramid)).e m n
              * E.massEntry n l) := by
    intro n hn
    rw [E.IProduct_BwdTrans c out f out1 hf n (Finset.mem_range.mp hn), Finset.mul_sum]
    apply Finset.sum_congr rfl
    intro l _
    rw [hsym l n]
    ring
  rw [Finset.sum_congr rfl h1, Finset.sum_comm]
  have h2 : ∀ l ∈ Finset.range E.m_ncoeffs,
      (∑ n in Finset.range E.m_ncoeffs,
        c l * ((E.GetStdMatrix (MatrixKey.mk3 .eInvMass .ePyramid)).e m n
          * E.massEntry n l))
        = if m = l then c l else 0 := by
    intro l hl
    have hl2 := Finset.mem_range.mp hl
    have := congrFun (congrFun hinv ⟨m, hm⟩) ⟨l, hl2⟩
    rw [Matrix.mul_apply] at this
    rw [← Finset.mul_sum, Finset.sum_range
      (fun n => (E.GetStdMatrix (MatrixKey.mk3 .eInvMass .ePyramid)).e m n
        * E.massEntry n l)]
    have e : (∑ n : Fin E.m_ncoeffs,
        (E.GetStdMatrix (MatrixKey.mk3 .eInvMass .ePyramid)).e m n * E.massEntry n l)
        = (1 : Matrix (Fin E.m_ncoeffs) (Fin E.m_ncoeffs) K) ⟨m, hm⟩ ⟨l, hl2⟩ := this
    rw [e, Matrix.one_apply]
    by_cases hml : m = l
    · simp [hml]
    · have : (⟨m, hm⟩ : Fin E.m_ncoeffs) ≠ ⟨l, hl2⟩ := fun h => hml (Fin.mk.inj h)
      simp [hml, this]
  rw [Finset.sum_congr rfl h2, Finset.sum_ite_eq, if_pos (Finset.mem_range.mpr hm)]

end PyrRoundTrip

section PyrClaim

variable {K : Type} [Field K]

/-- C8: for `StdPyrExp`, provided the inverse-mass matrix used by `FwdTrans` is the
inverse of the matrix `M[m][n] = Integral(phi_m * phi_n)` of the modes
`phi_m[i,j,k] = bx[i+Qx*p] * by[j+Qy*q] * bz[k+Qz*m]` (`m` the mode number of
`(p,q,r)`): `BwdTrans` returns, it evaluates `sum_m c[m] * phi_m` at the quadrature
points, `IProductWRTBase` integrates against the same `phi_m` (so both index the
y-direction basis by the same mode `q`), `FwdTrans(BwdTrans(c)) = c` on the `ncoeffs`
coefficients for every coefficient vector `c`, and hence `BwdTrans(FwdTrans(f)) = f` at
every quadrature point for every `f` that is `BwdTrans` of a coefficient vector. -/
theorem C8_pyramid_fwd_bwd_round_trip (E : StdPyrExp K)
    (hinv : DNekMat.toMatrixOf E.m_ncoeffs E.m_ncoeffs
        (E.GetStdMatrix (MatrixKey.mk3 .eInvMass .ePyramid))
      * (Matrix.of fun m n : Fin E.m_ncoeffs => E.massEntry m n) = 1)
    (c out0 : ℕ → K) :
    (E.BwdTrans c out0).isOk = true
      ∧ ∀ f, E.BwdTrans c out0 = .ok f →
        (∀ i j k, i < E.NumPoints 0 → j < E.NumPoints 1 → k < E.NumPoints 2 →
          f (i + E.NumPoints 0 * (j + E.NumPoints 1 * k))
            = ∑ m in Finset.range E.m_ncoeffs, c m * E.phi m i j k)
        ∧ (∀ out1 m, m < E.m_ncoeffs →
          E.IProductWRTBase f out1 m
            = E.quadSum (fun i j k =>
                f (i + E.NumPoints 0 * (j + E.NumPoints 1 * k)) * E.phi m i j k))
        ∧ (∀ out1 m, m < E.m_ncoeffs → E.FwdTrans f out1 m = c m)
        ∧ (∀ out1 out2 g, E.BwdTrans (E.FwdTrans f out1) out2 = .ok g →
          ∀ i j k, i < E.NumPoints 0 → j < E.NumPoints 1 → k < E.NumPoints 2 →
            g (i + E.NumPoints 0 * (j + E.NumPoints 1 * k))
              = f (i + E.NumPoints 0 * (j + E.NumPoints 1 * k))) := by
  refine ⟨E.BwdTrans_isOk c out0, fun f hf => ⟨?_, ?_, ?_, ?_⟩⟩
  · exact fun i j k hi hj hk => E.BwdTrans_apply c out0 f hf i j k hi hj hk
  · exact fun out1 m hm => E.IProductWRTBase_eq f out1 m hm
  · exact fun out1 m hm => E.FwdTrans_BwdTrans hinv c out0 f out1 hf m hm
  · intro out1 out2 g hg i j k hi hj hk
    rw [E.BwdTrans_apply _ out2 g hg i j k hi hj hk,
      E.BwdTrans_apply c out0 f hf i j k hi hj hk]
    apply Finset.sum_congr rfl
    intro m hm
    rw [E.FwdTrans_BwdTrans hinv c out0 f out1 hf m (Finset.mem_range.mp hm)]

end PyrClaim

section PyrExample2



theorem examplePyr3_ncoeffs : examplePyr3.m_ncoeffs = 3 := by decide

theorem examplePyr3_modes : examplePyr3.modeTriple 0 = (0, 0, 0)
    ∧ examplePyr3.modeTriple 1 = (0, 0, 1) ∧ examplePyr3.modeTriple 2 = (0, 1, 0) := by
  decide

theorem examplePyr3_mass (m n : ℕ) (hm : m < 3) (hn : n < 3) :
    examplePyr3.massEntry m n = if m = n then (if m = 2 then 2 else 1) else 0 := by
  obtain ⟨h0, h1, h2⟩ := examplePyr3_modes
  rw [StdPyrExp.massEntry_eq]
  interval_cases m <;> interval_cases n <;>
    simp [StdPyrExp.quadSum, tripleSum, StdPyrExp.phi, StdPyrExp.wz_hat, h0, h1, h2,
      Finset.sum_range_succ] <;>
    simp [examplePyr3, Finset.sum_range_succ, one_add_one_eq_two]

theorem examplePyr3_inverse :
    DNekMat.toMatrixOf examplePyr3.m_ncoeffs examplePyr3.m_ncoeffs
        (examplePyr3.GetStdMatrix (MatrixKey.mk3 .eInvMass .ePyramid))
      * (Matrix.of fun m n : Fin examplePyr3.m_ncoeffs => examplePyr3.massEntry m n)
      = 1 := by
  ext ⟨m, hm⟩ ⟨n, hn⟩
  have hm3 : m < 3 := by have := examplePyr3_ncoeffs; omega
  have hn3 : n < 3 := by have := examplePyr3_ncoeffs; omega
  rw [Matrix.mul_apply, Matrix.one_apply]
  have h := Fin.sum_univ_eq_sum_range
    (fun x => (examplePyr3.GetStdMatrix (MatrixKey.mk3 .eInvMass .ePyramid)).e m x
      * examplePyr3.massEntry x n) examplePyr3.m_ncoeffs
  simp only [DNekMat.toMatrixOf, Matrix.of_apply]
  rw [h, show Finset.range examplePyr3.m_ncoeffs = Finset.range 3 from by
      rw [examplePyr3_ncoeffs], Finset.sum_range_succ, Finset.sum_range_succ,
    Finset.sum_range_one, examplePyr3_mass 0 n (by decide) hn3,
    examplePyr3_mass 1 n (by decide) hn3, examplePyr3_mass 2 n (by decide) hn3]
  simp only [Fin.mk.injEq]
  interval_cases m <;> interval_cases n <;> simp [examplePyr3]

theorem C8_pyramid_fwd_bwd_round_trip_witness :
    (examplePyr3.BwdTrans (fun m => (m : ℚ) + 1) (fun _ => 0)).isOk = true
      ∧ ∀ f, examplePyr3.BwdTrans (fun m => (m : ℚ) + 1) (fun _ => 0) = .ok f →
        ∀ out1 m, m < examplePyr3.m_ncoeffs → examplePyr3.FwdTrans f out1 m = (m : ℚ) + 1 :=
  ⟨(C8_pyramid_fwd_bwd_round_trip examplePyr3 examplePyr3_inverse
      (fun m => (m : ℚ) + 1) (fun _ => 0)).1,
   fun f hf => ((C8_pyramid_fwd_bwd_round_trip examplePyr3 examplePyr3_inverse
      (fun m => (m : ℚ) + 1) (fun _ => 0)).2 f hf).2.2.1⟩

end PyrExample2

section PyrIntegralClaim

variable {K : Type} [Field K]

theorem StdPyrExp.wz_hat_radau (E : StdPyrExp K)
    (h : E.GetPointsType 2 = .eGaussRadauMAlpha2Beta0) (k : ℕ) (hk : k < E.NumPoints 2) :
    E.wz_hat k = E.W 2 k / 4 := by
  unfold StdPyrExp.wz_hat
  rw [h]
  simp only [hk, if_true]
  ring

theorem StdPyrExp.wz_hat_legendre (E : StdPyrExp K)
    (h : E.GetPointsType 2 = .eGaussLobattoLegendre
      ∨ E.GetPointsType 2 = .eGaussRadauMLegendre) (k : ℕ) (hk : k < E.NumPoints 2) :
    E.wz_hat k = (1 - E.Z 2 k) ^ 2 * E.W 2 k / 4 := by
  unfold StdPyrExp.wz_hat
  rcases h with h | h <;> rw [h] <;> simp only [hk, if_true] <;> ring

theorem StdPyrExp.wz_hat_other (E : StdPyrExp K) (c : ℕ)
    (h : E.GetPointsType 2 = .other c) (k : ℕ) : E.wz_hat k = 0 := by
  unfold StdPyrExp.wz_hat
  rw [h]

/-- C11: `StdPyrExp::Integral(f)` equals the sum over all `i < Qx`, `j < Qy`, `k < Qz`
of `f[i + Qx*(j + Qy*k)] * wx[i] * wy[j] * what[k]`, where `what[k] = wz[k]/4` when the
third direction uses Gauss-Radau Jacobi(2,0) points and
`what[k] = (1 - z[k])^2 * wz[k] / 4` when it uses Gauss-Lobatto-Legendre or
Gauss-Radau-Legendre points. -/
theorem C11_pyramid_integral_weighted_sum (E : StdPyrExp K) (f : ℕ → K)
    (hpt : E.GetPointsType 2 = .eGaussRadauMAlpha2Beta0
      ∨ E.GetPointsType 2 = .eGaussLobattoLegendre
      ∨ E.GetPointsType 2 = .eGaussRadauMLegendre) :
    E.Integral f
      = ∑ i in Finset.range (E.NumPoints 0), ∑ j in Finset.range (E.NumPoints 1),
          ∑ k in Finset.range (E.NumPoints 2),
            f (i + E.NumPoints 0 * (j + E.NumPoints 1 * k)) * E.W 0 i * E.W 1 j
              * (if E.GetPointsType 2 = .eGaussRadauMAlpha2Beta0 then E.W 2 k / 4
                 else (1 - E.Z 2 k) ^ 2 * E.W 2 k / 4) := by
  rw [StdPyrExp.Integral_eq]
  unfold StdPyrExp.quadSum tripleSum
  refine Finset.sum_congr rfl fun i _ => Finset.sum_congr rfl fun j _ =>
    Finset.sum_congr rfl fun k hk => ?_
  have hk1 := Finset.mem_range.mp hk
  rcases hpt with h | h
  · rw [E.wz_hat_radau h k hk1, if_pos h]
  · rw [E.wz_hat_legendre h k hk1, if_neg]
    rcases h with h | h <;> rw [h] <;> decide

theorem C11_pyramid_integral_weighted_sum_witness :
    (examplePyr3.Integral (fun _ => 1)
      = ∑ i in Finset.range (examplePyr3.NumPoints 0),
          ∑ j in Finset.range (examplePyr3.NumPoints 1),
          ∑ k in Finset.range (examplePyr3.NumPoints 2),
            1 * examplePyr3.W 0 i * examplePyr3.W 1 j
              * (if examplePyr3.GetPointsType 2 = .eGaussRadauMAlpha2Beta0
                 then examplePyr3.W 2 k / 4
                 else (1 - examplePyr3.Z 2 k) ^ 2 * examplePyr3.W 2 k / 4))
    ∧ (examplePyrGLL.Integral (fun _ => 1)
      = ∑ i in Finset.range (examplePyrGLL.NumPoints 0),
          ∑ j in Finset.range (examplePyrGLL.NumPoints 1),
          ∑ k in Finset.range (examplePyrGLL.NumPoints 2),
            1 * examplePyrGLL.W 0 i * examplePyrGLL.W 1 j
              * (if examplePyrGLL.GetPointsType 2 = .eGaussRadauMAlpha2Beta0
                 then examplePyrGLL.W 2 k / 4
                 else (1 - examplePyrGLL.Z 2 k) ^ 2 * examplePyrGLL.W 2 k / 4)) :=
  ⟨C11_pyramid_integral_weighted_sum examplePyr3 (fun _ => 1) (Or.inl rfl),
    C11_pyramid_integral_weighted_sum examplePyrGLL (fun _ => 1) (Or.inr (Or.inl rfl))⟩

theorem StdPyrExp.Integral_other_points (E : StdPyrExp K) (f : ℕ → K) (c : ℕ)
    (h : E.GetPointsType 2 = .other c) : E.Integral f = 0 := by
  rw [StdPyrExp.Integral_eq]
  unfold StdPyrExp.quadSum tripleSum
  refine Finset.sum_eq_zero fun i _ => Finset.sum_eq_zero fun j _ =>
    Finset.sum_eq_zero fun k _ => ?_
  rw [E.wz_hat_other c h k, mul_zero]

theorem examplePyr3_integral_one : examplePyr3.Integral (fun _ => 1) = 4 := by
  rw [StdPyrExp.Integral_eq]
  unfold StdPyrExp.quadSum tripleSum
  rw [show examplePyr3.NumPoints 0 = 1 from rfl, show examplePyr3.NumPoints 1 = 2 from rfl,
    show examplePyr3.NumPoints 2 = 2 from rfl]
  simp only [Finset.sum_range_succ, Finset.sum_range_zero]
  simp [StdPyrExp.wz_hat, examplePyr3]
  norm_num

/-- C12: called with a third-direction point type other than Gauss-Radau Jacobi(2,0),
Gauss-Lobatto-Legendre or Gauss-Radau-Legendre, `StdPyrExp::Integral` raises nothing:
the `switch` has no case for it, `wz_hat` keeps its initial zeros and the routine
returns `0`.  On the grid of `examplePyr3` the function `1` integrates to `4` with the
Gauss-Radau Jacobi(2,0) type and to `0` with another type. -/
theorem C12_integral_unsupported_points_returns_zero :
    examplePyrOther.GetPointsType 2 = .other 0
    ∧ examplePyrOther.Integral (fun _ => 1) = 0
    ∧ examplePyr3.Integral (fun _ => 1) = 4 :=
  ⟨rfl, StdPyrExp.Integral_other_points examplePyrOther _ 0 rfl, examplePyr3_integral_one⟩

end PyrIntegralClaim

section GetCoord

variable {K : Type} [LinearOrderedField K]

theorem TetExp.GetCoord_fails (m_geom : Geometry K) (Lcoords coords : ℕ → K) :
    TetExp.GetCoord m_geom Lcoords coords
      = .error "Local coordinates are not in region [-1,1]" := by
  have h : ¬ (Lcoords 0 ≤ -1 ∧ Lcoords 0 ≥ 1 ∧ Lcoords 1 ≤ -1 ∧ Lcoords 1 ≥ 1 ∧
      Lcoords 2 ≤ -1 ∧ Lcoords 2 ≥ 1) := by
    rintro ⟨h1, h2, -⟩
    linarith
  unfold TetExp.GetCoord ASSERTL
  rw [decide_eq_false h]
  rfl

theorem TriExp.GetCoord_isOk_iff (m_geom : Geometry K) (Lcoords coords : ℕ → K) :
    (TriExp.GetCoord m_geom Lcoords coords).isOk = true
      ↔ (-1 ≤ Lcoords 0 ∧ -1 ≤ Lcoords 1 ∧ Lcoords 1 ≤ 1) := by
  unfold TriExp.GetCoord ASSERTL
  by_cases h : (Lcoords 0 ≥ -1 ∧ Lcoords 1 ≤ 1 ∧ Lcoords 1 ≥ -1 ∧ Lcoords 1 ≤ 1)
  · rw [decide_eq_true h]
    exact ⟨fun _ => ⟨h.1, h.2.2.1, h.2.1⟩, fun _ => rfl⟩
  · rw [decide_eq_false h]
    constructor
    · intro hc
      simp [bind, Except.bind, throw, throwThe, MonadExceptOf.throw, Except.isOk,
        Except.toBool] at hc
    · rintro ⟨h1, h2, h3⟩
      exact absurd ⟨h1, h3, h2, h3⟩ h

/-- C13: the bounds checks of `GetCoord` do not test "every local coordinate lies in
`[-1, 1]`".  `TetExp::v_GetCoord` asks for `Lcoords[k] <= -1 && Lcoords[k] >= 1` and so
raises 'Local coordinates are not in region [-1,1]' at the point `(-1/2, -1/2, -1/2)` of
the reference region; `TriExp::v_GetCoord` never compares `Lcoords[0]` with `1` and so
accepts the point `(2, 0)`. -/
theorem C13_getcoord_bounds_check_is_wrong :
    TetExp.GetCoord exampleGeometry (fun _ => -1 / 2) (fun _ => 0)
      = .error "Local coordinates are not in region [-1,1]"
    ∧ (TriExp.GetCoord exampleGeometry (fun i => if i = 0 then 2 else 0) (fun _ => 0)).isOk
      = true :=
  ⟨TetExp.GetCoord_fails _ _ _,
    (TriExp.GetCoord_isOk_iff _ _ _).mpr (by norm_num)⟩

end GetCoord

section PyrEvaluate

variable {K : Type} [LinearOrderedField K]

theorem kEvaluateTol_pos : (0 : K) < kEvaluateTol := by
  unfold kEvaluateTol
  positivity

theorem one_sub_ne_zero_of_far (x : K) (h : ¬ |x - 1| < kEvaluateTol) : 1 - x ≠ 0 := by
  intro h0
  apply h
  have : x - 1 = 0 := by linarith
  rw [this, abs_zero]
  exact kEvaluateTol_pos

/-- C14: `StdPyrExp::PhysEvaluate` never divides by zero.  For every point `xi`, if
`|xi[2] - 1| < 1e-12` the collapsed coordinates are set to `(-1, -1, xi[2])` and no
division is performed; otherwise the two divisions performed have the divisor
`1 - xi[2]`, which is not zero, and give `eta[0]`, `eta[1]`. -/
theorem C14_physevaluate_never_divides_by_zero (PhysEvaluate3D : (ℕ → K) → K)
    (xi eta : ℕ → K) :
    (0 : K) ∉ (StdPyrExp.PhysEvaluate_eta xi eta).2
    ∧ (if |xi 2 - 1| < (1 : K) / 1000000000000 then
        (StdPyrExp.PhysEvaluate_eta xi eta).2 = []
        ∧ (StdPyrExp.PhysEvaluate_eta xi eta).1 0 = -1
        ∧ (StdPyrExp.PhysEvaluate_eta xi eta).1 1 = -1
        ∧ (StdPyrExp.PhysEvaluate_eta xi eta).1 2 = xi 2
      else
        (StdPyrExp.PhysEvaluate_eta xi eta).2 = [1 - xi 2, 1 - xi 2]
        ∧ 1 - xi 2 ≠ 0
        ∧ (StdPyrExp.PhysEvaluate_eta xi eta).1 0 = 2 * (1 + xi 0) / (1 - xi 2) - 1
        ∧ (StdPyrExp.PhysEvaluate_eta xi eta).1 1 = 2 * (1 + xi 1) / (1 - xi 2) - 1
        ∧ (StdPyrExp.PhysEvaluate_eta xi eta).1 2 = xi 2)
    ∧ StdPyrExp.PhysEvaluate PhysEvaluate3D xi eta
        = PhysEvaluate3D (StdPyrExp.PhysEvaluate_eta xi eta).1 := by
  refine ⟨?_, ?_, rfl⟩
  · by_cases h : |xi 2 - 1| < (kEvaluateTol : K)
    · unfold StdPyrExp.PhysEvaluate_eta
      rw [if_pos h]
      simp
    · have hne := one_sub_ne_zero_of_far (xi 2) h
      unfold StdPyrExp.PhysEvaluate_eta
      rw [if_neg h]
      simp only [divRecord, List.nil_append, List.cons_append, List.mem_cons,
        List.not_mem_nil, or_false, or_self]
      exact fun h0 => hne h0.symm
  · by_cases h : |xi 2 - 1| < (kEvaluateTol : K)
    · have h1 : |xi 2 - 1| < (1 : K) / 1000000000000 := h
      rw [if_pos h1]
      unfold StdPyrExp.PhysEvaluate_eta
      rw [if_pos h]
      refine ⟨rfl, ?_, ?_, ?_⟩ <;> simp [set1]
    · have hne := one_sub_ne_zero_of_far (xi 2) h
      have h1 : ¬ |xi 2 - 1| < (1 : K) / 1000000000000 := h
      rw [if_neg h1]
      unfold StdPyrExp.PhysEvaluate_eta
      rw [if_neg h]
      refine ⟨rfl, hne, ?_, ?_, ?_⟩ <;> simp [set1, divRecord]

end PyrEvaluate

section PyrDeriv

variable {K : Type} [Field K]

theorem forLoop_split {σ : Type} (lo mid hi : ℕ) (body : ℕ → σ → σ) (s : σ)
    (h1 : lo ≤ mid) (h2 : mid ≤ hi) :
    forLoop lo hi body s = forLoop mid hi body (forLoop lo mid body s) := by
  induction hi, h2 using Nat.le_induction with
  | base => rw [forLoop_empty mid mid _ _ (le_refl _)]
  | succ n hn ih =>
    rw [forLoop_succ _ _ _ _ (le_trans h1 hn), forLoop_succ _ _ _ _ hn, ih]

theorem forLoop_shift {σ : Type} (lo n : ℕ) (body : ℕ → σ → σ) (s : σ) :
    forLoop lo (lo + n) body s = forLoop 0 n (fun i s => body (lo + i) s) s := by
  induction n with
  | zero => rw [forLoop_empty _ _ _ _ (le_of_eq (Nat.add_zero lo)),
      forLoop_empty _ _ _ _ (le_refl _)]
  | succ n ih =>
    rw [← Nat.add_assoc, forLoop_succ _ _ _ _ (Nat.le_add_right lo n),
      forLoop_succ _ _ _ _ (Nat.zero_le n), ih]

theorem nestedLoop_flat {σ : Type} (Q N : ℕ) (body : ℕ → ℕ → σ → σ) (s : σ) :
    forLoop 0 N (fun j s => forLoop 0 Q (fun i s => body i j s) s) s
      = forLoop 0 (Q * N) (fun n s => body (n % Q) (n / Q) s) s := by
  induction N with
  | zero => rw [forLoop_empty _ _ _ _ (le_refl _), forLoop_empty _ _ _ _ (by simp)]
  | succ N ih =>
    rw [forLoop_succ _ _ _ _ (Nat.zero_le N), ih, Nat.mul_succ,
      forLoop_split 0 (Q * N) (Q * N + Q) _ _ (Nat.zero_le _) (Nat.le_add_right _ _),
      forLoop_shift]
    apply forLoop_congr
    intro i t _ hi
    have hQ : 0 < Q := by omega
    rw [Nat.mul_add_mod, Nat.mod_eq_of_lt hi, Nat.mul_add_div hQ, Nat.div_eq_of_lt hi,
      Nat.add_zero]

theorem tripleLoop_flat {σ : Type} (Qx Qy Qz : ℕ) (body : ℕ → ℕ → ℕ → σ → σ) (s : σ) :
    forLoop 0 Qz (fun k s =>
        forLoop 0 Qy (fun j s => forLoop 0 Qx (fun i s => body i j k s) s) s) s
      = forLoop 0 (Qx * Qy * Qz)
          (fun n s => body (n % Qx) (n / Qx % Qy) (n / Qx / Qy) s) s := by
  have h : ∀ k, (fun s => forLoop 0 Qy (fun j s => forLoop 0 Qx (fun i s => body i j k s) s) s)
      = fun s => forLoop 0 (Qx * Qy) (fun m s => body (m % Qx) (m / Qx) k s) s := by
    intro k
    funext s
    exact nestedLoop_flat Qx Qy (fun i j s => body i j k s) s
  simp only [h]
  rw [nestedLoop_flat (Qx * Qy) Qz (fun m k s => body (m % Qx) (m / Qx) k s) s]
  apply forLoop_congr
  intro n t _ _
  rw [Nat.mod_mul_right_mod, Nat.mod_mul_right_div_self, Nat.div_div_eq_div_mul]

theorem StdPyrExp.PhysDeriv_flat (E : StdPyrExp K) (D1 D2 D3 : ℕ → K) (N : ℕ)
    (s0 : PhysDerivState K) (h0 : s0.n = 0) :
    (forLoop 0 N (fun n s => E.PhysDeriv_body D1 D2 D3 (n % E.NumPoints 0)
        (n / E.NumPoints 0 % E.NumPoints 1) (n / E.NumPoints 0 / E.NumPoints 1) s) s0).n = N
    ∧ (∀ c, (forLoop 0 N (fun n s => E.PhysDeriv_body D1 D2 D3 (n % E.NumPoints 0)
        (n / E.NumPoints 0 % E.NumPoints 1) (n / E.NumPoints 0 / E.NumPoints 1) s)
          s0).out_dxi1 c
        = if c < N then 2 / (1 - E.Z 2 (c / E.NumPoints 0 / E.NumPoints 1)) * D1 c
          else s0.out_dxi1 c)
    ∧ (∀ c, (forLoop 0 N (fun n s => E.PhysDeriv_body D1 D2 D3 (n % E.NumPoints 0)
        (n / E.NumPoints 0 % E.NumPoints 1) (n / E.NumPoints 0 / E.NumPoints 1) s)
          s0).out_dxi2 c
        = if c < N then 2 / (1 - E.Z 2 (c / E.NumPoints 0 / E.NumPoints 1)) * D2 c
          else s0.out_dxi2 c)
    ∧ (∀ c, (forLoop 0 N (fun n s => E.PhysDeriv_body D1 D2 D3 (n % E.NumPoints 0)
        (n / E.NumPoints 0 % E.NumPoints 1) (n / E.NumPoints 0 / E.NumPoints 1) s)
          s0).out_dxi3 c
        = if c < N then
            (1 + E.Z 0 (c % E.NumPoints 0))
                / (1 - E.Z 2 (c / E.NumPoints 0 / E.NumPoints 1)) * D1 c
              + (1 + E.Z 1 (c / E.NumPoints 0 % E.NumPoints 1))
                / (1 - E.Z 2 (c / E.NumPoints 0 / E.NumPoints 1)) * D2 c
              + D3 c
          else s0.out_dxi3 c)
    ∧ (∀ m, m < N → (1 - E.Z 2 (m / E.NumPoints 0 / E.NumPoints 1)) ∈
        (forLoop 0 N (fun n s => E.PhysDeriv_body D1 D2 D3 (n % E.NumPoints 0)
          (n / E.NumPoints 0 % E.NumPoints 1) (n / E.NumPoints 0 / E.NumPoints 1) s)
            s0).divisors) := by
  induction N with
  | zero =>
    rw [forLoop_empty _ _ _ _ (le_refl _)]
    refine ⟨h0, ?_, ?_, ?_, ?_⟩ <;> intros <;> simp_all
  | succ N ih =>
    rw [forLoop_succ _ _ _ _ (Nat.zero_le N)]
    obtain ⟨hn, h1, h2, h3, h4⟩ := ih
    generalize forLoop 0 N _ s0 = R at hn h1 h2 h3 h4
    unfold StdPyrExp.PhysDeriv_body divRecord
    simp only [hn]
    refine ⟨trivial, ?_, ?_, ?_, ?_⟩
    · intro c
      rcases Nat.lt_trichotomy c N with h | h | h
      · rw [set1_ne _ _ _ _ (Nat.ne_of_lt h), h1, if_pos h, if_pos (Nat.lt_succ_of_lt h)]
      · rw [h, set1_same, if_pos (Nat.lt_succ_self N)]
      · rw [set1_ne _ _ _ _ (Nat.ne_of_gt h), h1, if_neg (by omega), if_neg (by omega)]
    · intro c
      rcases Nat.lt_trichotomy c N with h | h | h
      · rw [set1_ne _ _ _ _ (Nat.ne_of_lt h), h2, if_pos h, if_pos (Nat.lt_succ_of_lt h)]
      · rw [h, set1_same, if_pos (Nat.lt_succ_self N)]
      · rw [set1_ne _ _ _ _ (Nat.ne_of_gt h), h2, if_neg (by omega), if_neg (by omega)]
    · intro c
      rcases Nat.lt_trichotomy c N with h | h | h
      · rw [set1_ne _ _ _ _ (Nat.ne_of_lt h), h3, if_pos h, if_pos (Nat.lt_succ_of_lt h)]
      · rw [h, set1_same, if_pos (Nat.lt_succ_self N)]
      · rw [set1_ne _ _ _ _ (Nat.ne_of_gt h), h3, if_neg (by omega), if_neg (by omega)]
    · intro m hm
      rcases Nat.lt_or_ge m N with h | h
      · simp only [List.mem_append]
        exact Or.inl (Or.inl (Or.inl (Or.inl (h4 m h))))
      · have : m = N := by omega
        rw [this]
        simp

theorem StdPyrExp.PhysDeriv_eq_flat (E : StdPyrExp K)
    (PhysTensorDeriv : (ℕ → K) → ℕ → ℕ → K) (u o1 o2 o3 : ℕ → K) :
    E.PhysDeriv PhysTensorDeriv u o1 o2 o3
      = forLoop 0 (E.NumPoints 0 * E.NumPoints 1 * E.NumPoints 2)
          (fun n s => E.PhysDeriv_body (PhysTensorDeriv u 0) (PhysTensorDeriv u 1)
            (PhysTensorDeriv u 2) (n % E.NumPoints 0)
            (n / E.NumPoints 0 % E.NumPoints 1) (n / E.NumPoints 0 / E.NumPoints 1) s)
          ⟨o1, o2, o3, 0, []⟩ := by
  unfold StdPyrExp.PhysDeriv
  exact tripleLoop_flat _ _ _ _ _

theorem idx3_lt (Qx Qy Qz i j k : ℕ) (hi : i < Qx) (hj : j < Qy) (hk : k < Qz) :
    i + Qx * (j + Qy * k) < Qx * Qy * Qz := by
  have h1 : j + Qy * k + 1 ≤ Qy * Qz := by
    calc j + Qy * k + 1 ≤ Qy + Qy * k := by omega
      _ = Qy * (k + 1) := by ring
      _ ≤ Qy * Qz := Nat.mul_le_mul_left _ hk
  calc i + Qx * (j + Qy * k) < Qx + Qx * (j + Qy * k) := by omega
    _ = Qx * (j + Qy * k + 1) := by ring
    _ ≤ Qx * (Qy * Qz) := Nat.mul_le_mul_left _ h1
    _ = Qx * Qy * Qz := by ring

/-- C20: `StdPyrExp::PhysDeriv` maps the tensor-product derivatives
`(dEta1, dEta2, dEta3)` to Cartesian reference derivatives: for every point
`n = i + Qx*(j + Qy*k)` with `eta_z[k] != 1`,
`out_dxi1[n] = 2/(1 - eta_z[k]) * dEta1[n]`, `out_dxi2[n] = 2/(1 - eta_z[k]) * dEta2[n]`
and `out_dxi3[n] = (1 + eta_x[i])/(1 - eta_z[k]) * dEta1[n]
  + (1 + eta_y[j])/(1 - eta_z[k]) * dEta2[n] + dEta3[n]`. -/
theorem C20_pyramid_physderiv_chain_rule (E : StdPyrExp K)
    (PhysTensorDeriv : (ℕ → K) → ℕ → ℕ → K) (u o1 o2 o3 : ℕ → K) (i j k : ℕ)
    (hi : i < E.NumPoints 0) (hj : j < E.NumPoints 1) (hk : k < E.NumPoints 2)
    (hz : E.Z 2 k ≠ 1) :
    1 - E.Z 2 k ≠ 0
    ∧ (E.PhysDeriv PhysTensorDeriv u o1 o2 o3).out_dxi1
          (i + E.NumPoints 0 * (j + E.NumPoints 1 * k))
        = 2 / (1 - E.Z 2 k)
          * PhysTensorDeriv u 0 (i + E.NumPoints 0 * (j + E.NumPoints 1 * k))
    ∧ (E.PhysDeriv PhysTensorDeriv u o1 o2 o3).out_dxi2
          (i + E.NumPoints 0 * (j + E.NumPoints 1 * k))
        = 2 / (1 - E.Z 2 k)
          * PhysTensorDeriv u 1 (i + E.NumPoints 0 * (j + E.NumPoints 1 * k))
    ∧ (E.PhysDeriv PhysTensorDeriv u o1 o2 o3).out_dxi3
          (i + E.NumPoints 0 * (j + E.NumPoints 1 * k))
        = (1 + E.Z 0 i) / (1 - E.Z 2 k)
            * PhysTensorDeriv u 0 (i + E.NumPoints 0 * (j + E.NumPoints 1 * k))
          + (1 + E.Z 1 j) / (1 - E.Z 2 k)
            * PhysTensorDeriv u 1 (i + E.NumPoints 0 * (j + E.NumPoints 1 * k))
          + PhysTensorDeriv u 2 (i + E.NumPoints 0 * (j + E.NumPoints 1 * k)) := by
  obtain ⟨-, h1, h2, h3, -⟩ := E.PhysDeriv_flat (PhysTensorDeriv u 0) (PhysTensorDeriv u 1)
    (PhysTensorDeriv u 2) (E.NumPoints 0 * E.NumPoints 1 * E.NumPoints 2)
    ⟨o1, o2, o3, 0, []⟩ rfl
  obtain ⟨d1, d2, d3⟩ := decode_idx3 (E.NumPoints 0) (E.NumPoints 1) i j k hi hj
  have hlt := idx3_lt _ _ _ i j k hi hj hk
  rw [E.PhysDeriv_eq_flat, h1, h2, h3]
  simp only [if_pos hlt, d1, d2, d3]
  exact ⟨fun h => hz (by linear_combination -h), trivial, trivial, trivial⟩

theorem C20_pyramid_physderiv_chain_rule_witness :
    1 - examplePyr3.Z 2 1 ≠ 0
    ∧ (examplePyr3.PhysDeriv (fun u _ => u) (fun n => (n : ℚ)) (fun _ => 0) (fun _ => 0)
          (fun _ => 0)).out_dxi1 (0 + examplePyr3.NumPoints 0 * (1 + examplePyr3.NumPoints 1 * 1))
        = 2 / (1 - examplePyr3.Z 2 1)
          * ((0 + examplePyr3.NumPoints 0 * (1 + examplePyr3.NumPoints 1 * 1) : ℕ) : ℚ) :=
  ⟨(C20_pyramid_physderiv_chain_rule examplePyr3 (fun u _ => u) (fun n => (n : ℚ))
      (fun _ => 0) (fun _ => 0) (fun _ => 0) 0 1 1 (by decide) (by decide) (by decide)
      (by decide)).1,
    (C20_pyramid_physderiv_chain_rule examplePyr3 (fun u _ => u) (fun n => (n : ℚ))
      (fun _ => 0) (fun _ => 0) (fun _ => 0) 0 1 1 (by decide) (by decide) (by decide)
      (by decide)).2.1⟩

theorem StdPyrExp.PhysDeriv_divides_by_zero (E : StdPyrExp K)
    (PhysTensorDeriv : (ℕ → K) → ℕ → ℕ → K) (u o1 o2 o3 : ℕ → K) (k : ℕ)
    (hx : 0 < E.NumPoints 0) (hy : 0 < E.NumPoints 1) (hk : k < E.NumPoints 2)
    (hz : E.Z 2 k = 1) :
    (0 : K) ∈ (E.PhysDeriv PhysTensorDeriv u o1 o2 o3).divisors := by
  obtain ⟨-, -, -, -, h4⟩ := E.PhysDeriv_flat (PhysTensorDeriv u 0) (PhysTensorDeriv u 1)
    (PhysTensorDeriv u 2) (E.NumPoints 0 * E.NumPoints 1 * E.NumPoints 2)
    ⟨o1, o2, o3, 0, []⟩ rfl
  obtain ⟨-, -, d3⟩ := decode_idx3 (E.NumPoints 0) (E.NumPoints 1) 0 0 k hx hy
  have hlt := idx3_lt _ _ _ 0 0 k hx hy hk
  have := h4 _ hlt
  rw [d3, hz, sub_self] at this
  rw [E.PhysDeriv_eq_flat]
  exact this

/-- C15: `StdPyrExp::PhysDeriv` does not special-case the collapsed apex.  On a grid
whose third direction has the Gauss-Lobatto-Legendre nodes `-1, 1`, which
`StdPyrExp::Integral` supports, the loop divides by `1 - eta_z[1] = 0`. -/
theorem C15_physderiv_divides_by_zero_at_apex :
    examplePyrGLL.GetPointsType 2 = .eGaussLobattoLegendre
    ∧ examplePyrGLL.Z 2 1 = 1
    ∧ (0 : ℚ) ∈ (examplePyrGLL.PhysDeriv (fun u _ => u) (fun _ => 1) (fun _ => 0)
        (fun _ => 0) (fun _ => 0)).divisors :=
  ⟨rfl, rfl, StdPyrExp.PhysDeriv_divides_by_zero examplePyrGLL _ _ _ _ _ 1 (by decide)
    (by decide) (by decide) rfl⟩

end PyrDeriv

section MatrixManager

variable {K : Type} [DecidableEq K]

theorem NekManager.get_twice {V : Type} (creator : MatrixKey K → Except String V)
    (mgr mgr1 : NekManager K V) (key : MatrixKey K) (v : V)
    (h : mgr.get creator key = .ok (v, mgr1)) :
    mgr1.get creator key = .ok (v, mgr1)
    ∧ mgr1.constructed.count key ≤ mgr.constructed.count key + 1
    ∧ (mgr.m_values.lookup key = none →
        creator key = .ok v ∧ mgr1.constructed = mgr.constructed ++ [key])
    ∧ (mgr.m_values.lookup key ≠ none → mgr1 = mgr) := by
  unfold NekManager.get at h
  cases hl : mgr.m_values.lookup key with
  | some w =>
    rw [hl] at h
    simp only [pure, Except.pure, Except.ok.injEq, Prod.mk.injEq] at h
    obtain ⟨hv, hm⟩ := h
    subst hv hm
    refine ⟨?_, Nat.le_succ _, fun h0 => absurd h0 (by simp), fun _ => rfl⟩
    unfold NekManager.get
    rw [hl]
    rfl
  | none =>
    rw [hl] at h
    cases hc : creator key with
    | error e =>
      rw [hc] at h
      simp [bind, Except.bind] at h
    | ok w =>
      rw [hc] at h
      simp only [bind, Except.bind, pure, Except.pure, Except.ok.injEq, Prod.mk.injEq] at h
      obtain ⟨hv, hm⟩ := h
      subst hv hm
      refine ⟨?_, ?_, fun _ => ⟨rfl, rfl⟩, fun h0 => absurd rfl h0⟩
      · unfold NekManager.get
        simp [List.lookup]
        rfl
      · simp

end MatrixManager

section MatrixCache

variable {K : Type} [Field K] [DecidableEq K]

/-- C16: for `TetExp` and `TriExp`, two successive `GetLocMatrix` calls with the same
matrix key on the same element return the same matrix, and `CreateMatrix` is invoked
at most once for that key: the second call leaves the manager as it is, so it
constructs nothing, and the first call constructs once when the key is not yet stored
and not at all when it is. -/
theorem C16_getlocmatrix_is_memoized (X : LocalExp K) (mkey : MatrixKey K)
    (mgr mgr1 : NekManager K (DNekScalMat K)) (M : DNekScalMat K) :
    (TetExp.v_GetLocMatrix X mgr mkey = .ok (M, mgr1) →
      TetExp.v_GetLocMatrix X mgr1 mkey = .ok (M, mgr1)
      ∧ mgr1.constructed.count mkey ≤ mgr.constructed.count mkey + 1
      ∧ (mgr.m_values.lookup mkey = none →
          TetExp.CreateMatrix X mkey = .ok M ∧ mgr1.constructed = mgr.constructed ++ [mkey])
      ∧ (mgr.m_values.lookup mkey ≠ none → mgr1 = mgr))
    ∧ (TriExp.v_GetLocMatrix X mgr mkey = .ok (M, mgr1) →
      TriExp.v_GetLocMatrix X mgr1 mkey = .ok (M, mgr1)
      ∧ mgr1.constructed.count mkey ≤ mgr.constructed.count mkey + 1
      ∧ (mgr.m_values.lookup mkey = none →
          TriExp.CreateMatrix X mkey = .ok M ∧ mgr1.constructed = mgr.constructed ++ [mkey])
      ∧ (mgr.m_values.lookup mkey ≠ none → mgr1 = mgr)) :=
  ⟨fun h => NekManager.get_twice _ mgr mgr1 mkey M h,
    fun h => NekManager.get_twice _ mgr mgr1 mkey M h⟩

theorem exampleDeformed_tet_first_call :
    TetExp.v_GetLocMatrix exampleDeformed ⟨[], []⟩ exampleMassKey
      = .ok (exampleMassMat, ⟨[(exampleMassKey, exampleMassMat)], [exampleMassKey]⟩) := by
  have h := exampleDeformed_tet_mass
  unfold TetExp.GetLocMatrix at h
  unfold TetExp.v_GetLocMatrix NekManager.get
  rw [h]
  rfl

theorem exampleDeformed_tri_first_call :
    TriExp.v_GetLocMatrix exampleDeformed ⟨[], []⟩ exampleMassKey
      = .ok (exampleMassMat, ⟨[(exampleMassKey, exampleMassMat)], [exampleMassKey]⟩) := by
  have h := exampleDeformed_tri_mass
  unfold TriExp.GetLocMatrix at h
  unfold TriExp.v_GetLocMatrix NekManager.get
  rw [h]
  rfl

theorem C16_getlocmatrix_is_memoized_witness :
    (TetExp.v_GetLocMatrix exampleDeformed ⟨[], []⟩ exampleMassKey
        = .ok (exampleMassMat, ⟨[(exampleMassKey, exampleMassMat)], [exampleMassKey]⟩)
      ∧ TetExp.v_GetLocMatrix exampleDeformed
          ⟨[(exampleMassKey, exampleMassMat)], [exampleMassKey]⟩ exampleMassKey
        = .ok (exampleMassMat, ⟨[(exampleMassKey, exampleMassMat)], [exampleMassKey]⟩))
    ∧ (TriExp.v_GetLocMatrix exampleDeformed ⟨[], []⟩ exampleMassKey
        = .ok (exampleMassMat, ⟨[(exampleMassKey, exampleMassMat)], [exampleMassKey]⟩)
      ∧ TriExp.v_GetLocMatrix exampleDeformed
          ⟨[(exampleMassKey, exampleMassMat)], [exampleMassKey]⟩ exampleMassKey
        = .ok (exampleMassMat, ⟨[(exampleMassKey, exampleMassMat)], [exampleMassKey]⟩)) :=
  ⟨⟨exampleDeformed_tet_first_call,
      ((C16_getlocmatrix_is_memoized exampleDeformed exampleMassKey ⟨[], []⟩
        ⟨[(exampleMassKey, exampleMassMat)], [exampleMassKey]⟩ exampleMassMat).1
          exampleDeformed_tet_first_call).1⟩,
    ⟨exampleDeformed_tri_first_call,
      ((C16_getlocmatrix_is_memoized exampleDeformed exampleMassKey ⟨[], []⟩
        ⟨[(exampleMassKey, exampleMassMat)], [exampleMassKey]⟩ exampleMassMat).2
          exampleDeformed_tri_first_call).1⟩⟩

end MatrixCache

section LaplacianMetric

variable {K : Type} [Field K]

theorem TetExp.ComputeLaplacianMetric_fst (X : LocalExp3D K) (fresh : MetricType → ℕ → K)
    (m_metrics : MetricType → Option (ℕ → K)) :
    (TetExp.ComputeLaplacianMetric X fresh m_metrics).1
      = fun t =>
          if t = .MetricQuadrature then some (X.quadMetric m_metrics)
          else some (Vmath.Vmul X.TotPoints (X.quadMetric m_metrics) (fresh t) (fresh t)) := by
  funext t
  unfold TetExp.ComputeLaplacianMetric LocalExp3D.quadMetric
  cases hq : m_metrics .MetricQuadrature <;> cases t <;>
    simp [laplacianKeys3, setMetric, LocalExp3D.MultiplyByQuadratureMetric,
      LocalExp3D.ComputeQuadratureMetric, hq]

theorem TetExp.LaplacianMetric_regular_g2 (X : LocalExp3D K) (n : ℕ) (hn : n < X.TotPoints) :
    (TetExp.LaplacianMetric_regular X).g2 n
      = X.DerivFactors 2 0 * X.DerivFactors 2 0 + X.DerivFactors 5 0 * X.DerivFactors 5 0
        + X.DerivFactors 8 0 * X.DerivFactors 8 0 := by
  unfold TetExp.LaplacianMetric_regular Vmath.Fill
  simp [hn]

/-- C18: `TetExp::ComputeLaplacianMetric` does not store the terms `g0 .. g5` in
`m_metrics`: it computes them on the temporary storage `alloc`, and what ends up under
each of the six keys is the freshly allocated array multiplied by the quadrature metric.
On `exampleTet 1 1` (regular, `df[8][0] = 1`, `q = 1`), with the allocation returning
zeros, `m_metrics[MetricLaplacian22][0] = 0`, while the term `g2` on `alloc` is
`df[2][0]^2 + df[5][0]^2 + df[8][0]^2 = 1`. -/
theorem C18_laplacian_metric_terms_not_stored :
    ((TetExp.ComputeLaplacianMetric (exampleTet 1 1) (fun _ _ => 0) (fun _ => none)).1
        .MetricLaplacian22).map (fun a => a 0) = some 0
    ∧ (TetExp.ComputeLaplacianMetric (exampleTet 1 1) (fun _ _ => 0) (fun _ => none)).2.g2 0
        = 1
    ∧ ((exampleTet 1 1).DerivFactors 2 0 ^ 2 + (exampleTet 1 1).DerivFactors 5 0 ^ 2
        + (exampleTet 1 1).DerivFactors 8 0 ^ 2) * (exampleTet 1 1).QuadratureMetric 0 = 1 := by
  refine ⟨?_, ?_, ?_⟩
  · rw [TetExp.ComputeLaplacianMetric_fst]
    simp [Vmath.Vmul]
  · have h : (TetExp.ComputeLaplacianMetric (exampleTet 1 1) (fun _ _ => 0)
        (fun _ => none)).2 = TetExp.LaplacianMetric_regular (exampleTet 1 1) := rfl
    rw [h, TetExp.LaplacianMetric_regular_g2 _ 0 (by decide)]
    simp [exampleTet]
  · simp [exampleTet]

end LaplacianMetric

section LaplacianKernel

variable {K : Type} [Field K]

end LaplacianKernel

section LaplacianOp

variable {K : Type} [Field K]

theorem TetExp.kernelMetrics_eq (X : LocalExp3D K) (fresh : MetricType → ℕ → K) :
    TetExp.kernelMetrics X fresh (fun _ => none)
      = fun t =>
          if t = .MetricQuadrature then some X.QuadratureMetric
          else some (Vmath.Vmul X.TotPoints X.QuadratureMetric (fresh t) (fresh t)) := by
  unfold TetExp.kernelMetrics
  rw [TetExp.ComputeLaplacianMetric_fst]
  rfl

theorem TetExp.LaplacianMatrixOp_geometry_free (X Y : LocalExp3D K)
    (fresh : MetricType → ℕ → K) (u out : ℕ → K)
    (h1 : X.NumPoints = Y.NumPoints) (h2 : X.TotPoints = Y.TotPoints)
    (h3 : X.QuadratureMetric = Y.QuadratureMetric) (h4 : X.Bdata = Y.Bdata)
    (h5 : X.Dbdata = Y.Dbdata) (h6 : X.PhysTensorDeriv = Y.PhysTensorDeriv)
    (h7 : X.IProductWRTBase_SumFacKernel = Y.IProductWRTBase_SumFacKernel)
    (h8 : X.BwdTrans_SumFacKernel = Y.BwdTrans_SumFacKernel)
    (h9 : X.m_ncoeffs = Y.m_ncoeffs) :
    TetExp.LaplacianMatrixOp X fresh (fun _ => none) u out
      = TetExp.LaplacianMatrixOp Y fresh (fun _ => none) u out := by
  have hX := TetExp.kernelMetrics_eq X fresh
  have hY := TetExp.kernelMetrics_eq Y fresh
  unfold TetExp.kernelMetrics at hX hY
  unfold TetExp.LaplacianMatrixOp TetExp.LaplacianMatrixOp_MatFree
    TetExp.LaplacianMatrixOp_MatFree_Kernel
  simp only [hX, hY, h1, h2, h3, h4, h5, h6, h7, h8, h9]

end LaplacianOp

section LaplacianClaim

variable {K : Type} [Field K]

theorem tet_CreateMatrix_eLaplacian_regular (X : LocalExp K) (mkey : MatrixKey K)
    (hg : X.Gtype ≠ .eNoGeomType) (hm : mkey.mtype = .eLaplacian)
    (hreg : ¬ (X.Gtype = .eDeformed ∨ mkey.GetNVarCoeff > 0
      ∨ mkey.ConstFactorExists .eFactorSVVCutoffRatio)) :
    TetExp.CreateMatrix X mkey
      = .ok ⟨X.Jac 0,
          X.Gmat 0 0 • X.GetStdMatrix (MatrixKey.mk3 .eLaplacian00 mkey.GetShapeType)
          + X.Gmat 4 0 • X.GetStdMatrix (MatrixKey.mk3 .eLaplacian11 mkey.GetShapeType)
          + X.Gmat 8 0 • X.GetStdMatrix (MatrixKey.mk3 .eLaplacian22 mkey.GetShapeType)
          + X.Gmat 3 0 • (X.GetStdMatrix (MatrixKey.mk3 .eLaplacian01 mkey.GetShapeType)
            + Transpose (X.GetStdMatrix (MatrixKey.mk3 .eLaplacian01 mkey.GetShapeType)))
          + X.Gmat 6 0 • (X.GetStdMatrix (MatrixKey.mk3 .eLaplacian02 mkey.GetShapeType)
            + Transpose (X.GetStdMatrix (MatrixKey.mk3 .eLaplacian02 mkey.GetShapeType)))
          + X.Gmat 7 0 • (X.GetStdMatrix (MatrixKey.mk3 .eLaplacian12 mkey.GetShapeType)
            + Transpose (X.GetStdMatrix (MatrixKey.mk3 .eLaplacian12 mkey.GetShapeType)))⟩ := by
  rw [TetExp.CreateMatrix, ASSERTL_geom_ok _ hg]
  simp only [bind, Except.bind]
  split <;> first | (exfalso; simp_all; done) | (rw [if_neg hreg]; rfl)

theorem DNekMat.smul_entry (a : K) (m : DNekMat K) (i j : ℕ) :
    (a • m).e i j = a * m.e i j := rfl

theorem DNekMat.add_entry (m n : DNekMat K) (i j : ℕ) :
    (m + n).e i j = m.e i j + n.e i j := rfl

theorem Transpose_entry {F : Type} (m : DNekMat F) (i j : ℕ) :
    (Transpose m).e i j = m.e j i := rfl

theorem exampleTet_laplacian (a b : ℚ) :
    ∃ L : DNekScalMat ℚ,
      TetExp.GetLocMatrix (exampleTet a b).toLocalExp (MatrixKey.mk3 .eLaplacian .eTetrahedron)
        = .ok L
      ∧ L.entry 0 0 = 2 * (a * a + b * b + 1) ∧ L.entry 0 1 = a * a + b * b + 1 := by
  have hg : (exampleTet a b).Gtype = .eRegular := rfl
  have h := tet_CreateMatrix_eLaplacian_regular (exampleTet a b).toLocalExp
    (MatrixKey.mk3 .eLaplacian .eTetrahedron) (by rw [hg]; decide) rfl (by rw [hg]; decide)
  unfold TetExp.GetLocMatrix
  refine ⟨_, h, ?_, ?_⟩
  · simp only [DNekScalMat.entry, DNekMat.smul_entry, DNekMat.add_entry, Transpose_entry]
    simp [exampleTet, exampleRegular]
    ring
  · simp only [DNekScalMat.entry, DNekMat.smul_entry, DNekMat.add_entry, Transpose_entry]
    simp [exampleTet, exampleRegular]

/-- C17: the matrix-free `LaplacianMatrixOp` of `TetExp` is not the product with the
explicit Laplacian matrix.  The kernel reads the six Laplacian metrics, which
`TetExp::ComputeLaplacianMetric` leaves as allocated (times the quadrature metric), so
its output is the same for the two regular elements `exampleTet 1 1` and
`exampleTet (1/2) 2`, which differ in their derivative factors only, while the explicit
matrices `GetLocMatrix(eLaplacian)` of the two differ: whatever the allocated arrays
hold, the operator disagrees with the matrix on one of the two elements. -/
theorem C17_tet_matfree_laplacian_ignores_geometry :
    ∀ fresh : MetricType → ℕ → ℚ,
      ¬ (TetExp.LaplacianOpAgrees (exampleTet 1 1) fresh
        ∧ TetExp.LaplacianOpAgrees (exampleTet (1 / 2) 2) fresh) := by
  rintro fresh ⟨hA, hB⟩
  obtain ⟨LA, hLA, a00, a01⟩ := exampleTet_laplacian 1 1
  obtain ⟨LB, hLB, b00, b01⟩ := exampleTet_laplacian (1 / 2) 2
  have eA := hA LA hLA (fun j => if j = 0 then 1 else 0) (fun _ => 0) 0 (by decide)
  have eB := hB LB hLB (fun j => if j = 0 then 1 else 0) (fun _ => 0) 0 (by decide)
  rw [TetExp.LaplacianMatrixOp_geometry_free (exampleTet 1 1) (exampleTet (1 / 2) 2) fresh
    _ _ rfl rfl rfl rfl rfl rfl rfl rfl rfl, eB] at eA
  have h2 : (exampleTet 1 1).m_ncoeffs = 2 := rfl
  have h3 : (exampleTet (1 / 2) 2).m_ncoeffs = 2 := rfl
  rw [h2, h3] at eA
  simp only [Except.ok.injEq, Finset.sum_range_succ, Finset.sum_range_zero, a00, a01, b00,
    b01] at eA
  norm_num at eA

end LaplacianClaim

section FaceNormal

variable {K : Type} [LinearOrderedField K]

theorem forLoop_setRow {α : Type} (n : ℕ) (F : ℕ → (ℕ → α) → (ℕ → α)) (a : ℕ → ℕ → α) :
    forLoop 0 n (fun i a => setRow a i (F i (a i))) a
      = fun i => if i < n then F i (a i) else a i := by
  induction n with
  | zero => rw [forLoop_empty _ _ _ _ (le_refl _)]; simp
  | succ n ih =>
    rw [forLoop_succ _ _ _ _ (Nat.zero_le n), ih]
    funext i
    unfold setRow
    by_cases h1 : i = n
    · simp [h1]
    · by_cases h2 : i < n
      · simp [h1, h2, Nat.lt_succ_of_lt h2]
      · have : ¬ i < n + 1 := by omega
        simp [h1, h2, this]

theorem TetExp.ComputeFaceNormal_regular (X : LocalExp3D K) (sqrt : K → K) (dim : ℕ)
    (deformedNormal : ℤ → Except String (ℕ → ℕ → K)) (fresh : ℕ → ℕ → K) (face : ℤ)
    (hreg : X.Gtype = .eRegular ∨ X.Gtype = .eMovingRegular)
    (hface : face = 0 ∨ face = 1 ∨ face = 2 ∨ face = 3) :
    TetExp.ComputeFaceNormal X sqrt dim deformedNormal fresh face
      = .ok (fun i => if i < dim then
          Vmath.Smul (X.NumPoints 0 * X.NumPoints 0)
            (1 / sqrt (0 + ∑ c in Finset.range dim,
              (if c < dim then
                  Vmath.Fill (X.NumPoints 0 * X.NumPoints 0) (TetExp.faceVector X face c)
                    (fresh c) 0
                else fresh c) 0
              * (if c < dim then
                  Vmath.Fill (X.NumPoints 0 * X.NumPoints 0) (TetExp.faceVector X face c)
                    (fresh c) 0
                else fresh c) 0))
            (Vmath.Fill (X.NumPoints 0 * X.NumPoints 0) (TetExp.faceVector X face i)
              (fresh i) 0)
            (Vmath.Fill (X.NumPoints 0 * X.NumPoints 0) (TetExp.faceVector X face i)
              (fresh i) 0)
        else fresh i) := by
  have key : ∀ w : ℕ → K,
      forLoop 0 dim (fun i normal =>
        setRow normal i (Vmath.Fill (X.NumPoints 0 * X.NumPoints 0) (w i) (normal i) 0)) fresh
        = fun i => if i < dim then
            Vmath.Fill (X.NumPoints 0 * X.NumPoints 0) (w i) (fresh i) 0 else fresh i :=
    fun w => forLoop_setRow dim
      (fun i row => Vmath.Fill (X.NumPoints 0 * X.NumPoints 0) (w i) row 0) fresh
  have key2 : ∀ (fac : K) (N : ℕ → ℕ → K),
      forLoop 0 dim (fun i normal =>
        setRow normal i (Vmath.Smul (X.NumPoints 0 * X.NumPoints 0) fac (normal i)
          (normal i))) N
        = fun i => if i < dim then
            Vmath.Smul (X.NumPoints 0 * X.NumPoints 0) fac (N i) (N i) else N i :=
    fun fac N => forLoop_setRow dim
      (fun _ row => Vmath.Smul (X.NumPoints 0 * X.NumPoints 0) fac row row) N
  unfold TetExp.ComputeFaceNormal
  simp only [if_pos hreg]
  rcases hface with h | h | h | h <;> subst h <;>
    simp only [bind, Except.bind, pure, Except.pure, key, key2, forLoop_sum,
      TetExp.faceVector] <;>
    congr 1 <;> funext i <;> by_cases hi : i < dim <;> simp [hi]

/-- C21: for a `TetExp` with regular (or moving-regular) geometry and a face in
`{0,1,2,3}`, `TetExp::ComputeFaceNormal` stores a normal that is constant over the `nq`
face points and of unit Euclidean length: component `i` at every point is
`v_i / sqrt(sum_c v_c^2)` with `v` the vector `TetExp.faceVector`, provided `v` is not
zero.  The library function `sqrt` enters through its value at `sum_c v_c^2`, whose
square is that sum. -/
theorem C21_regular_face_normal_is_unit (X : LocalExp3D K) (sqrt : K → K) (dim : ℕ)
    (deformedNormal : ℤ → Except String (ℕ → ℕ → K)) (fresh : ℕ → ℕ → K) (face : ℤ)
    (hreg : X.Gtype = .eRegular ∨ X.Gtype = .eMovingRegular)
    (hface : face = 0 ∨ face = 1 ∨ face = 2 ∨ face = 3)
    (hv : ∃ c, c < dim ∧ TetExp.faceVector X face c ≠ 0)
    (hsq : sqrt (∑ c in Finset.range dim, TetExp.faceVector X face c ^ 2)
        * sqrt (∑ c in Finset.range dim, TetExp.faceVector X face c ^ 2)
      = ∑ c in Finset.range dim, TetExp.faceVector X face c ^ 2) :
    (∀ n, n < X.NumPoints 0 * X.NumPoints 0 → ∀ i, i < dim →
      (TetExp.ComputeFaceNormal X sqrt dim deformedNormal fresh face).map
          (fun normal => normal i n)
        = .ok (TetExp.faceVector X face i
            / sqrt (∑ c in Finset.range dim, TetExp.faceVector X face c ^ 2)))
    ∧ ∑ i in Finset.range dim, (TetExp.faceVector X face i
        / sqrt (∑ c in Finset.range dim, TetExp.faceVector X face c ^ 2)) ^ 2 = 1 := by
  obtain ⟨c0, hc0, hvc⟩ := hv
  have hS : 0 < ∑ c in Finset.range dim, TetExp.faceVector X face c ^ 2 := by
    apply Finset.sum_pos'
    · intro c _
      exact sq_nonneg _
    · exact ⟨c0, Finset.mem_range.mpr hc0, by positivity⟩
  have hs0 : sqrt (∑ c in Finset.range dim, TetExp.faceVector X face c ^ 2) ≠ 0 := by
    intro h0
    rw [h0, mul_zero] at hsq
    exact absurd hsq.symm (ne_of_gt hS)
  constructor
  · intro n hn i hi
    have h0 : 0 < X.NumPoints 0 * X.NumPoints 0 := lt_of_le_of_lt (Nat.zero_le n) hn
    rw [TetExp.ComputeFaceNormal_regular X sqrt dim deformedNormal fresh face hreg hface]
    have hsum : (0 + ∑ c in Finset.range dim,
        (if c < dim then
            Vmath.Fill (X.NumPoints 0 * X.NumPoints 0) (TetExp.faceVector X face c)
              (fresh c) 0
          else fresh c) 0
        * (if c < dim then
            Vmath.Fill (X.NumPoints 0 * X.NumPoints 0) (TetExp.faceVector X face c)
              (fresh c) 0
          else fresh c) 0)
        = ∑ c in Finset.range dim, TetExp.faceVector X face c ^ 2 := by
      rw [zero_add]
      apply Finset.sum_congr rfl
      intro c hc
      rw [if_pos (Finset.mem_range.mp hc)]
      unfold Vmath.Fill
      simp only [zero_add, Nat.zero_le, true_and, h0, if_true]
      ring
    rw [hsum]
    show Except.ok _ = Except.ok _
    congr 1
    simp only [if_pos hi]
    unfold Vmath.Smul Vmath.Fill
    simp only [hn, zero_add, Nat.zero_le, true_and, if_true]
    field_simp
  · simp only [div_pow]
    rw [← Finset.sum_div, pow_two, hsq]
    exact div_self (ne_of_gt hS)

theorem C21_regular_face_normal_is_unit_witness :
    (∀ n, n < (exampleTet 1 1).NumPoints 0 * (exampleTet 1 1).NumPoints 0 → ∀ i, i < 3 →
      (TetExp.ComputeFaceNormal (exampleTet 1 1) (fun x => x) 3 (fun _ => .error "")
          (fun _ _ => 0) 0).map (fun normal => normal i n)
        = .ok (TetExp.faceVector (exampleTet 1 1) 0 i
            / (∑ c in Finset.range 3, TetExp.faceVector (exampleTet 1 1) 0 c ^ 2)))
    ∧ ∑ i in Finset.range 3, (TetExp.faceVector (exampleTet 1 1) 0 i
        / (∑ c in Finset.range 3, TetExp.faceVector (exampleTet 1 1) 0 c ^ 2)) ^ 2 = 1 :=
  C21_regular_face_normal_is_unit (exampleTet 1 1) (fun x => x) 3 (fun _ => .error "")
    (fun _ _ => 0) 0 (Or.inl rfl) (Or.inl rfl)
    ⟨2, by decide, by simp [TetExp.faceVector, exampleTet]⟩
    (by simp [TetExp.faceVector, exampleTet, Finset.sum_range_succ])

end FaceNormal


section FeketeRows

variable {K : Type}

theorem firstRow_eq_sum (T : FeketeTables K) (key : PointsKey) :
    firstRow T key
      = ∑ i in Finset.range (unsignedPred key.NumPoints), T.NodalTriFeketeNPTS i := by
  unfold firstRow
  rw [forLoop_sum, zero_add]

theorem partialSum_strictMono (f : ℕ → ℕ) (hpos : ∀ i, 0 < f i) :
    StrictMono (fun m => ∑ i in Finset.range m, f i) := by
  apply strictMono_nat_of_lt_succ
  intro m
  show ∑ i in Finset.range m, f i < ∑ i in Finset.range (m + 1), f i
  rw [Finset.sum_range_succ]
  have := hpos m
  omega

theorem rowsRead_block_iff (T : FeketeTables K) (key : PointsKey)
    (hpos : ∀ i, 0 < T.NodalTriFeketeNPTS i) (h1 : 1 ≤ key.NumPoints)
    (h2 : key.NumPoints < 4294967296) :
    (∃ m, firstRow T key = ∑ i in Finset.range m, T.NodalTriFeketeNPTS i
        ∧ (rowsRead T key).length = T.NodalTriFeketeNPTS m)
      ↔ T.NodalTriFeketeNPTS key.NumPoints = T.NodalTriFeketeNPTS (key.NumPoints - 1) := by
  have hp : unsignedPred key.NumPoints = key.NumPoints - 1 := by
    unfold unsignedPred
    omega
  have hl : (rowsRead T key).length = T.NodalTriFeketeNPTS key.NumPoints := by
    simp [rowsRead]
  rw [hl, firstRow_eq_sum, hp]
  constructor
  · rintro ⟨m, hm, hc⟩
    have := (partialSum_strictMono _ hpos).injective hm
    rw [hc, this]
  · intro h
    exact ⟨key.NumPoints - 1, rfl, h⟩

/-- C23: the rows that `NodalTriFekete::CalculatePoints` reads are not the block of one
order.  The first row read is the first row of order `GetNumPoints() - 1`, while the
number of rows read is `NodalTriFeketeNPTS[GetNumPoints()]`.  With row counts
`1, 2, 3, 4, ...` and `NumPoints = 3` the first row read is `3 = 1 + 2`, the first row
of order 2, which has 3 rows, and 4 rows are read (rows 3, 4, 5, 6). -/
theorem C23_rows_read_straddle_two_orders :
    firstRow exampleTables ⟨3, 10⟩ = 3
    ∧ rowsRead exampleTables ⟨3, 10⟩ = [3, 4, 5, 6]
    ∧ ¬ ∃ m, firstRow exampleTables ⟨3, 10⟩
          = ∑ i in Finset.range m, exampleTables.NodalTriFeketeNPTS i
        ∧ (rowsRead exampleTables ⟨3, 10⟩).length = exampleTables.NodalTriFeketeNPTS m := by
  have h3 : firstRow exampleTables ⟨3, 10⟩ = 3 := by
    rw [firstRow_eq_sum]
    decide
  refine ⟨h3, ?_, ?_⟩
  · unfold rowsRead
    rw [h3]
    decide
  · rw [rowsRead_block_iff exampleTables ⟨3, 10⟩ (fun i => Nat.succ_pos i) (by decide)
      (by decide)]
    decide

end FeketeRows


section PyrModeMap



theorem pairwise_lexLt_pyrModes (nm0 nm1 nm2 : ℕ) :
    (pyrModes nm0 nm1 nm2).Pairwise lexLt := by
  unfold pyrModes
  rw [List.pairwise_flatMap]
  refine ⟨fun p _ => ?_, ?_⟩
  · rw [List.pairwise_flatMap]
    refine ⟨fun q _ => ?_, ?_⟩
    · rw [List.pairwise_map]
      exact List.Pairwise.imp (fun h => Or.inr ⟨rfl, Or.inr ⟨rfl, h⟩⟩)
        (List.pairwise_lt_range _)
    · refine List.Pairwise.imp ?_ (List.pairwise_lt_range nm1)
      intro a b hab
      simp only [List.mem_map, List.mem_range]
      rintro t ⟨r1, _, rfl⟩ t1 ⟨r2, _, rfl⟩
      exact Or.inr ⟨rfl, Or.inl hab⟩
  · refine List.Pairwise.imp ?_ (List.pairwise_lt_range nm0)
    intro a b hab
    simp only [List.mem_flatMap, List.mem_map, List.mem_range]
    rintro t ⟨q1, _, r1, _, rfl⟩ t1 ⟨q2, _, r2, _, rfl⟩
    exact Or.inl hab

theorem lexLt_asymm (t t1 : ℕ × ℕ × ℕ) (h : lexLt t t1) : ¬ lexLt t1 t := by
  unfold lexLt at *
  omega

theorem lexLt_irrefl (t : ℕ × ℕ × ℕ) : ¬ lexLt t t := by
  unfold lexLt
  omega

theorem pyrModes_getD_lt_iff (nm0 nm1 nm2 m m1 : ℕ)
    (hm : m < (pyrModes nm0 nm1 nm2).length) (hm1 : m1 < (pyrModes nm0 nm1 nm2).length) :
    lexLt ((pyrModes nm0 nm1 nm2).getD m (0, 0, 0)) ((pyrModes nm0 nm1 nm2).getD m1 (0, 0, 0))
      ↔ m < m1 := by
  have hp := List.pairwise_iff_getElem.mp (pairwise_lexLt_pyrModes nm0 nm1 nm2)
  rw [List.getD_eq_getElem _ _ hm, List.getD_eq_getElem _ _ hm1]
  constructor
  · intro h
    rcases Nat.lt_trichotomy m m1 with h1 | h1 | h1
    · exact h1
    · subst h1
      exact absurd h (lexLt_irrefl _)
    · exact absurd (hp m1 m hm1 hm h1) (lexLt_asymm _ _ h)
  · intro h
    exact hp m m1 hm hm1 h

theorem pyrModes_position (nm0 nm1 nm2 p q r : ℕ) (hp : p < nm0) (hq : q < nm1)
    (hr : r < nm2 - p - q) :
    ∃ m, m < (pyrModes nm0 nm1 nm2).length
      ∧ (pyrModes nm0 nm1 nm2).getD m (0, 0, 0) = (p, q, r)
      ∧ buildPqr nm0 nm1 nm2 (r + nm2 * (q + nm1 * p)) = m := by
  obtain ⟨m, hm, e⟩ := List.getElem_of_mem
    ((mem_pyrModes nm0 nm1 nm2 (p, q, r)).mpr ⟨hp, hq, hr⟩)
  have e1 : (pyrModes nm0 nm1 nm2).getD m (0, 0, 0) = (p, q, r) := by
    rw [List.getD_eq_getElem _ _ hm, e]
  refine ⟨m, hm, e1, ?_⟩
  have := buildPqr_cell nm0 nm1 nm2 m hm
  unfold pqrCell at this
  rw [e1] at this
  exact this

/-- C24: the mode index map `pqr` built in `StdPyrExp::IProductWRTBase`, `BwdTrans` and
`FillMode` (with `nm0 = P + 1`, `nm1 = Q + 1`, `nm2 = R + 1`) is a bijection between the
triples `(p, q, r)` with `p <= P`, `q <= Q`, `r <= R - p - q` and the mode numbers
`0 .. N - 1`, numbered in increasing lexicographic order of `(p, q, r)`, where
`N = getNumberOfCoefficients(P+1, Q+1, R+1)`; every other entry of the map stays `-1`. -/
theorem C24_pyramid_mode_map_is_lexicographic_bijection (nm0 nm1 nm2 : ℕ) :
    (∀ p q r, p < nm0 → q < nm1 → r < nm2 - p - q →
      0 ≤ buildPqr nm0 nm1 nm2 (r + nm2 * (q + nm1 * p))
      ∧ buildPqr nm0 nm1 nm2 (r + nm2 * (q + nm1 * p))
          < (getNumberOfCoefficients nm0 nm1 nm2 : ℤ))
    ∧ (∀ p q r p1 q1 r1, p < nm0 → q < nm1 → r < nm2 - p - q →
        p1 < nm0 → q1 < nm1 → r1 < nm2 - p1 - q1 →
        buildPqr nm0 nm1 nm2 (r + nm2 * (q + nm1 * p))
          = buildPqr nm0 nm1 nm2 (r1 + nm2 * (q1 + nm1 * p1)) →
        p = p1 ∧ q = q1 ∧ r = r1)
    ∧ (∀ m : ℕ, m < getNumberOfCoefficients nm0 nm1 nm2 →
        ∃ p q r, p < nm0 ∧ q < nm1 ∧ r < nm2 - p - q
          ∧ buildPqr nm0 nm1 nm2 (r + nm2 * (q + nm1 * p)) = (m : ℤ))
    ∧ (∀ p q r p1 q1 r1, p < nm0 → q < nm1 → r < nm2 - p - q →
        p1 < nm0 → q1 < nm1 → r1 < nm2 - p1 - q1 →
        (lexLt (p, q, r) (p1, q1, r1)
          ↔ buildPqr nm0 nm1 nm2 (r + nm2 * (q + nm1 * p))
              < buildPqr nm0 nm1 nm2 (r1 + nm2 * (q1 + nm1 * p1))))
    ∧ (∀ c, (∀ p q r, p < nm0 → q < nm1 → r < nm2 - p - q → r + nm2 * (q + nm1 * p) ≠ c) →
        buildPqr nm0 nm1 nm2 c = -1) := by
  rw [getNumberOfCoefficients_eq_length]
  refine ⟨?_, ?_, ?_, ?_, ?_⟩
  · intro p q r hp hq hr
    obtain ⟨m, hm, -, e⟩ := pyrModes_position nm0 nm1 nm2 p q r hp hq hr
    rw [e]
    exact ⟨Int.natCast_nonneg m, Int.ofNat_lt.mpr hm⟩
  · intro p q r p1 q1 r1 hp hq hr hp1 hq1 hr1 h
    obtain ⟨m, hm, e1, e⟩ := pyrModes_position nm0 nm1 nm2 p q r hp hq hr
    obtain ⟨m1, hm1, e2, e3⟩ := pyrModes_position nm0 nm1 nm2 p1 q1 r1 hp1 hq1 hr1
    rw [e, e3] at h
    have hmm : m = m1 := Int.ofNat_inj.mp h
    rw [hmm, e2] at e1
    injection e1 with a b
    injection b with b c
    exact ⟨a.symm, b.symm, c.symm⟩
  · intro m hm
    obtain ⟨a1, a2, a3⟩ := pyrModes_getD_mem nm0 nm1 nm2 m hm
    exact ⟨_, _, _, a1, a2, a3, buildPqr_cell nm0 nm1 nm2 m hm⟩
  · intro p q r p1 q1 r1 hp hq hr hp1 hq1 hr1
    obtain ⟨m, hm, e1, e⟩ := pyrModes_position nm0 nm1 nm2 p q r hp hq hr
    obtain ⟨m1, hm1, e2, e3⟩ := pyrModes_position nm0 nm1 nm2 p1 q1 r1 hp1 hq1 hr1
    rw [e, e3, ← e1, ← e2, pyrModes_getD_lt_iff nm0 nm1 nm2 m m1 hm hm1, Int.ofNat_lt]
  · intro c hc
    apply buildPqr_other
    intro m hm
    obtain ⟨a1, a2, a3⟩ := pyrModes_getD_mem nm0 nm1 nm2 m hm
    exact hc _ _ _ a1 a2 a3

theorem C24_pyramid_mode_map_is_lexicographic_bijection_witness :
    (0 ≤ buildPqr 1 2 2 (0 + 2 * (1 + 2 * 0))
      ∧ buildPqr 1 2 2 (0 + 2 * (1 + 2 * 0)) < (getNumberOfCoefficients 1 2 2 : ℤ))
    ∧ (lexLt (0, 0, 1) (0, 1, 0)
        ↔ buildPqr 1 2 2 (1 + 2 * (0 + 2 * 0)) < buildPqr 1 2 2 (0 + 2 * (1 + 2 * 0))) :=
  ⟨(C24_pyramid_mode_map_is_lexicographic_bijection 1 2 2).1 0 1 0 (by decide) (by decide)
      (by decide),
    (C24_pyramid_mode_map_is_lexicographic_bijection 1 2 2).2.2.2.1 0 0 1 0 1 0 (by decide)
      (by decide) (by decide) (by decide) (by decide) (by decide)⟩

end PyrModeMap

section PyrTripleSum

variable {K : Type} [Field K]

/-- C25: the sum-factorised `TripleInnerProduct(f, wx, wy, wz)` of `StdPyrExp` equals
the direct triple sum over `i < Qx`, `j < Qy`, `k < Qz` of
`f[i + Qx*(j + Qy*k)] * wx[i] * wy[j] * wz[k]`, for all weight vectors of lengths `Qx`,
`Qy`, `Qz` and every `f`. -/
theorem C25_triple_inner_product_is_triple_sum (Qx Qy Qz : ℕ) (f wx wy wz : ℕ → K) :
    TripleInnerProduct Qx Qy Qz f wx wy wz
      = ∑ i in Finset.range Qx, ∑ j in Finset.range Qy, ∑ k in Finset.range Qz,
          f (i + Qx * (j + Qy * k)) * wx i * wy j * wz k := by
  rw [TripleInnerProduct_eq]
  rfl

end PyrTripleSum

section PyrCoords

variable {K : Type} [Field K]

theorem forLoop_proj {σ τ : Type} (π : σ → τ) (lo hi : ℕ) (body : ℕ → σ → σ)
    (f : ℕ → τ → τ) (h : ∀ i s, π (body i s) = f i (π s)) (s : σ) :
    π (forLoop lo hi body s) = forLoop lo hi f (π s) := by
  by_cases hle : lo ≤ hi
  · induction hi, hle using Nat.le_induction with
    | base => rw [forLoop_empty _ _ _ _ (le_refl _), forLoop_empty _ _ _ _ (le_refl _)]
    | succ n hn ih => rw [forLoop_succ _ _ _ _ hn, forLoop_succ _ _ _ _ hn, h, ih]
  · rw [forLoop_empty _ _ _ _ (by omega), forLoop_empty _ _ _ _ (by omega)]

theorem StdPyrExp.GetCoords_cell (E : StdPyrExp K) (x0 y0 z0 : ℕ → K) (i j k : ℕ)
    (hi : i < E.NumPoints 0) (hj : j < E.NumPoints 1) (hk : k < E.NumPoints 2) :
    (E.GetCoords x0 y0 z0).xi_x (i + E.NumPoints 0 * (j + E.NumPoints 1 * k))
        = (1 + E.Z 0 i) * (1 - E.Z 2 k) / 2 - 1
    ∧ (E.GetCoords x0 y0 z0).xi_y (i + E.NumPoints 0 * (j + E.NumPoints 1 * k))
        = (1 + E.Z 1 j) * (1 - E.Z 2 k) / 2 - 1
    ∧ (E.GetCoords x0 y0 z0).xi_z (i + E.NumPoints 0 * (j + E.NumPoints 1 * k))
        = E.Z 2 k := by
  unfold StdPyrExp.GetCoords
  refine ⟨?_, ?_, ?_⟩
  · rw [forLoop_proj PyrCoords.xi_x 0 _ _ (fun k a => forLoop 0 (E.NumPoints 1) (fun j a =>
        forLoop 0 (E.NumPoints 0) (fun i a =>
          set1 a (i + E.NumPoints 0 * (j + E.NumPoints 1 * k))
            ((1 + E.Z 0 i) * (1 - E.Z 2 k) / 2 - 1)) a) a)
      (fun k s => forLoop_proj PyrCoords.xi_x 0 _ _ _
        (fun j s => forLoop_proj PyrCoords.xi_x 0 _ _ _ (fun i s => rfl) s) s)]
    exact (tripleWrite _ _ _ (fun i _ k => (1 + E.Z 0 i) * (1 - E.Z 2 k) / 2 - 1) x0).1
      i j k hi hj hk
  · rw [forLoop_proj PyrCoords.xi_y 0 _ _ (fun k a => forLoop 0 (E.NumPoints 1) (fun j a =>
        forLoop 0 (E.NumPoints 0) (fun i a =>
          set1 a (i + E.NumPoints 0 * (j + E.NumPoints 1 * k))
            ((1 + E.Z 1 j) * (1 - E.Z 2 k) / 2 - 1)) a) a)
      (fun k s => forLoop_proj PyrCoords.xi_y 0 _ _ _
        (fun j s => forLoop_proj PyrCoords.xi_y 0 _ _ _ (fun i s => rfl) s) s)]
    exact (tripleWrite _ _ _ (fun _ j k => (1 + E.Z 1 j) * (1 - E.Z 2 k) / 2 - 1) y0).1
      i j k hi hj hk
  · rw [forLoop_proj PyrCoords.xi_z 0 _ _ (fun k a => forLoop 0 (E.NumPoints 1) (fun j a =>
        forLoop 0 (E.NumPoints 0) (fun i a =>
          set1 a (i + E.NumPoints 0 * (j + E.NumPoints 1 * k)) (E.Z 2 k)) a) a)
      (fun k s => forLoop_proj PyrCoords.xi_z 0 _ _ _
        (fun j s => forLoop_proj PyrCoords.xi_z 0 _ _ _ (fun i s => rfl) s) s)]
    exact (tripleWrite _ _ _ (fun _ _ k => E.Z 2 k) z0).1 i j k hi hj hk

end PyrCoords

section PyrCoordsInverse

variable {K : Type} [LinearOrderedField K]

/-- C26: the two pyramid coordinate maps of `StdPyrExp` are mutually inverse away from
the apex.  For a collapsed point `(e1, e2, e3) = (eta_x[i], eta_y[j], eta_z[k])` of the
grid with `|e3 - 1| >= 1e-12`, `GetCoords` stores the Cartesian reference coordinates
`xi_x = (1+e1)(1-e3)/2 - 1`, `xi_y = (1+e2)(1-e3)/2 - 1`, `xi_z = e3`, and the collapsed
coordinates that `PhysEvaluate` computes from them, `eta = 2(1+xi)/(1-xi_z) - 1`, are
`(e1, e2, e3)` again. -/
theorem C26_pyramid_coordinate_maps_are_inverse (E : StdPyrExp K) (x0 y0 z0 eta : ℕ → K)
    (i j k : ℕ) (hi : i < E.NumPoints 0) (hj : j < E.NumPoints 1) (hk : k < E.NumPoints 2)
    (hz : (1 : K) / 1000000000000 ≤ |E.Z 2 k - 1|) :
    ((E.GetCoords x0 y0 z0).xi_x (i + E.NumPoints 0 * (j + E.NumPoints 1 * k))
        = (1 + E.Z 0 i) * (1 - E.Z 2 k) / 2 - 1
      ∧ (E.GetCoords x0 y0 z0).xi_y (i + E.NumPoints 0 * (j + E.NumPoints 1 * k))
        = (1 + E.Z 1 j) * (1 - E.Z 2 k) / 2 - 1
      ∧ (E.GetCoords x0 y0 z0).xi_z (i + E.NumPoints 0 * (j + E.NumPoints 1 * k))
        = E.Z 2 k)
    ∧ (StdPyrExp.PhysEvaluate_eta
        (fun d =>
          if d = 0 then
            (E.GetCoords x0 y0 z0).xi_x (i + E.NumPoints 0 * (j + E.NumPoints 1 * k))
          else if d = 1 then
            (E.GetCoords x0 y0 z0).xi_y (i + E.NumPoints 0 * (j + E.NumPoints 1 * k))
          else (E.GetCoords x0 y0 z0).xi_z (i + E.NumPoints 0 * (j + E.NumPoints 1 * k)))
        eta).1 0 = E.Z 0 i
    ∧ (StdPyrExp.PhysEvaluate_eta
        (fun d =>
          if d = 0 then
            (E.GetCoords x0 y0 z0).xi_x (i + E.NumPoints 0 * (j + E.NumPoints 1 * k))
          else if d = 1 then
            (E.GetCoords x0 y0 z0).xi_y (i + E.NumPoints 0 * (j + E.NumPoints 1 * k))
          else (E.GetCoords x0 y0 z0).xi_z (i + E.NumPoints 0 * (j + E.NumPoints 1 * k)))
        eta).1 1 = E.Z 1 j
    ∧ (StdPyrExp.PhysEvaluate_eta
        (fun d =>
          if d = 0 then
            (E.GetCoords x0 y0 z0).xi_x (i + E.NumPoints 0 * (j + E.NumPoints 1 * k))
          else if d = 1 then
            (E.GetCoords x0 y0 z0).xi_y (i + E.NumPoints 0 * (j + E.NumPoints 1 * k))
          else (E.GetCoords x0 y0 z0).xi_z (i + E.NumPoints 0 * (j + E.NumPoints 1 * k)))
        eta).1 2 = E.Z 2 k := by
  obtain ⟨c1, c2, c3⟩ := E.GetCoords_cell x0 y0 z0 i j k hi hj hk
  have hfar : ¬ |E.Z 2 k - 1| < (kEvaluateTol : K) := not_lt.mpr hz
  have hne : 1 - E.Z 2 k ≠ 0 := one_sub_ne_zero_of_far _ hfar
  refine ⟨⟨c1, c2, c3⟩, ?_, ?_, ?_⟩
  all_goals
    rw [c1, c2, c3]
    unfold StdPyrExp.PhysEvaluate_eta
    simp only [if_true, if_false, OfNat.ofNat_ne_zero, OfNat.ofNat_ne_one, if_neg hfar,
      one_ne_zero, divRecord]
    simp [set1]
    try field_simp

theorem C26_pyramid_coordinate_maps_are_inverse_witness :
    (1 : ℚ) / 1000000000000 ≤ |examplePyr3.Z 2 1 - 1|
    ∧ (StdPyrExp.PhysEvaluate_eta
        (fun d =>
          if d = 0 then
            (examplePyr3.GetCoords (fun _ => 0) (fun _ => 0) (fun _ => 0)).xi_x
              (0 + examplePyr3.NumPoints 0 * (1 + examplePyr3.NumPoints 1 * 1))
          else if d = 1 then
            (examplePyr3.GetCoords (fun _ => 0) (fun _ => 0) (fun _ => 0)).xi_y
              (0 + examplePyr3.NumPoints 0 * (1 + examplePyr3.NumPoints 1 * 1))
          else (examplePyr3.GetCoords (fun _ => 0) (fun _ => 0) (fun _ => 0)).xi_z
              (0 + examplePyr3.NumPoints 0 * (1 + examplePyr3.NumPoints 1 * 1)))
        (fun _ => 0)).1 0 = examplePyr3.Z 0 0 :=
  ⟨by norm_num [examplePyr3],
    (C26_pyramid_coordinate_maps_are_inverse examplePyr3 (fun _ => 0) (fun _ => 0)
      (fun _ => 0) (fun _ => 0) 0 1 1 (by decide) (by decide) (by decide)
      (by norm_num [examplePyr3])).2.1⟩

end PyrCoordsInverse

section ExtractTri

variable {K : Type} [Field K]

theorem forLoopInt_nat {σ : Type} (n : ℕ) (body : ℤ → σ → σ) (s : σ) :
    forLoopInt 0 (n : ℤ) body s = forLoop 0 n (fun i s => body (i : ℤ) s) s := by
  unfold forLoopInt
  have h : ((n : ℤ) - 0).toNat = n := by omega
  rw [forLoop_eq_foldl_range, h]
  simp only [zero_add]

theorem VcopyAt_nat {F : Type} (n xo yo : ℕ) (x y : ℕ → F) :
    Vmath.VcopyAt (n : ℤ) x (xo : ℤ) y (yo : ℤ)
      = fun c => if yo ≤ c ∧ c < yo + n then x (xo + (c - yo)) else y c := by
  funext c
  unfold Vmath.VcopyAt
  by_cases h : yo ≤ c ∧ c < yo + n
  · have h1 : (yo : ℤ) ≤ (c : ℤ) ∧ (c : ℤ) < (yo : ℤ) + (n : ℤ) := by omega
    have h2 : ((xo : ℤ) + ((c : ℤ) - (yo : ℤ))).toNat = xo + (c - yo) := by omega
    rw [if_pos h1, if_pos h, h2]
  · have h1 : ¬ ((yo : ℤ) ≤ (c : ℤ) ∧ (c : ℤ) < (yo : ℤ) + (n : ℤ)) := by omega
    rw [if_neg h1, if_neg h]

theorem triOff_succ (order1 p : ℕ) : triOff order1 (p + 1) = triOff order1 p + (order1 - p) := by
  unfold triOff
  rw [Finset.sum_range_succ]

theorem triOff_mono (order1 p n : ℕ) (h : p ≤ n) : triOff order1 p ≤ triOff order1 n := by
  unfold triOff
  exact Finset.sum_le_sum_of_subset (Finset.range_mono h)

theorem triOff_tiles (order1 P n : ℕ) (h : n < triOff order1 P) :
    ∃ p q, p < P ∧ q < order1 - p ∧ n = triOff order1 p + q := by
  induction P with
  | zero => simp [triOff] at h
  | succ P ih =>
    by_cases h1 : n < triOff order1 P
    · obtain ⟨p, q, hp, hq, e⟩ := ih h1
      exact ⟨p, q, Nat.lt_succ_of_lt hp, hq, e⟩
    · rw [triOff_succ] at h
      exact ⟨P, n - triOff order1 P, Nat.lt_succ_self P, by omega, by omega⟩

theorem triExtract_loop {F : Type} (O1 D1 F1 : ℕ) (hFO : F1 ≤ O1) (hFD : F1 ≤ D1)
    (data c0 : ℕ → F) (n : ℕ) (hn : n ≤ F1) :
    (forLoop 0 n (fun i (s : (ℕ → F) × ℤ × ℤ) =>
        (Vmath.VcopyAt ((F1 : ℤ) - (i : ℤ)) data s.2.1 s.1 s.2.2,
          s.2.1 + ((D1 : ℤ) - (i : ℤ)), s.2.2 + ((O1 : ℤ) - (i : ℤ)))) (c0, 0, 0)).2.1
      = (triOff D1 n : ℤ)
    ∧ (forLoop 0 n (fun i (s : (ℕ → F) × ℤ × ℤ) =>
        (Vmath.VcopyAt ((F1 : ℤ) - (i : ℤ)) data s.2.1 s.1 s.2.2,
          s.2.1 + ((D1 : ℤ) - (i : ℤ)), s.2.2 + ((O1 : ℤ) - (i : ℤ)))) (c0, 0, 0)).2.2
      = (triOff O1 n : ℤ)
    ∧ (∀ p q, p < n → q < F1 - p →
        (forLoop 0 n (fun i (s : (ℕ → F) × ℤ × ℤ) =>
          (Vmath.VcopyAt ((F1 : ℤ) - (i : ℤ)) data s.2.1 s.1 s.2.2,
            s.2.1 + ((D1 : ℤ) - (i : ℤ)), s.2.2 + ((O1 : ℤ) - (i : ℤ)))) (c0, 0, 0)).1
          (triOff O1 p + q) = data (triOff D1 p + q))
    ∧ (∀ c, (∀ p q, p < n → q < F1 - p → c ≠ triOff O1 p + q) →
        (forLoop 0 n (fun i (s : (ℕ → F) × ℤ × ℤ) =>
          (Vmath.VcopyAt ((F1 : ℤ) - (i : ℤ)) data s.2.1 s.1 s.2.2,
            s.2.1 + ((D1 : ℤ) - (i : ℤ)), s.2.2 + ((O1 : ℤ) - (i : ℤ)))) (c0, 0, 0)).1 c
          = c0 c) := by
  induction n with
  | zero =>
    rw [forLoop_empty _ _ _ _ (le_refl _)]
    refine ⟨by simp [triOff], by simp [triOff], ?_, ?_⟩
    · intro p q hp
      exact absurd hp (Nat.not_lt_zero p)
    · intro c _
      rfl
  | succ n ih =>
    obtain ⟨h1, h2, h3, h4⟩ := ih (Nat.le_of_succ_le hn)
    rw [forLoop_succ _ _ _ _ (Nat.zero_le n)]
    generalize forLoop 0 n _ (c0, (0 : ℤ), (0 : ℤ)) = S at h1 h2 h3 h4
    have hF : ((F1 : ℤ) - (n : ℤ)) = ((F1 - n : ℕ) : ℤ) := by omega
    simp only [h1, h2, hF, VcopyAt_nat]
    refine ⟨?_, ?_, ?_, ?_⟩
    · rw [triOff_succ]
      push_cast
      omega
    · rw [triOff_succ]
      push_cast
      omega
    · intro p q hp hq
      rcases Nat.lt_succ_iff_lt_or_eq.mp hp with hlt | heq
      · have hm := triOff_mono O1 (p + 1) n hlt
        rw [triOff_succ] at hm
        rw [if_neg (by omega)]
        exact h3 p q hlt hq
      · subst heq
        rw [if_pos (by omega)]
        congr 1
        omega
    · intro c hc
      have hnb : ¬ (triOff O1 n ≤ c ∧ c < triOff O1 n + (F1 - n)) := by
        intro hb
        exact hc n (c - triOff O1 n) (Nat.lt_succ_self n) (by omega) (by omega)
      rw [if_neg hnb]
      exact h4 c (fun p q hp hq => hc p q (Nat.lt_succ_of_lt hp) hq)

theorem TriExp.ExtractDataToCoeffs_eq (B : ExpansionBases) (data : ℕ → K) (nummodes : ℕ → ℕ)
    (mode_offset : ℕ) (coeffs : ℕ → K) (hA : B.GetBasisType 0 = .eModified_A)
    (hB : B.GetBasisType 1 = .eModified_B) :
    TriExp.ExtractDataToCoeffs B data nummodes mode_offset coeffs
      = .ok (forLoop 0 (min (B.GetNumModes 0) (nummodes mode_offset))
          (fun i (s : (ℕ → K) × ℤ × ℤ) =>
            (Vmath.VcopyAt
                (((min (B.GetNumModes 1) (nummodes (mode_offset + 1)) : ℕ) : ℤ) - (i : ℤ))
                data s.2.1 s.1 s.2.2,
              s.2.1 + ((nummodes (mode_offset + 1) : ℤ) - (i : ℤ)),
              s.2.2 + ((B.GetNumModes 1 : ℤ) - (i : ℤ))))
          (Vmath.Zero B.m_ncoeffs coeffs, 0, 0)).1 := by
  unfold TriExp.ExtractDataToCoeffs
  simp only [hA, hB, ASSERTL, beq_self_eq_true, if_true, bind, Except.bind, pure, Except.pure]
  rw [← Nat.cast_min, ← Nat.cast_min, forLoopInt_nat]

/-- C27: `TriExp::ExtractDataToCoeffs` (Modified_A / Modified_B basis,
`order0 <= order1` and `data_order0 <= data_order1`) embeds the data mode by mode: with
`off(p) = sum over i < p of (order1 - i)` and `doff(p) = sum over i < p of
(data_order1 - i)`, after the call `coeffs[off(p) + q] = data[doff(p) + q]` for every
`p < min(order0, data_order0)` and `q < min(order1, data_order1) - p`, and every other
one of the `m_ncoeffs` entries of `coeffs` is `0`; when the data mode counts equal the
expansion mode counts, `coeffs` equals `data` on the `off(order0)` modes. -/
theorem C27_tri_extract_embeds_data_mode_by_mode (B : ExpansionBases) (data : ℕ → K)
    (nummodes : ℕ → ℕ) (mode_offset : ℕ) (coeffs : ℕ → K)
    (hA : B.GetBasisType 0 = .eModified_A) (hB : B.GetBasisType 1 = .eModified_B)
    (h0 : B.GetNumModes 0 ≤ B.GetNumModes 1)
    (hd : nummodes mode_offset ≤ nummodes (mode_offset + 1)) :
    ∃ c : ℕ → K,
      TriExp.ExtractDataToCoeffs B data nummodes mode_offset coeffs = .ok c
      ∧ (∀ p q, p < min (B.GetNumModes 0) (nummodes mode_offset) →
          q < min (B.GetNumModes 1) (nummodes (mode_offset + 1)) - p →
          c (triOff (B.GetNumModes 1) p + q)
            = data (triOff (nummodes (mode_offset + 1)) p + q))
      ∧ (∀ n, n < B.m_ncoeffs →
          (∀ p q, p < min (B.GetNumModes 0) (nummodes mode_offset) →
            q < min (B.GetNumModes 1) (nummodes (mode_offset + 1)) - p →
            n ≠ triOff (B.GetNumModes 1) p + q) →
          c n = 0)
      ∧ (nummodes mode_offset = B.GetNumModes 0 →
          nummodes (mode_offset + 1) = B.GetNumModes 1 →
          ∀ n, n < triOff (B.GetNumModes 1) (B.GetNumModes 0) → c n = data n) := by
  have hF : min (B.GetNumModes 0) (nummodes mode_offset)
      ≤ min (B.GetNumModes 1) (nummodes (mode_offset + 1)) := by
    simp only [le_min_iff, min_le_iff]
    omega
  obtain ⟨-, -, h3, h4⟩ := triExtract_loop (B.GetNumModes 1) (nummodes (mode_offset + 1))
    (min (B.GetNumModes 1) (nummodes (mode_offset + 1))) (min_le_left _ _) (min_le_right _ _)
    data (Vmath.Zero B.m_ncoeffs coeffs) (min (B.GetNumModes 0) (nummodes mode_offset)) hF
  refine ⟨_, TriExp.ExtractDataToCoeffs_eq B data nummodes mode_offset coeffs hA hB, h3, ?_, ?_⟩
  · intro n hn hne
    rw [h4 n hne]
    unfold Vmath.Zero
    rw [if_pos hn]
  · intro e0 e1 n hn
    obtain ⟨p, q, hp, hq, e⟩ := triOff_tiles _ _ n hn
    rw [e, h3 p q (by rw [e0, min_self]; exact hp) (by rw [e1, min_self]; exact hq), e1]

theorem C27_tri_extract_embeds_data_mode_by_mode_witness :
    exampleTriBases.GetNumModes 0 ≤ exampleTriBases.GetNumModes 1
    ∧ ∃ c : ℕ → ℚ,
        TriExp.ExtractDataToCoeffs exampleTriBases (fun n => (n : ℚ) + 1) (fun _ => 2) 0
          (fun _ => 7) = .ok c
        ∧ c 0 = 1 ∧ c 1 = 2 ∧ c 2 = 0 ∧ c 3 = 3 := by
  obtain ⟨c, hc, h3, h4, -⟩ := C27_tri_extract_embeds_data_mode_by_mode exampleTriBases
    (fun n => (n : ℚ) + 1) (fun _ => 2) 0 (fun _ => 7) rfl rfl (by decide) (by decide)
  refine ⟨by decide, c, hc, ?_, ?_, ?_, ?_⟩
  · have h := h3 0 0 (by decide) (by decide)
    simpa [triOff] using h
  · have h := h3 0 1 (by decide) (by decide)
    simp only [triOff, Finset.range_zero, Finset.sum_empty, zero_add] at h
    rw [h]; norm_num
  · refine h4 2 (by decide) ?_
    intro p q hp hq
    have hp2 : p < 2 := by simpa [exampleTriBases] using hp
    interval_cases p
    · have hq2 : q < 2 := by simpa [exampleTriBases] using hq
      simp only [triOff, Finset.range_zero, Finset.sum_empty, zero_add]
      omega
    · simp only [triOff, Finset.sum_range_one, exampleTriBases]
      omega
  · have h := h3 1 0 (by decide) (by decide)
    simp only [triOff, Finset.sum_range_one, exampleTriBases, add_zero] at h
    rw [h]; norm_num

end ExtractTri

section ExtractTet

variable {K : Type} [Field K]

theorem forLoopInt_nil {σ : Type} (lo hi : ℤ) (body : ℤ → σ → σ) (s : σ) (h : hi ≤ lo) :
    forLoopInt lo hi body s = s := by
  unfold forLoopInt
  have e : (hi - lo).toNat = 0 := by omega
  rw [e]; rfl

theorem forLoopInt_step {σ : Type} (lo hi : ℤ) (body : ℤ → σ → σ) (s : σ) (h : lo < hi) :
    forLoopInt lo hi body s = forLoopInt (lo + 1) hi body (body lo s) := by
  unfold forLoopInt
  have e : (hi - lo).toNat = (hi - (lo + 1)).toNat + 1 := by omega
  rw [e, List.range_succ_eq_map, List.foldl_cons, List.foldl_map]
  simp only [Nat.cast_zero, add_zero, Nat.cast_succ]
  congr 1
  funext s t
  congr 1
  ring

theorem TetExp.ExtractDataToCoeffs_four_modes (data coeffs : ℕ → K) :
    (TetExp.ExtractDataToCoeffs exampleTetBases data (fun _ => 4) 0 coeffs).map
      (fun c => (c 18, c 19)) = .ok (data 18, 0) := by
  unfold TetExp.ExtractDataToCoeffs
  simp [exampleTetBases, ASSERTL, bind, Except.bind, pure, Except.pure, Except.map,
    forLoopInt_step, forLoopInt_nil, Vmath.VcopyAt, Vmath.Zero]

/-- With three modes in each direction the count-out loops add only zeros and all ten
coefficients are copied. -/
theorem TetExp.ExtractDataToCoeffs_three_modes (data coeffs : ℕ → K) :
    (TetExp.ExtractDataToCoeffs exampleTetBases3 data (fun _ => 3) 0 coeffs).map
      (fun c => (List.range 10).map c) = .ok ((List.range 10).map data) := by
  unfold TetExp.ExtractDataToCoeffs
  simp [exampleTetBases3, ASSERTL, bind, Except.bind, pure, Except.pure, Except.map,
    forLoopInt_step, forLoopInt_nil, Vmath.VcopyAt, Vmath.Zero, List.range_succ]

/-- C28: `TetExp::ExtractDataToCoeffs` is not the identity for the claim's own example.
For the Modified_A/B/C tetrahedral expansion with 4 modes in each direction (20
coefficients) and data `data[n] = n + 1` stored with the same mode counts, the call
returns with `coeffs[18] = data[18] = 19` but `coeffs[19] = 0` although `data[19] = 20`:
the count-out loops run to `data_order1` and `order1` instead of `data_order1 - j` and
`order1 - j`, so after `j = 2` both offsets have gone back from 19 to 18 and the last
mode is never copied. -/
theorem C28_tet_extract_loses_last_mode_with_four_modes :
    (TetExp.ExtractDataToCoeffs exampleTetBases (fun n : ℕ => (n : ℚ) + 1) (fun _ => 4) 0
        (fun _ => 7)).map (fun c => (c 18, c 19)) = .ok (19, 0)
    ∧ (fun n : ℕ => (n : ℚ) + 1) 19 = 20 := by
  refine ⟨?_, by norm_num⟩
  rw [TetExp.ExtractDataToCoeffs_four_modes]
  norm_num

end ExtractTet

section LaplacianSymmetry

variable {K : Type} [Field K]

theorem tri_CreateMatrix_eLaplacian_regular (X : LocalExp K) (mkey : MatrixKey K)
    (hg : X.Gtype ≠ .eNoGeomType) (hm : mkey.mtype = .eLaplacian)
    (hreg : ¬ (X.Gtype = .eDeformed ∨ mkey.GetNVarCoeff > 0
      ∨ mkey.ConstFactorExists .eFactorSVVCutoffRatio)) :
    TriExp.CreateMatrix X mkey
      = .ok ⟨X.Jac 0,
          X.Gmat 0 0 • X.GetStdMatrix (MatrixKey.mk3 .eLaplacian00 mkey.GetShapeType)
          + X.Gmat 1 0 • (X.GetStdMatrix (MatrixKey.mk3 .eLaplacian01 mkey.GetShapeType)
            + Transpose (X.GetStdMatrix (MatrixKey.mk3 .eLaplacian01 mkey.GetShapeType)))
          + X.Gmat 3 0 • X.GetStdMatrix (MatrixKey.mk3 .eLaplacian11 mkey.GetShapeType)⟩ := by
  rw [TriExp.CreateMatrix, ASSERTL_geom_ok _ hg]
  simp only [bind, Except.bind]
  split <;> first | (exfalso; simp_all; done) | (rw [if_neg hreg]; rfl)

/-- C29: for geometry that is not deformed and a Laplacian key with no variable
coefficients and no SVV factor, the matrix assembled by `TetExp::CreateMatrix` (from
`gmat` and the reference matrices `Laplacian00`, `01`, `02`, `11`, `12`, `22`) and the one
assembled by `TriExp::CreateMatrix` (from `Laplacian00`, `01`, `11`) are symmetric
whenever the diagonal reference matrices `Laplacian00`, `Laplacian11` (and `Laplacian22`)
are symmetric and have the same number of rows, for every value of the geometric
factors and of the off-diagonal reference matrices. -/
theorem C29_regular_laplacian_matrix_is_symmetric (X : LocalExp K) (mkey : MatrixKey K)
    (hg : X.Gtype ≠ .eNoGeomType) (hm : mkey.mtype = .eLaplacian)
    (hreg : ¬ (X.Gtype = .eDeformed ∨ mkey.GetNVarCoeff > 0
      ∨ mkey.ConstFactorExists .eFactorSVVCutoffRatio))
    (h00 : (X.GetStdMatrix (MatrixKey.mk3 .eLaplacian00 mkey.GetShapeType)).IsSymmetric)
    (h11 : (X.GetStdMatrix (MatrixKey.mk3 .eLaplacian11 mkey.GetShapeType)).IsSymmetric)
    (hr11 : (X.GetStdMatrix (MatrixKey.mk3 .eLaplacian11 mkey.GetShapeType)).rows
      = (X.GetStdMatrix (MatrixKey.mk3 .eLaplacian00 mkey.GetShapeType)).rows) :
    (∃ M : DNekScalMat K, TriExp.CreateMatrix X mkey = .ok M ∧ M.owned.IsSymmetric
        ∧ ∀ i, i < M.GetRows → ∀ j, j < M.GetRows → M.entry i j = M.entry j i)
    ∧ ((X.GetStdMatrix (MatrixKey.mk3 .eLaplacian22 mkey.GetShapeType)).IsSymmetric →
        (X.GetStdMatrix (MatrixKey.mk3 .eLaplacian22 mkey.GetShapeType)).rows
          = (X.GetStdMatrix (MatrixKey.mk3 .eLaplacian00 mkey.GetShapeType)).rows →
        ∃ M : DNekScalMat K, TetExp.CreateMatrix X mkey = .ok M ∧ M.owned.IsSymmetric
          ∧ ∀ i, i < M.GetRows → ∀ j, j < M.GetRows → M.entry i j = M.entry j i) := by
  constructor
  · have key : ∀ i, i < (X.GetStdMatrix (MatrixKey.mk3 .eLaplacian00 mkey.GetShapeType)).rows →
        ∀ j, j < (X.GetStdMatrix (MatrixKey.mk3 .eLaplacian00 mkey.GetShapeType)).rows →
        (X.Gmat 0 0 • X.GetStdMatrix (MatrixKey.mk3 .eLaplacian00 mkey.GetShapeType)
          + X.Gmat 1 0 • (X.GetStdMatrix (MatrixKey.mk3 .eLaplacian01 mkey.GetShapeType)
            + Transpose (X.GetStdMatrix (MatrixKey.mk3 .eLaplacian01 mkey.GetShapeType)))
          + X.Gmat 3 0 • X.GetStdMatrix (MatrixKey.mk3 .eLaplacian11 mkey.GetShapeType)).e i j
        = (X.Gmat 0 0 • X.GetStdMatrix (MatrixKey.mk3 .eLaplacian00 mkey.GetShapeType)
          + X.Gmat 1 0 • (X.GetStdMatrix (MatrixKey.mk3 .eLaplacian01 mkey.GetShapeType)
            + Transpose (X.GetStdMatrix (MatrixKey.mk3 .eLaplacian01 mkey.GetShapeType)))
          + X.Gmat 3 0 • X.GetStdMatrix (MatrixKey.mk3 .eLaplacian11 mkey.GetShapeType)).e j i := by
      intro i hi j hj
      simp only [DNekMat.smul_entry, DNekMat.add_entry, Transpose_entry]
      rw [h00.2 i hi j hj, h11.2 i (hr11 ▸ hi) j (hr11 ▸ hj)]
      ring
    refine ⟨_, tri_CreateMatrix_eLaplacian_regular X mkey hg hm hreg, ⟨h00.1, key⟩, ?_⟩
    intro i hi j hj
    unfold DNekScalMat.entry
    rw [key i hi j hj]
  · intro h22 hr22
    have key : ∀ i, i < (X.GetStdMatrix (MatrixKey.mk3 .eLaplacian00 mkey.GetShapeType)).rows →
        ∀ j, j < (X.GetStdMatrix (MatrixKey.mk3 .eLaplacian00 mkey.GetShapeType)).rows →
        (X.Gmat 0 0 • X.GetStdMatrix (MatrixKey.mk3 .eLaplacian00 mkey.GetShapeType)
          + X.Gmat 4 0 • X.GetStdMatrix (MatrixKey.mk3 .eLaplacian11 mkey.GetShapeType)
          + X.Gmat 8 0 • X.GetStdMatrix (MatrixKey.mk3 .eLaplacian22 mkey.GetShapeType)
          + X.Gmat 3 0 • (X.GetStdMatrix (MatrixKey.mk3 .eLaplacian01 mkey.GetShapeType)
            + Transpose (X.GetStdMatrix (MatrixKey.mk3 .eLaplacian01 mkey.GetShapeType)))
          + X.Gmat 6 0 • (X.GetStdMatrix (MatrixKey.mk3 .eLaplacian02 mkey.GetShapeType)
            + Transpose (X.GetStdMatrix (MatrixKey.mk3 .eLaplacian02 mkey.GetShapeType)))
          + X.Gmat 7 0 • (X.GetStdMatrix (MatrixKey.mk3 .eLaplacian12 mkey.GetShapeType)
            + Transpose (X.GetStdMatrix (MatrixKey.mk3 .eLaplacian12 mkey.GetShapeType)))).e i j
        = (X.Gmat 0 0 • X.GetStdMatrix (MatrixKey.mk3 .eLaplacian00 mkey.GetShapeType)
          + X.Gmat 4 0 • X.GetStdMatrix (MatrixKey.mk3 .eLaplacian11 mkey.GetShapeType)
          + X.Gmat 8 0 • X.GetStdMatrix (MatrixKey.mk3 .eLaplacian22 mkey.GetShapeType)
          + X.Gmat 3 0 • (X.GetStdMatrix (MatrixKey.mk3 .eLaplacian01 mkey.GetShapeType)
            + Transpose (X.GetStdMatrix (MatrixKey.mk3 .eLaplacian01 mkey.GetShapeType)))
          + X.Gmat 6 0 • (X.GetStdMatrix (MatrixKey.mk3 .eLaplacian02 mkey.GetShapeType)
            + Transpose (X.GetStdMatrix (MatrixKey.mk3 .eLaplacian02 mkey.GetShapeType)))
          + X.Gmat 7 0 • (X.GetStdMatrix (MatrixKey.mk3 .eLaplacian12 mkey.GetShapeType)
            + Transpose (X.GetStdMatrix (MatrixKey.mk3 .eLaplacian12 mkey.GetShapeType)))).e j i := by
      intro i hi j hj
      simp only [DNekMat.smul_entry, DNekMat.add_entry, Transpose_entry]
      rw [h00.2 i hi j hj, h11.2 i (hr11 ▸ hi) j (hr11 ▸ hj),
        h22.2 i (hr22 ▸ hi) j (hr22 ▸ hj)]
      ring
    refine ⟨_, tet_CreateMatrix_eLaplacian_regular X mkey hg hm hreg, ⟨h00.1, key⟩, ?_⟩
    intro i hi j hj
    unfold DNekScalMat.entry
    rw [key i hi j hj]

theorem C29_regular_laplacian_matrix_is_symmetric_witness :
    (exampleLap (fun k => (k : ℚ) + 1)).Gtype ≠ .eNoGeomType
    ∧ ¬ ((exampleLap (fun k => (k : ℚ) + 1)).GetStdMatrix
        (MatrixKey.mk3 .eLaplacian01 .eTetrahedron)).IsSymmetric
    ∧ (∃ M : DNekScalMat ℚ,
        TriExp.CreateMatrix (exampleLap (fun k => (k : ℚ) + 1))
          (MatrixKey.mk3 .eLaplacian .eTetrahedron) = .ok M
        ∧ M.entry 0 1 = M.entry 1 0)
    ∧ (∃ M : DNekScalMat ℚ,
        TetExp.CreateMatrix (exampleLap (fun k => (k : ℚ) + 1))
          (MatrixKey.mk3 .eLaplacian .eTetrahedron) = .ok M
        ∧ M.entry 0 1 = M.entry 1 0) := by
  have hsym : ∀ t : MatrixType, t = .eLaplacian00 ∨ t = .eLaplacian11 ∨ t = .eLaplacian22 →
      ((exampleLap (fun k => (k : ℚ) + 1)).GetStdMatrix
        (MatrixKey.mk3 t .eTetrahedron)).IsSymmetric := by
    intro t ht
    rcases ht with rfl | rfl | rfl <;> decide
  have h := C29_regular_laplacian_matrix_is_symmetric (exampleLap (fun k => (k : ℚ) + 1))
    (MatrixKey.mk3 .eLaplacian .eTetrahedron) (by decide) rfl (by decide)
    (hsym _ (Or.inl rfl)) (hsym _ (Or.inr (Or.inl rfl))) rfl
  obtain ⟨⟨M, hM, -, hMe⟩, hT⟩ := h
  obtain ⟨N, hN, -, hNe⟩ := hT (hsym _ (Or.inr (Or.inr rfl))) rfl
  have hMr : M.GetRows = 2 := by
    have e := tri_CreateMatrix_eLaplacian_regular (exampleLap (fun k => (k : ℚ) + 1))
      (MatrixKey.mk3 .eLaplacian .eTetrahedron) (by decide) rfl (by decide)
    rw [e] at hM
    cases hM
    rfl
  have hNr : N.GetRows = 2 := by
    have e := tet_CreateMatrix_eLaplacian_regular (exampleLap (fun k => (k : ℚ) + 1))
      (MatrixKey.mk3 .eLaplacian .eTetrahedron) (by decide) rfl (by decide)
    rw [e] at hN
    cases hN
    rfl
  refine ⟨by decide, by decide, ⟨M, hM, hMe 0 (by omega) 1 (by omega)⟩,
    ⟨N, hN, hNe 0 (by omega) 1 (by omega)⟩⟩

end LaplacianSymmetry

section TriLaplacianMetricOrdered

variable {K : Type} [LinearOrderedField K]

theorem TriExp.ComputeLaplacianMetric_get (X : LocalExp3D K) (GetCoordim : ℕ)
    (fresh : MetricType → ℕ → K) (tmp : ℕ → K) (m_metrics : MetricType → Option (ℕ → K)) :
    ∃ g : (ℕ → K) × (ℕ → K) × (ℕ → K),
      (g = TriExp.LaplacianMetric_regular X GetCoordim (TriExp.LaplacianMetric_dEta X) tmp
            (fresh .MetricLaplacian00) (fresh .MetricLaplacian01) (fresh .MetricLaplacian11)
        ∨ g = TriExp.LaplacianMetric_deformed X GetCoordim (TriExp.LaplacianMetric_dEta X) tmp
            (fresh .MetricLaplacian00) (fresh .MetricLaplacian01) (fresh .MetricLaplacian11))
      ∧ TriExp.ComputeLaplacianMetric X GetCoordim fresh tmp m_metrics .MetricLaplacian00
          = some (Vmath.Vmul X.TotPoints (X.quadMetric m_metrics) g.1 g.1)
      ∧ TriExp.ComputeLaplacianMetric X GetCoordim fresh tmp m_metrics .MetricLaplacian01
          = some (Vmath.Vmul X.TotPoints (X.quadMetric m_metrics) g.2.1 g.2.1)
      ∧ TriExp.ComputeLaplacianMetric X GetCoordim fresh tmp m_metrics .MetricLaplacian11
          = some (Vmath.Vmul X.TotPoints (X.quadMetric m_metrics) g.2.2 g.2.2) := by
  by_cases hreg : X.Gtype = .eRegular ∨ X.Gtype = .eMovingRegular
  · refine ⟨_, Or.inl rfl, ?_, ?_, ?_⟩ <;>
      unfold TriExp.ComputeLaplacianMetric LocalExp3D.quadMetric <;>
      cases hq : m_metrics .MetricQuadrature <;>
      simp [laplacianKeys2, setMetric, LocalExp3D.MultiplyByQuadratureMetric,
        LocalExp3D.ComputeQuadratureMetric, hq, hreg]
  · refine ⟨_, Or.inr rfl, ?_, ?_, ?_⟩ <;>
      unfold TriExp.ComputeLaplacianMetric LocalExp3D.quadMetric <;>
      cases hq : m_metrics .MetricQuadrature <;>
      simp [laplacianKeys2, setMetric, LocalExp3D.MultiplyByQuadratureMetric,
        LocalExp3D.ComputeQuadratureMetric, hq, hreg]

theorem psd_of_sums (q a0 a1 a2 b0 b1 b2 : K) (hq : 0 ≤ q) :
    0 ≤ q * (a0 * a0 + a1 * a1 + a2 * a2) ∧ 0 ≤ q * (b0 * b0 + b1 * b1 + b2 * b2)
    ∧ (q * (b0 * a0 + b1 * a1 + b2 * a2)) ^ 2
        ≤ q * (a0 * a0 + a1 * a1 + a2 * a2) * (q * (b0 * b0 + b1 * b1 + b2 * b2)) := by
  refine ⟨mul_nonneg hq (add_nonneg (add_nonneg (mul_self_nonneg _) (mul_self_nonneg _))
      (mul_self_nonneg _)),
    mul_nonneg hq (add_nonneg (add_nonneg (mul_self_nonneg _) (mul_self_nonneg _))
      (mul_self_nonneg _)), ?_⟩
  have h : q * (a0 * a0 + a1 * a1 + a2 * a2) * (q * (b0 * b0 + b1 * b1 + b2 * b2))
      - (q * (b0 * a0 + b1 * a1 + b2 * a2)) ^ 2
      = q ^ 2 * ((a0 * b1 - a1 * b0) ^ 2 + (a0 * b2 - a2 * b0) ^ 2
          + (a1 * b2 - a2 * b1) ^ 2) := by ring
  have h2 : 0 ≤ q ^ 2 * ((a0 * b1 - a1 * b0) ^ 2 + (a0 * b2 - a2 * b0) ^ 2
      + (a1 * b2 - a2 * b1) ^ 2) := by positivity
  linarith

theorem TriExp.LaplacianMetric_regular_at (X : LocalExp3D K) (GetCoordim : ℕ)
    (d : (ℕ → K) × (ℕ → K)) (tmp m00 m01 m11 : ℕ → K) (n : ℕ) (hn : n < X.TotPoints) :
    ∃ a0 a1 a2 b0 b1 b2 : K,
      (TriExp.LaplacianMetric_regular X GetCoordim d tmp m00 m01 m11).1 n
          = a0 * a0 + a1 * a1 + a2 * a2
      ∧ (TriExp.LaplacianMetric_regular X GetCoordim d tmp m00 m01 m11).2.1 n
          = b0 * a0 + b1 * a1 + b2 * a2
      ∧ (TriExp.LaplacianMetric_regular X GetCoordim d tmp m00 m01 m11).2.2 n
          = b0 * b0 + b1 * b1 + b2 * b2 := by
  by_cases h3 : GetCoordim = 3
  · refine ⟨X.DerivFactors 0 0 * d.1 n + X.DerivFactors 1 0 * d.2 n,
      X.DerivFactors 2 0 * d.1 n + X.DerivFactors 3 0 * d.2 n,
      X.DerivFactors 4 0 * d.1 n + X.DerivFactors 5 0 * d.2 n,
      X.DerivFactors 1 0, X.DerivFactors 3 0, X.DerivFactors 5 0, ?_, ?_, ?_⟩ <;>
      simp [TriExp.LaplacianMetric_regular, Vmath.Smul, Vmath.Svtvp, Vmath.Vmul, Vmath.Vvtvp,
        Vmath.Fill, hn, h3] <;> ring
  · refine ⟨X.DerivFactors 0 0 * d.1 n + X.DerivFactors 1 0 * d.2 n,
      X.DerivFactors 2 0 * d.1 n + X.DerivFactors 3 0 * d.2 n, 0,
      X.DerivFactors 1 0, X.DerivFactors 3 0, 0, ?_, ?_, ?_⟩ <;>
      simp [TriExp.LaplacianMetric_regular, Vmath.Smul, Vmath.Svtvp, Vmath.Vmul, Vmath.Vvtvp,
        Vmath.Fill, hn, h3] <;> ring

theorem TriExp.LaplacianMetric_deformed_at (X : LocalExp3D K) (GetCoordim : ℕ)
    (d : (ℕ → K) × (ℕ → K)) (tmp m00 m01 m11 : ℕ → K) (n : ℕ) (hn : n < X.TotPoints) :
    ∃ a0 a1 a2 b0 b1 b2 : K,
      (TriExp.LaplacianMetric_deformed X GetCoordim d tmp m00 m01 m11).1 n
          = a0 * a0 + a1 * a1 + a2 * a2
      ∧ (TriExp.LaplacianMetric_deformed X GetCoordim d tmp m00 m01 m11).2.1 n
          = b0 * a0 + b1 * a1 + b2 * a2
      ∧ (TriExp.LaplacianMetric_deformed X GetCoordim d tmp m00 m01 m11).2.2 n
          = b0 * b0 + b1 * b1 + b2 * b2 := by
  by_cases h3 : GetCoordim = 3
  · refine ⟨X.DerivFactors 0 n * d.1 n + X.DerivFactors 1 n * d.2 n,
      X.DerivFactors 2 n * d.1 n + X.DerivFactors 3 n * d.2 n,
      X.DerivFactors 4 n * d.1 n + X.DerivFactors 5 n * d.2 n,
      X.DerivFactors 1 n, X.DerivFactors 3 n, X.DerivFactors 5 n, ?_, ?_, ?_⟩ <;>
      simp [TriExp.LaplacianMetric_deformed, Vmath.Vmul, Vmath.Vvtvp, hn, h3] <;> ring
  · refine ⟨X.DerivFactors 0 n * d.1 n + X.DerivFactors 1 n * d.2 n,
      X.DerivFactors 2 n * d.1 n + X.DerivFactors 3 n * d.2 n, 0,
      X.DerivFactors 1 n, X.DerivFactors 3 n, 0, ?_, ?_, ?_⟩ <;>
      simp [TriExp.LaplacianMetric_deformed, Vmath.Vmul, Vmath.Vvtvp, hn, h3] <;> ring

/-- C30: the Laplacian metric that `TriExp::ComputeLaplacianMetric` caches is pointwise
positive semidefinite.  For every geometry type (regular, moving regular, deformed),
every derivative-factor array, every coordinate dimension and every quadrature point
`n < nqtot` whose quadrature-metric value `q[n]` is non-negative, the three arrays
stored under `MetricLaplacian00`, `MetricLaplacian01`, `MetricLaplacian11` satisfy
`metric00[n] >= 0`, `metric11[n] >= 0` and `metric00[n] * metric11[n] >= metric01[n]^2`.
The inequalities hold for every value of the collapsed-coordinate factors `dEta_dXi`,
in particular at the points with `z1 != 1`. -/
theorem C30_tri_laplacian_metric_is_positive_semidefinite (X : LocalExp3D K)
    (GetCoordim : ℕ) (fresh : MetricType → ℕ → K) (tmp : ℕ → K)
    (m_metrics : MetricType → Option (ℕ → K)) (n : ℕ) (hn : n < X.TotPoints)
    (hq : 0 ≤ X.quadMetric m_metrics n) :
    ∃ metric00 metric01 metric11 : ℕ → K,
      TriExp.ComputeLaplacianMetric X GetCoordim fresh tmp m_metrics .MetricLaplacian00
          = some metric00
      ∧ TriExp.ComputeLaplacianMetric X GetCoordim fresh tmp m_metrics .MetricLaplacian01
          = some metric01
      ∧ TriExp.ComputeLaplacianMetric X GetCoordim fresh tmp m_metrics .MetricLaplacian11
          = some metric11
      ∧ 0 ≤ metric00 n ∧ 0 ≤ metric11 n ∧ metric01 n ^ 2 ≤ metric00 n * metric11 n := by
  obtain ⟨g, hg, e00, e01, e11⟩ :=
    TriExp.ComputeLaplacianMetric_get X GetCoordim fresh tmp m_metrics
  have hform : ∃ a0 a1 a2 b0 b1 b2 : K, g.1 n = a0 * a0 + a1 * a1 + a2 * a2
      ∧ g.2.1 n = b0 * a0 + b1 * a1 + b2 * a2 ∧ g.2.2 n = b0 * b0 + b1 * b1 + b2 * b2 := by
    rcases hg with rfl | rfl
    · exact TriExp.LaplacianMetric_regular_at X GetCoordim _ tmp _ _ _ n hn
    · exact TriExp.LaplacianMetric_deformed_at X GetCoordim _ tmp _ _ _ n hn
  obtain ⟨a0, a1, a2, b0, b1, b2, f00, f01, f11⟩ := hform
  obtain ⟨p00, p11, pcs⟩ := psd_of_sums (X.quadMetric m_metrics n) a0 a1 a2 b0 b1 b2 hq
  refine ⟨_, _, _, e00, e01, e11, ?_, ?_, ?_⟩
  · simp only [Vmath.Vmul, if_pos hn, f00]
    exact p00
  · simp only [Vmath.Vmul, if_pos hn, f11]
    exact p11
  · simp only [Vmath.Vmul, if_pos hn, f00, f01, f11]
    exact pcs

theorem C30_tri_laplacian_metric_is_positive_semidefinite_witness :
    (0 : ℚ) ≤ (exampleTri3 .eDeformed).quadMetric (fun _ => none) 1
    ∧ ∃ metric00 metric01 metric11 : ℕ → ℚ,
      TriExp.ComputeLaplacianMetric (exampleTri3 .eDeformed) 3 (fun _ _ => 0) (fun _ => 0)
          (fun _ => none) .MetricLaplacian00 = some metric00
      ∧ TriExp.ComputeLaplacianMetric (exampleTri3 .eDeformed) 3 (fun _ _ => 0) (fun _ => 0)
          (fun _ => none) .MetricLaplacian01 = some metric01
      ∧ TriExp.ComputeLaplacianMetric (exampleTri3 .eDeformed) 3 (fun _ _ => 0) (fun _ => 0)
          (fun _ => none) .MetricLaplacian11 = some metric11
      ∧ 0 ≤ metric00 1 ∧ 0 ≤ metric11 1 ∧ metric01 1 ^ 2 ≤ metric00 1 * metric11 1 :=
  have hq : (0 : ℚ) ≤ (exampleTri3 .eDeformed).quadMetric (fun _ => none) 1 := by
    simp [LocalExp3D.quadMetric, exampleTri3]
  ⟨hq, C30_tri_laplacian_metric_is_positive_semidefinite (exampleTri3 .eDeformed) 3
    (fun _ _ => 0) (fun _ => 0) (fun _ => none) 1 (by decide) hq⟩

end TriLaplacianMetricOrdered

section FeketeLoops



theorem forLoopE_empty {σ : Type} (lo hi : ℕ) (body : ℕ → σ → Except String σ) (s : σ)
    (h : hi ≤ lo) : forLoopE lo hi body s = .ok s := by
  unfold forLoopE
  rw [Nat.sub_eq_zero_of_le h]
  rfl

theorem forLoopE_step {σ : Type} (lo hi : ℕ) (body : ℕ → σ → Except String σ) (s : σ)
    (h : lo < hi) :
    forLoopE lo hi body s = (body lo s).bind (forLoopE (lo + 1) hi body) := by
  unfold forLoopE
  have e : hi - lo = (hi - (lo + 1)) + 1 := by omega
  rw [e, List.range'_succ, List.foldlM_cons]
  rfl

theorem forLoopE_fault_first {σ : Type} (lo hi : ℕ) (body : ℕ → σ → Except String σ) (s : σ)
    (e : String) (h : lo < hi) (hb : body lo s = .error e) :
    forLoopE lo hi body s = .error e := by
  rw [forLoopE_step lo hi body s h, hb]
  rfl

theorem foldlM_count {σ : Type} (μ : σ → ℕ) (w : ℕ → ℕ) (f : σ → ℕ → Except String σ)
    (hf : ∀ s i s1, f s i = .ok s1 → μ s1 = μ s + w i) (l : List ℕ) :
    ∀ s s1, l.foldlM f s = .ok s1 → μ s1 = μ s + (l.map w).sum := by
  induction l with
  | nil =>
    intro s s1 h
    cases h
    simp
  | cons a l ih =>
    intro s s1 h
    rw [List.foldlM_cons] at h
    cases hfa : f s a with
    | error e1 =>
      rw [hfa] at h
      cases h
    | ok s2 =>
      rw [hfa] at h
      have h1 := ih s2 s1 h
      rw [h1, hf s a s2 hfa, List.map_cons, List.sum_cons]
      omega

theorem foldlM_simulates {σ : Type} (f : σ → ℕ → Except String σ) (g : σ → ℕ → σ)
    (hf : ∀ s i s1, f s i = .ok s1 → s1 = g s i) (l : List ℕ) :
    ∀ s s1, l.foldlM f s = .ok s1 → s1 = l.foldl g s := by
  induction l with
  | nil =>
    intro s s1 h
    cases h
    rfl
  | cons a l ih =>
    intro s s1 h
    rw [List.foldlM_cons] at h
    cases hfa : f s a with
    | error e1 =>
      rw [hfa] at h
      cases h
    | ok s2 =>
      rw [hfa] at h
      rw [List.foldl_cons, ← hf s a s2 hfa]
      exact ih s2 s1 h

theorem forLoopE_skip {σ : Type} (lo hi : ℕ) (body : ℕ → σ → Except String σ)
    (hb : ∀ i s, body i s = .ok s) (s : σ) : forLoopE lo hi body s = .ok s := by
  unfold forLoopE
  induction (List.range' lo (hi - lo)) with
  | nil => rfl
  | cons a l ih =>
    rw [List.foldlM_cons, hb a s]
    exact ih

theorem except_ok_bind {α β : Type} (a : α) (f : α → Except String β) :
    (Except.ok a >>= f) = f a := rfl

theorem except_bind_ok {α β : Type} (a : α) (f : α → Except String β) :
    (Except.ok a).bind f = f a := rfl

theorem except_bind_error {α β : Type} (e : String) (f : α → Except String β) :
    (Except.error e : Except String α).bind f = Except.error e := rfl

theorem sum_map_range (f : ℕ → ℕ) (n : ℕ) :
    ((List.range n).map f).sum = ∑ i in Finset.range n, f i := by
  induction n with
  | zero => rfl
  | succ n ih =>
    rw [List.range_succ, List.map_append, List.sum_append, Finset.sum_range_succ, ih]
    simp

theorem unsignedToInt_pred_small (n : ℕ) (h : n ≤ 2) :
    (unsignedToInt (unsignedPred n)).toNat ≤ 1 := by
  have hn : n = 0 ∨ n = 1 ∨ n = 2 := by omega
  rcases hn with e | e | e
  · rw [e]; decide
  · rw [e]; decide
  · rw [e]; decide

end FeketeLoops

section FeketeSorts

variable {K : Type}

theorem readPoint_outside (sh : PointsShape) (m : ℕ → ℕ → K) (a b : ℕ)
    (h : sh.arrays ≤ a) : readPoint sh m a b = .error "m_points index out of range" := by
  unfold readPoint
  rw [if_neg (by omega)]
  rfl

theorem bubbleSortChecked_faults (sh : PointsShape) (test : K → K → Bool)
    (c istart iend : ℕ) (m : ℕ → ℕ → K) (harr : sh.arrays ≤ istart + 1)
    (h : istart + 1 < iend) :
    bubbleSortChecked sh test c istart iend m = .error "m_points index out of range" := by
  unfold bubbleSortChecked
  apply forLoopE_fault_first _ _ _ _ _ (by omega)
  apply forLoopE_fault_first _ _ _ _ _ (by omega)
  rw [readPoint_outside sh m (istart + 1) c harr]
  rfl

theorem bubbleSortChecked_short (sh : PointsShape) (test : K → K → Bool)
    (c istart iend : ℕ) (m : ℕ → ℕ → K) (h : iend ≤ istart + 1) :
    bubbleSortChecked sh test c istart iend m = .ok m := by
  unfold bubbleSortChecked
  apply forLoopE_skip
  intro i s
  exact forLoopE_empty _ _ _ _ (by omega)

theorem unsignedToInt_pred (n : ℕ) (h1 : 1 ≤ n) (h2 : n ≤ 2147483648) :
    unsignedToInt (unsignedPred n) = (n : ℤ) - 1 := by
  unfold unsignedToInt unsignedPred
  have e : (n + 4294967296 - 1) % 4294967296 = n - 1 := by omega
  rw [e, if_pos (by omega)]
  omega

end FeketeSorts

section FeketeChecked

variable {K : Type} [LinearOrderedField K]

theorem NodalPointReorder2dChecked_faults (sh : PointsShape) (key : PointsKey)
    (m : ℕ → ℕ → K) (harr : sh.arrays ≤ 4) (h3 : 3 ≤ key.NumPoints)
    (hle : key.NumPoints ≤ 2147483648) :
    NodalPointReorder2dChecked sh key m = .error "m_points index out of range" := by
  unfold NodalPointReorder2dChecked
  simp only [unsignedToInt_pred key.NumPoints (by omega) hle]
  rw [if_neg (by omega), bubbleSortChecked_faults sh _ 0 3 _ m (by omega) (by omega)]
  rfl

theorem NodalPointReorder2dChecked_no_comparison (sh : PointsShape) (key : PointsKey)
    (m : ℕ → ℕ → K) (h : key.NumPoints ≤ 2) :
    NodalPointReorder2dChecked sh key m = .ok m := by
  have hne := unsignedToInt_pred_small key.NumPoints h
  unfold NodalPointReorder2dChecked
  generalize unsignedToInt (unsignedPred key.NumPoints) = z at hne
  generalize hn : z.toNat = n at hne
  by_cases h0 : z = 0
  · simp only [h0, if_true]
    rfl
  · simp only [h0, if_false, hn]
    rw [bubbleSortChecked_short sh (fun x y => decide (x < y)) 0 3 (3 + n) m (by omega)]
    rw [except_ok_bind]
    rw [bubbleSortChecked_short sh (fun x y => decide (x > y)) 0 (3 + n) (3 + n + n) m
      (by omega)]
    rw [except_ok_bind]
    rw [bubbleSortChecked_short sh (fun x y => decide (x > y)) 1 (3 + 2 * n) (3 + 2 * n + n) m
      (by omega)]

end FeketeChecked

section FeketeStore

variable {K : Type} [LinearOrderedField K]

theorem storePoint_cases (sh : PointsShape) (b c : K) (s : PointsState K) :
    storePoint sh b c s = .error "m_points index out of range"
      ∨ ∃ m, storePoint sh b c s = .ok ⟨s.isum + 1, m⟩ := by
  unfold storePoint writePoint
  by_cases h0 : 0 < sh.arrays ∧ s.isum < sh.size
  · by_cases h1 : 1 < sh.arrays ∧ s.isum < sh.size
    · rw [if_pos h0]
      simp only [pure, Except.pure]
      rw [except_ok_bind, if_pos h1, except_ok_bind]
      exact Or.inr ⟨_, rfl⟩
    · rw [if_pos h0]
      simp only [pure, Except.pure]
      rw [except_ok_bind, if_neg h1]
      exact Or.inl rfl
  · rw [if_neg h0]
    exact Or.inl rfl

theorem storePoint_isum (sh : PointsShape) (b c : K) (s s1 : PointsState K)
    (h : storePoint sh b c s = .ok s1) : s1.isum = s.isum + 1 := by
  rcases storePoint_cases sh b c s with h1 | ⟨m, h1⟩
  · rw [h1] at h
    cases h
  · rw [h1] at h
    cases h
    rfl

end FeketeStore

section FeketeRowsChecked

variable {K : Type} [LinearOrderedField K] [FloorRing K]

theorem feketeRow_isum (T : FeketeTables K) (sh : PointsShape) (index : ℕ)
    (s s1 : PointsState K) (h : feketeRow T sh index s = .ok s1) :
    s1.isum = s.isum + pointsOfRow T index := by
  unfold feketeRow at h
  unfold pointsOfRow
  split_ifs at h ⊢
  · exact storePoint_isum _ _ _ _ _ h
  · exact foldlM_count (fun t : PointsState K => t.isum) (fun _ => 1) _
      (fun s i s1 he => storePoint_isum _ _ _ _ _ he) _ s s1 h
  · exact foldlM_count (fun t : PointsState K => t.isum) (fun _ => 1) _
      (fun s i s1 he => storePoint_isum _ _ _ _ _ he) _ s s1 h
  · exact foldlM_count (fun t : PointsState K => t.isum) (fun _ => 1) _
      (fun s i s1 he => storePoint_isum _ _ _ _ _ he) _ s s1 h
  · cases h
    rfl

theorem CalculatePoints_eq (T : FeketeTables K) (key : PointsKey) (sh : PointsShape)
    (storage : ℕ → ℕ → K) :
    CalculatePoints T key sh storage
      = (forLoopE 0 (T.NodalTriFeketeNPTS key.NumPoints)
          (fun i s => feketeRow T sh (firstRow T key + i) s)
          (⟨0, storage⟩ : PointsState K)).bind (fun s =>
        (NodalPointReorder2dChecked sh key s.m_points).bind (fun m =>
          (ASSERTL (s.isum == key.TotNumPoints) "sum not equal to npts").bind
            (fun _ => .ok m))) := rfl

/-- A call of `CalculatePoints` that returns has generated exactly the total number of
points of the key. -/
theorem CalculatePoints_ok_count (T : FeketeTables K) (key : PointsKey) (sh : PointsShape)
    (storage m : ℕ → ℕ → K) (h : CalculatePoints T key sh storage = .ok m) :
    pointsGenerated T key = key.TotNumPoints := by
  rw [CalculatePoints_eq] at h
  cases hrow : forLoopE 0 (T.NodalTriFeketeNPTS key.NumPoints)
      (fun i s => feketeRow T sh (firstRow T key + i) s)
      (⟨0, storage⟩ : PointsState K) with
  | error e =>
    rw [hrow, except_bind_error] at h
    cases h
  | ok s =>
    rw [hrow, except_bind_ok] at h
    have hs : s.isum = 0 + ((List.range' 0 (T.NodalTriFeketeNPTS key.NumPoints - 0)).map
        (fun i => pointsOfRow T (firstRow T key + i))).sum :=
      foldlM_count (fun t : PointsState K => t.isum) _ _
        (fun s i s1 he => feketeRow_isum T sh _ s s1 he) _ _ s hrow
    have hcount : s.isum = pointsGenerated T key := by
      rw [hs]
      unfold pointsGenerated
      rw [Nat.sub_zero, zero_add, ← List.range_eq_range', sum_map_range]
    cases hre : NodalPointReorder2dChecked sh key s.m_points with
    | error e =>
      rw [hre, except_bind_error] at h
      cases h
    | ok m1 =>
      rw [hre, except_bind_ok] at h
      by_cases hc : s.isum = key.TotNumPoints
      · rw [← hcount, hc]
      · exfalso
        have hb : (s.isum == key.TotNumPoints) = false := by
          simpa using hc
        rw [hb] at h
        cases h

end FeketeRowsChecked

section FeketeSimulation

variable {K : Type}

theorem readPoint_ok (sh : PointsShape) (m : ℕ → ℕ → K) (a b : ℕ) (x : K)
    (h : readPoint sh m a b = .ok x) : x = m a b := by
  unfold readPoint at h
  split_ifs at h
  cases h
  rfl

theorem writePoint_ok (sh : PointsShape) (m m1 : ℕ → ℕ → K) (a b : ℕ) (v : K)
    (h : writePoint sh m a b v = .ok m1) : m1 = set2 m a b v := by
  unfold writePoint at h
  split_ifs at h
  cases h
  rfl

theorem except_bind_eq_ok {α β : Type} (x : Except String α) (f : α → Except String β)
    (b : β) (h : x.bind f = .ok b) : ∃ a, x = .ok a ∧ f a = .ok b := by
  cases x with
  | error e => cases h
  | ok a => exact ⟨a, rfl, h⟩

theorem swapEntriesChecked_ok (sh : PointsShape) (m m1 : ℕ → ℕ → K) (j : ℕ)
    (h : swapEntriesChecked sh m j = .ok m1) : m1 = swapEntries m j := by
  unfold swapEntriesChecked at h
  obtain ⟨t0, h1, h⟩ := except_bind_eq_ok _ _ _ h
  obtain ⟨v0, h2, h⟩ := except_bind_eq_ok _ _ _ h
  obtain ⟨ma, h3, h⟩ := except_bind_eq_ok _ _ _ h
  obtain ⟨mb, h4, h⟩ := except_bind_eq_ok _ _ _ h
  obtain ⟨t1, h5, h⟩ := except_bind_eq_ok _ _ _ h
  obtain ⟨v1, h6, h⟩ := except_bind_eq_ok _ _ _ h
  obtain ⟨mc, h7, h⟩ := except_bind_eq_ok _ _ _ h
  have e1 := readPoint_ok _ _ _ _ _ h1
  have e2 := readPoint_ok _ _ _ _ _ h2
  have e3 := writePoint_ok _ _ _ _ _ _ h3
  have e4 := writePoint_ok _ _ _ _ _ _ h4
  have e5 := readPoint_ok _ _ _ _ _ h5
  have e6 := readPoint_ok _ _ _ _ _ h6
  have e7 := writePoint_ok _ _ _ _ _ _ h7
  have e8 := writePoint_ok _ _ _ _ _ _ h
  subst e1 e2 e3 e4 e5 e6 e7
  rw [e8]
  rfl

theorem bubbleSortChecked_ok (sh : PointsShape) (test : K → K → Bool) (c istart iend : ℕ)
    (m m1 : ℕ → ℕ → K) (h : bubbleSortChecked sh test c istart iend m = .ok m1) :
    m1 = bubbleSort test c istart iend m := by
  unfold bubbleSortChecked forLoopE at h
  unfold bubbleSort forLoop
  refine foldlM_simulates _ _ ?_ _ m m1 h
  intro s i s1 hs
  beta_reduce at hs ⊢
  refine foldlM_simulates _ _ ?_ _ s s1 hs
  intro s j s1 hs
  beta_reduce at hs ⊢
  obtain ⟨x, h1, hs⟩ := except_bind_eq_ok _ _ _ hs
  obtain ⟨y, h2, hs⟩ := except_bind_eq_ok _ _ _ hs
  have e1 := readPoint_ok _ _ _ _ _ h1
  have e2 := readPoint_ok _ _ _ _ _ h2
  subst e1 e2
  by_cases ht : test (s (j + 1) c) (s j c) = true
  · rw [if_pos ht] at hs
    rw [if_pos ht]
    exact swapEntriesChecked_ok sh s s1 j hs
  · rw [if_neg ht] at hs
    rw [if_neg ht]
    cases hs
    rfl

end FeketeSimulation

section FeketeSimulationOrdered

variable {K : Type} [LinearOrderedField K]

/-- When `NodalPointReorder2dChecked` returns, no access was outside the storage and the
result is the table that `NodalPointReorder2d` computes. -/
theorem NodalPointReorder2dChecked_ok (sh : PointsShape) (key : PointsKey)
    (m m1 : ℕ → ℕ → K) (h : NodalPointReorder2dChecked sh key m = .ok m1) :
    m1 = NodalPointReorder2d key m := by
  unfold NodalPointReorder2dChecked at h
  unfold NodalPointReorder2d
  generalize unsignedToInt (unsignedPred key.NumPoints) = z at h ⊢
  by_cases h0 : z = 0
  · simp only [h0, if_true] at h ⊢
    cases h
    rfl
  · simp only [h0, if_false] at h ⊢
    obtain ⟨ma, h1, h⟩ := except_bind_eq_ok _ _ _ h
    obtain ⟨mb, h2, h⟩ := except_bind_eq_ok _ _ _ h
    rw [bubbleSortChecked_ok _ _ _ _ _ _ _ h, bubbleSortChecked_ok _ _ _ _ _ _ _ h2,
      bubbleSortChecked_ok _ _ _ _ _ _ _ h1]

end FeketeSimulationOrdered

section FeketeCapacityLoops



theorem foldlM_ok_count {σ : Type} (μ : σ → ℕ) (w : ℕ → ℕ) (cap : ℕ)
    (f : σ → ℕ → Except String σ)
    (hf : ∀ s i, μ s + w i ≤ cap → ∃ s1, f s i = .ok s1 ∧ μ s1 = μ s + w i) (l : List ℕ) :
    ∀ s, μ s + (l.map w).sum ≤ cap →
      ∃ s1, l.foldlM f s = .ok s1 ∧ μ s1 = μ s + (l.map w).sum := by
  induction l with
  | nil =>
    intro s _
    exact ⟨s, rfl, by simp⟩
  | cons a l ih =>
    intro s h
    rw [List.map_cons, List.sum_cons] at h
    obtain ⟨s2, h2, e2⟩ := hf s a (by omega)
    obtain ⟨s1, h1, e1⟩ := ih s2 (by omega)
    refine ⟨s1, ?_, ?_⟩
    · rw [List.foldlM_cons, h2]
      exact h1
    · rw [e1, e2, List.map_cons, List.sum_cons]
      omega

end FeketeCapacityLoops

section FeketeCapacity

variable {K : Type} [LinearOrderedField K]

theorem storePoint_inside (sh : PointsShape) (b c : K) (s : PointsState K)
    (harr : 2 ≤ sh.arrays) (h : s.isum + 1 ≤ sh.size) :
    ∃ s1, storePoint sh b c s = .ok s1 ∧ s1.isum = s.isum + 1 := by
  unfold storePoint writePoint
  rw [if_pos ⟨by omega, by omega⟩]
  simp only [pure, Except.pure]
  rw [except_ok_bind, if_pos ⟨by omega, by omega⟩, except_ok_bind]
  exact ⟨_, rfl, rfl⟩

end FeketeCapacity

section FeketeCapacityRows

variable {K : Type} [LinearOrderedField K] [FloorRing K]

theorem feketeRow_inside (T : FeketeTables K) (sh : PointsShape) (index : ℕ)
    (s : PointsState K) (harr : 2 ≤ sh.arrays) (h : s.isum + pointsOfRow T index ≤ sh.size) :
    ∃ s1, feketeRow T sh index s = .ok s1 ∧ s1.isum = s.isum + pointsOfRow T index := by
  unfold feketeRow
  unfold pointsOfRow at h ⊢
  split_ifs at h ⊢
  · exact storePoint_inside sh _ _ s harr h
  · exact foldlM_ok_count (fun t : PointsState K => t.isum) (fun _ => 1) sh.size _
      (fun s i hs => storePoint_inside sh _ _ s harr hs) _ s h
  · exact foldlM_ok_count (fun t : PointsState K => t.isum) (fun _ => 1) sh.size _
      (fun s i hs => storePoint_inside sh _ _ s harr hs) _ s h
  · exact foldlM_ok_count (fun t : PointsState K => t.isum) (fun _ => 1) sh.size _
      (fun s i hs => storePoint_inside sh _ _ s harr hs) _ s h
  · exact ⟨s, rfl, rfl⟩

/-- Where no access leaves the storage (two points per direction at most, and no more
points generated than the arrays hold), `CalculatePoints` fails with its assertion
exactly when the number of points generated differs from the total number of points of
the key, and returns exactly when they are equal. -/
theorem CalculatePoints_in_range (T : FeketeTables K) (key : PointsKey) (sh : PointsShape)
    (storage : ℕ → ℕ → K) (harr : 2 ≤ sh.arrays) (hn : key.NumPoints ≤ 2)
    (hcap : pointsGenerated T key ≤ sh.size) :
    (CalculatePoints T key sh storage = .error "sum not equal to npts"
        ↔ pointsGenerated T key ≠ key.TotNumPoints)
      ∧ ((CalculatePoints T key sh storage).isOk = true
        ↔ pointsGenerated T key = key.TotNumPoints) := by
  have hsum : ((List.range' 0 (T.NodalTriFeketeNPTS key.NumPoints - 0)).map
      (fun i => pointsOfRow T (firstRow T key + i))).sum = pointsGenerated T key := by
    unfold pointsGenerated
    rw [Nat.sub_zero, ← List.range_eq_range', sum_map_range]
  obtain ⟨s, hrow, hs⟩ := foldlM_ok_count (fun t : PointsState K => t.isum)
    (fun i => pointsOfRow T (firstRow T key + i)) sh.size
    (fun s i => feketeRow T sh (firstRow T key + i) s)
    (fun s i hs => feketeRow_inside T sh _ s harr hs)
    (List.range' 0 (T.NodalTriFeketeNPTS key.NumPoints - 0)) (⟨0, storage⟩ : PointsState K)
    (by rw [hsum]; simpa using hcap)
  rw [hsum] at hs
  have hs1 : s.isum = pointsGenerated T key := by simpa using hs
  have hrow1 : forLoopE 0 (T.NodalTriFeketeNPTS key.NumPoints)
      (fun i s => feketeRow T sh (firstRow T key + i) s)
      (⟨0, storage⟩ : PointsState K) = .ok s := hrow
  rw [CalculatePoints_eq, hrow1, except_bind_ok,
    NodalPointReorder2dChecked_no_comparison sh key s.m_points hn, except_bind_ok, hs1]
  by_cases hc : pointsGenerated T key = key.TotNumPoints
  · have hb : (pointsGenerated T key == key.TotNumPoints) = true := by simpa using hc
    rw [hb]
    simp [hc, ASSERTL, Except.bind, Except.isOk, Except.toBool, pure, Except.pure]
  · have hb : (pointsGenerated T key == key.TotNumPoints) = false := by simpa using hc
    rw [hb]
    simp [hc, ASSERTL, Except.bind, Except.isOk, Except.toBool, throw, throwThe,
      MonadExceptOf.throw]

end FeketeCapacityRows

section FeketeClaims

variable {K : Type} [LinearOrderedField K] [FloorRing K]

theorem CalculatePoints_rowsRead (T : FeketeTables K) (key : PointsKey) (sh : PointsShape)
    (storage : ℕ → ℕ → K) :
    CalculatePoints T key sh storage
      = ((rowsRead T key).foldlM (fun s index => feketeRow T sh index s)
          (⟨0, storage⟩ : PointsState K)).bind (fun s =>
        (NodalPointReorder2dChecked sh key s.m_points).bind (fun m =>
          (ASSERTL (s.isum == key.TotNumPoints) "sum not equal to npts").bind
            (fun _ => .ok m))) := by
  rw [CalculatePoints_eq]
  unfold forLoopE rowsRead
  rw [Nat.sub_zero, ← List.range_eq_range', List.foldlM_map]

end FeketeClaims

section FeketeReorderClaim

variable {K : Type} [LinearOrderedField K]

/-- C22: `NodalTriFekete::NodalPointReorder2d` does not permute the stored points.  The
member `m_points` holds one array per coordinate, `m_points[0]`, `m_points[1]`,
`m_points[2]` at most, point `n` being `(m_points[0][n], m_points[1][n])`, while the
routine compares and exchanges `m_points[j+1][.]` and `m_points[j][.]` with `j >= 3`.
For every key with `NumPoints >= 3`, that is two or more points per edge, the first
comparison reads `m_points[4][0]` and `m_points[3][0]`, which are outside the storage,
and the call ends there instead of returning reordered points. -/
theorem C22_reorder_reads_outside_coordinate_arrays (sh : PointsShape) (key : PointsKey)
    (m : ℕ → ℕ → K) (harr : sh.arrays ≤ 3) (h3 : 3 ≤ key.NumPoints)
    (hle : key.NumPoints ≤ 2147483648) :
    NodalPointReorder2dChecked sh key m = .error "m_points index out of range" :=
  NodalPointReorder2dChecked_faults sh key m (by omega) h3 hle

theorem C22_reorder_reads_outside_coordinate_arrays_witness :
    NodalPointReorder2dChecked ⟨3, 9⟩ ⟨3, 9⟩ exampleStorage
      = .error "m_points index out of range" :=
  C22_reorder_reads_outside_coordinate_arrays ⟨3, 9⟩ ⟨3, 9⟩ exampleStorage (by decide)
    (by decide) (by decide)

end FeketeReorderClaim

end Nektar
